import Mathlib

/-!
# RoadSim core: colliders, component registry, scene and transform

A shallow embedding of `src/app/core`: the collider hierarchy (`Collider.h`,
`Collider.cpp`), the component registry of `GameObject` (`GameObject.h`,
`GameObject.cpp`), the entity collection `Scene` (`Scene.h`, `Scene.cpp`) and the
`Transform` component with its cached matrix (`Transform.h`, `Transform.cpp`).

Conventions of the embedding.

* `float` is read in three ways.  The formulas of the code are transcribed over exact
  rational arithmetic (`ℚ`): a statement over these definitions is a statement about the
  formulas evaluated without rounding.  Where rounding, overflow or NaN decide the answer
  of a collider query, the query is transcribed again in IEEE 754 binary32 arithmetic
  (`Binary32` and the classes `Rounded.X`).  The round trip of `Transform`, which the
  specification states in real arithmetic, is transcribed over an arbitrary field (the
  classes `AnyField.X`), to be read over the real numbers.
* In the collider queries a C++ pointer is modelled by an `Option` holding a snapshot of
  the object it points to (`none` is `nullptr`).  The queries are `const` and only read
  through the pointers.  In the registry a pointer is the identity of its target.
* Dereferencing a null pointer is undefined behaviour in the source; the embedding
  returns `none` there, and `some r` when the source returns `r`.
* `sf::Vector2f`, `sf::FloatRect` and `sf::Transform` are the SFML 2 value types;
  their operations follow `SFML/Graphics/Rect.inl` and `SFML/Graphics/Transform.cpp`.
-/

namespace RoadSim.Core

/-! ## SFML value types -/

/-- Value type `sf::Vector2f`. -/
structure Vector2f where
  x : ℚ
  y : ℚ
  deriving DecidableEq

/-- Componentwise sum, `operator+` of `sf::Vector2f`. -/
instance : Add Vector2f where
  add a b := { x := a.x + b.x, y := a.y + b.y }

/-- Value type `sf::FloatRect`, that is `sf::Rect<float>`. -/
structure FloatRect where
  left : ℚ
  top : ℚ
  width : ℚ
  height : ℚ
  deriving DecidableEq

/-- Default constructor `sf::FloatRect()`: all four members are zero. -/
def FloatRect.empty : FloatRect :=
  { left := 0, top := 0, width := 0, height := 0 }

/-- Library primitive `sf::Rect<T>::contains(const Vector2<T>&)` of SFML 2: the real
minimum and maximum of the rectangle are computed on both axes (negative dimensions are
allowed) and the test is closed at the minimum and open at the maximum. -/
def FloatRect.contains (r : FloatRect) (point : Vector2f) : Bool :=
  let minX := min r.left (r.left + r.width)
  let maxX := max r.left (r.left + r.width)
  let minY := min r.top (r.top + r.height)
  let maxY := max r.top (r.top + r.height)
  decide (point.x ≥ minX) && decide (point.x < maxX) &&
    decide (point.y ≥ minY) && decide (point.y < maxY)

/-- Library primitive `sf::Rect<T>::intersects(const Rect<T>&)` of SFML 2: the
intersection boundaries of the two normalised rectangles are computed and the result is
true when the intersection has positive, non zero area. -/
def FloatRect.intersects (r : FloatRect) (rectangle : FloatRect) : Bool :=
  let r1MinX := min r.left (r.left + r.width)
  let r1MaxX := max r.left (r.left + r.width)
  let r1MinY := min r.top (r.top + r.height)
  let r1MaxY := max r.top (r.top + r.height)
  let r2MinX := min rectangle.left (rectangle.left + rectangle.width)
  let r2MaxX := max rectangle.left (rectangle.left + rectangle.width)
  let r2MinY := min rectangle.top (rectangle.top + rectangle.height)
  let r2MaxY := max rectangle.top (rectangle.top + rectangle.height)
  let interLeft := max r1MinX r2MinX
  let interTop := max r1MinY r2MinY
  let interRight := min r1MaxX r2MaxX
  let interBottom := min r1MaxY r2MaxY
  decide (interLeft < interRight) && decide (interTop < interBottom)

/-! ## Transform and GameObject: the state read by the colliders -/

/-- The `Transform` component (`Transform.h`): position, rotation in degrees and scale.
The cached matrix and its dirty flag are not read by any collider query. -/
structure Transform where
  m_position : Vector2f := { x := 0, y := 0 }
  m_rotation : ℚ := 0
  m_scale : Vector2f := { x := 1, y := 1 }
  deriving DecidableEq

/-- Accessor `Transform::getPosition`. -/
def Transform.getPosition (t : Transform) : Vector2f := t.m_position

/-- Accessor `Transform::getScale`. -/
def Transform.getScale (t : Transform) : Vector2f := t.m_scale

/-- The entity-level transform data of a `GameObject` (`GameObject.h`, members
`m_position`, `m_rotation`, `m_scale`).  They are stored on the entity itself and are
independent of any attached `Transform` component. -/
structure GameObject where
  m_position : Vector2f := { x := 0, y := 0 }
  m_rotation : ℚ := 0
  m_scale : Vector2f := { x := 1, y := 1 }
  deriving DecidableEq

/-- Accessor `GameObject::getPosition`. -/
def GameObject.getPosition (g : GameObject) : Vector2f := g.m_position

/-- Accessor `GameObject::getScale`. -/
def GameObject.getScale (g : GameObject) : Vector2f := g.m_scale

/-! ## Colliders -/

/-- Class `BoxCollider` with the members it inherits from `Collider` and `Component`.
`m_transform` is the `Transform` resolved by `onAttach`, `m_gameObject` the
back-reference set by `addComponent`. -/
structure BoxCollider where
  m_size : Vector2f := { x := 1, y := 1 }
  m_offset : Vector2f := { x := 0, y := 0 }
  m_isTrigger : Bool := false
  m_layer : Int := 0
  m_active : Bool := true
  m_transform : Option Transform := none
  m_gameObject : Option GameObject := none
  deriving DecidableEq

/-- Class `CircleCollider` with the members it inherits from `Collider` and
`Component`. -/
structure CircleCollider where
  m_radius : ℚ := 1 / 2
  m_offset : Vector2f := { x := 0, y := 0 }
  m_isTrigger : Bool := false
  m_layer : Int := 0
  m_active : Bool := true
  m_transform : Option Transform := none
  m_gameObject : Option GameObject := none
  deriving DecidableEq

/-- A `const Collider&`: the dynamic type of the object is one of the two concrete
shapes, and `Collider::getType` is its tag. -/
inductive Collider where
  | box (b : BoxCollider)
  | circle (c : CircleCollider)

/-- Accessor `BoxCollider::getOffset`. -/
def BoxCollider.getOffset (b : BoxCollider) : Vector2f := b.m_offset

/-- Accessor `CircleCollider::getOffset`. -/
def CircleCollider.getOffset (c : CircleCollider) : Vector2f := c.m_offset

/-- Accessor `CircleCollider::getRadius`. -/
def CircleCollider.getRadius (c : CircleCollider) : ℚ := c.m_radius

/-- Method `BoxCollider::getBounds` (`Collider.cpp`, lines 62 to 75). -/
def BoxCollider.getBounds (b : BoxCollider) : FloatRect :=
  match b.m_transform with
  | none => FloatRect.empty
  | some t =>
    let position := t.getPosition + b.m_offset
    let scale := t.getScale
    let scaledSize : Vector2f := { x := b.m_size.x * scale.x, y := b.m_size.y * scale.y }
    { left := position.x - scaledSize.x * (1 / 2)
      top := position.y - scaledSize.y * (1 / 2)
      width := scaledSize.x
      height := scaledSize.y }

/-- Method `BoxCollider::intersects` (`Collider.cpp`, lines 27 to 60). -/
def BoxCollider.intersects (b : BoxCollider) (other : Collider) : Option Bool :=
  match b.m_transform with
  | none => some false
  | some _ =>
    match other with
    | Collider.box otherBox =>
      let thisBounds := b.getBounds
      let otherBounds := otherBox.getBounds
      some (thisBounds.intersects otherBounds)
    | Collider.circle otherCircle =>
      match otherCircle.m_gameObject with
      | none => none
      | some go =>
        let circleCenter := go.getPosition + otherCircle.getOffset
        let radius := otherCircle.getRadius
        let boxBounds := b.getBounds
        let closestX := max boxBounds.left (min circleCenter.x (boxBounds.left + boxBounds.width))
        let closestY := max boxBounds.top (min circleCenter.y (boxBounds.top + boxBounds.height))
        let dx := circleCenter.x - closestX
        let dy := circleCenter.y - closestY
        let distanceSquared := dx * dx + dy * dy
        some (decide (distanceSquared ≤ radius * radius))

/-- Method `BoxCollider::containsPoint` (`Collider.cpp`, lines 77 to 80). -/
def BoxCollider.containsPoint (b : BoxCollider) (point : Vector2f) : Bool :=
  let bounds := b.getBounds
  bounds.contains point

/-- Method `CircleCollider::intersects` (`Collider.cpp`, lines 87 to 113). -/
def CircleCollider.intersects (c : CircleCollider) (other : Collider) : Option Bool :=
  match c.m_transform with
  | none => some false
  | some t =>
    match other with
    | Collider.circle otherCircle =>
      match otherCircle.m_gameObject with
      | none => none
      | some go =>
        let thisCenter := t.getPosition + c.m_offset
        let otherCenter := go.getPosition + otherCircle.m_offset
        let thisRadius := c.m_radius * max t.getScale.x t.getScale.y
        let otherRadius := otherCircle.m_radius * max go.getScale.x go.getScale.y
        let dx := thisCenter.x - otherCenter.x
        let dy := thisCenter.y - otherCenter.y
        let distanceSquared := dx * dx + dy * dy
        let radiusSum := thisRadius + otherRadius
        some (decide (distanceSquared ≤ radiusSum * radiusSum))
    | Collider.box otherBox => otherBox.intersects (Collider.circle c)

/-- Method `CircleCollider::getBounds` (`Collider.cpp`, lines 115 to 127). -/
def CircleCollider.getBounds (c : CircleCollider) : FloatRect :=
  match c.m_transform with
  | none => FloatRect.empty
  | some t =>
    let position := t.getPosition + c.m_offset
    let scaledRadius := c.m_radius * max t.getScale.x t.getScale.y
    { left := position.x - scaledRadius
      top := position.y - scaledRadius
      width := scaledRadius * 2
      height := scaledRadius * 2 }

/-- Method `CircleCollider::containsPoint` (`Collider.cpp`, lines 129 to 140). -/
def CircleCollider.containsPoint (c : CircleCollider) (point : Vector2f) : Bool :=
  match c.m_transform with
  | none => false
  | some t =>
    let center := t.getPosition + c.m_offset
    let scaledRadius := c.m_radius * max t.getScale.x t.getScale.y
    let dx := point.x - center.x
    let dy := point.y - center.y
    let distanceSquared := dx * dx + dy * dy
    decide (distanceSquared ≤ scaledRadius * scaledRadius)

/-- A box collider attached to an entity through `addComponent`: the back-reference is
set and `onAttach` has resolved a `Transform`. -/
def BoxCollider.attached (b : BoxCollider) : Prop :=
  b.m_transform.isSome = true ∧ b.m_gameObject.isSome = true

/-- A circle collider attached to an entity through `addComponent`. -/
def CircleCollider.attached (c : CircleCollider) : Prop :=
  c.m_transform.isSome = true ∧ c.m_gameObject.isSome = true

instance (b : BoxCollider) : Decidable b.attached := by
  unfold BoxCollider.attached; infer_instance

instance (c : CircleCollider) : Decidable c.attached := by
  unfold CircleCollider.attached; infer_instance


/-! ## Quantities named by the specification and concrete scenes -/

/-- Squared distance from `p` to the point obtained by clamping `p` into the rectangle
`r`, the closest point of the rectangle as the specification computes it. -/
def closestPointDistSq (r : FloatRect) (p : Vector2f) : ℚ :=
  let qx := max r.left (min p.x (r.left + r.width))
  let qy := max r.top (min p.y (r.top + r.height))
  (p.x - qx) * (p.x - qx) + (p.y - qy) * (p.y - qy)

/-- Squared distance between two points. -/
def distSq (p q : Vector2f) : ℚ :=
  (p.x - q.x) * (p.x - q.x) + (p.y - q.y) * (p.y - q.y)

/-- A box collider of the given size and zero offset on an entity whose `Transform` has
the given position, rotation 0 and scale (1,1); the entity-level fields keep their
defaults. -/
def boxOn (px py w h : ℚ) : BoxCollider :=
  { m_size := { x := w, y := h }
    m_transform := some { m_position := { x := px, y := py } }
    m_gameObject := some {} }

/-- A circle collider of the given radius and zero offset whose `Transform` has position
`(tx, 0)` and uniform scale `s`, on an entity whose own position is `(ex, 0)`. -/
def circleOn (tx ex r s : ℚ) : CircleCollider :=
  { m_radius := r
    m_transform := some { m_position := { x := tx, y := 0 }, m_scale := { x := s, y := s } }
    m_gameObject := some { m_position := { x := ex, y := 0 } } }

/-! ## The component registry of `GameObject`

Objects owned through `std::unique_ptr` are identified by an `ObjectId`, allocated
afresh by every `std::make_unique`; a raw pointer to a component is the `ObjectId` of
its target.  The hooks of `Component` that the repository leaves empty have no effect on
the state; every invocation of a hook is recorded in the `Runtime`.  The diagnostics
written to `std::cout` and `std::cerr` are not modelled. -/

/-- Identity of a heap object. -/
abbrev ObjectId := Nat

/-- The key `std::type_index(typeid(T))` of the component map: the classes of the
repository and, as `other n`, any further class derived from `Component` that keeps
the default hooks (`Component` itself included). -/
inductive TypeIndex where
  | transform
  | collider
  | boxCollider
  | circleCollider
  | other (n : Nat)
  deriving DecidableEq

/-- The virtual hooks of `Component` (`Component.h`). -/
inductive Hook where
  | onAttach
  | onDetach
  | update (deltaTime : ℚ)
  | fixedUpdate (deltaTime : ℚ)
  deriving DecidableEq

/-- One invocation of a hook on a component object. -/
structure HookCall where
  object : ObjectId
  hook : Hook
  deriving DecidableEq

/-- Process-wide state: the static counter `GameObject::s_nextId`, the next fresh object
identity, and the hook invocations made so far, oldest first. -/
structure Runtime where
  s_nextId : Nat := 1
  nextObject : ObjectId := 0
  calls : List HookCall := []

/-- Records the invocation of `hook` on the object `p`. -/
def Runtime.call (r : Runtime) (p : ObjectId) (hook : Hook) : Runtime :=
  { r with calls := r.calls ++ [{ object := p, hook := hook }] }

/-- Records the invocation of `hook` on every object of `ps`, in order. -/
def Runtime.callAll (r : Runtime) (ps : List ObjectId) (hook : Hook) : Runtime :=
  { r with calls := r.calls ++ ps.map (fun p => { object := p, hook := hook }) }

/-- The members that `Collider` adds to `Component`; `m_transform` is a raw pointer. -/
structure ColliderBase where
  m_isTrigger : Bool := false
  m_layer : Int := 0
  m_transform : Option ObjectId := none
  deriving DecidableEq

/-- The state of a component object by concrete class, as its constructor builds it. -/
inductive ComponentValue where
  | transform (t : Transform)
  | boxCollider (m_size m_offset : Vector2f) (base : ColliderBase)
  | circleCollider (m_radius : ℚ) (m_offset : Vector2f) (base : ColliderBase)
  | other (n : Nat) (state : Nat)
  deriving DecidableEq

/-- The dynamic type of a component object, `typeid(T)` for the `T` it was built as. -/
def ComponentValue.typeIndex : ComponentValue → TypeIndex
  | ComponentValue.transform _ => TypeIndex.transform
  | ComponentValue.boxCollider _ _ _ => TypeIndex.boxCollider
  | ComponentValue.circleCollider _ _ _ => TypeIndex.circleCollider
  | ComponentValue.other n _ => TypeIndex.other n

/-- Whether the object is a `Collider`, whose `onAttach` is `Collider::onAttach`. -/
def ComponentValue.isCollider : ComponentValue → Bool
  | ComponentValue.boxCollider _ _ _ => true
  | ComponentValue.circleCollider _ _ _ => true
  | _ => false

/-- Assignment `m_transform = p` on a collider object; other objects have no such
member. -/
def ComponentValue.setTransform (v : ComponentValue) (p : Option ObjectId) : ComponentValue :=
  match v with
  | ComponentValue.boxCollider size offset base =>
    ComponentValue.boxCollider size offset { base with m_transform := p }
  | ComponentValue.circleCollider radius offset base =>
    ComponentValue.circleCollider radius offset { base with m_transform := p }
  | w => w

/-- The pointer `m_transform` of a collider object. -/
def ComponentValue.getTransform : ComponentValue → Option ObjectId
  | ComponentValue.boxCollider _ _ base => base.m_transform
  | ComponentValue.circleCollider _ _ base => base.m_transform
  | _ => none

/-- A component object: its identity, the members of the base class `Component`
(`m_gameObject` is the id of the owning GameObject) and the state of the derived class. -/
structure Component where
  object : ObjectId
  m_gameObject : Option Nat := none
  m_active : Bool := true
  value : ComponentValue
  deriving DecidableEq

/-- Class `GameObject` in full (the Entity of the specification): the entity-level
transform data together with the id, the name, the active flag and the component map
`m_components`, which holds at most one component per `TypeIndex`. -/
structure Entity extends GameObject where
  m_id : Nat := 0
  m_name : String := "GameObject"
  m_active : Bool := true
  m_components : AList (fun _ : TypeIndex => Component) := ∅

/-- Constructor `GameObject::GameObject(name)`: takes the next id from `s_nextId`. -/
def Entity.create (r : Runtime) (name : String) : Runtime × Entity :=
  ({ r with s_nextId := r.s_nextId + 1 }, { m_id := r.s_nextId, m_name := name })

/-- The components stored on the entity, in the iteration order of the map. -/
def Entity.components (e : Entity) : List Component :=
  e.m_components.entries.map (fun entry => entry.2)

/-- The identities of the components stored on the entity. -/
def Entity.objects (e : Entity) : List ObjectId :=
  e.components.map (fun c => c.object)

/-- Method `GameObject::getComponent<T>` (`GameObject.h`, lines 67 to 79); `none` is
`nullptr`. -/
def Entity.getComponent (e : Entity) (T : TypeIndex) : Option Component :=
  e.m_components.lookup T

/-- Method `GameObject::hasComponent<T>` (`GameObject.h`, lines 107 to 113). -/
def Entity.hasComponent (e : Entity) (T : TypeIndex) : Bool :=
  (e.m_components.lookup T).isSome

/-- Lines 50 to 54 of `GameObject::addComponent<T>`: the object is built by
`std::make_unique`, receives the back-reference and is moved into the map. -/
def Entity.emplace (e : Entity) (r : Runtime) (v : ComponentValue) :
    Runtime × Entity × ObjectId :=
  let componentPtr := r.nextObject
  let component : Component :=
    { object := componentPtr, m_gameObject := some e.m_id, value := v }
  ({ r with nextObject := r.nextObject + 1 },
    { e with m_components := e.m_components.insert v.typeIndex component },
    componentPtr)

/-- Instance `GameObject::addComponent<Transform>` (`GameObject.h`, lines 37 to 60);
`Transform` keeps the empty `Component::onAttach`. -/
def Entity.addComponentTransform (e : Entity) (r : Runtime) (t : Transform) :
    Runtime × Entity × ObjectId :=
  match e.m_components.lookup TypeIndex.transform with
  | some existing => (r, e, existing.object)
  | none =>
    let (r1, e1, componentPtr) := e.emplace r (ComponentValue.transform t)
    (r1.call componentPtr Hook.onAttach, e1, componentPtr)

/-- Assignment to `m_transform` of the collider stored under the key `T`. -/
def Entity.setColliderTransform (e : Entity) (T : TypeIndex) (p : Option ObjectId) : Entity :=
  match e.m_components.lookup T with
  | some c =>
    { e with m_components := e.m_components.insert T { c with value := c.value.setTransform p } }
  | none => e

/-- Method `Collider::onAttach` (`Collider.cpp`, lines 13 to 20), run on the collider
stored under the key `T` of the entity `e` that its back-reference points to. -/
def Collider.onAttach (e : Entity) (r : Runtime) (T : TypeIndex) : Runtime × Entity :=
  match e.getComponent TypeIndex.transform with
  | some transform => (r, e.setColliderTransform T (some transform.object))
  | none =>
    let (r1, e1, transform) := e.addComponentTransform r {}
    (r1, e1.setColliderTransform T (some transform))

/-- Method `GameObject::addComponent<T>` (`GameObject.h`, lines 37 to 60) for the class
`T` of the freshly constructed state `v`: returns the stored instance, the existing one
when the key is already present. -/
def Entity.addComponent (e : Entity) (r : Runtime) (v : ComponentValue) :
    Runtime × Entity × ObjectId :=
  match e.m_components.lookup v.typeIndex with
  | some existing => (r, e, existing.object)
  | none =>
    let (r1, e1, componentPtr) := e.emplace r v
    let r2 := r1.call componentPtr Hook.onAttach
    if v.isCollider then
      let (r3, e3) := Collider.onAttach e1 r2 v.typeIndex
      (r3, e3, componentPtr)
    else
      (r2, e1, componentPtr)

/-- Method `GameObject::removeComponent<T>` (`GameObject.h`, lines 86 to 101). -/
def Entity.removeComponent (e : Entity) (r : Runtime) (T : TypeIndex) :
    Runtime × Entity × Bool :=
  match e.m_components.lookup T with
  | some component =>
    (r.call component.object Hook.onDetach,
      { e with m_components := e.m_components.erase T }, true)
  | none => (r, e, false)

/-- Destructor `GameObject::~GameObject` (`GameObject.cpp`, lines 14 to 26): `onDetach`
on every component still stored, then the map is released with the entity. -/
def Entity.destroy (e : Entity) (r : Runtime) : Runtime :=
  r.callAll e.objects Hook.onDetach

/-- The active components of the entity, in the iteration order of the map. -/
def Entity.activeObjects (e : Entity) : List ObjectId :=
  (e.components.filter (fun c => c.m_active)).map (fun c => c.object)

/-- Method `GameObject::update` (`GameObject.cpp`, lines 28 to 37). -/
def Entity.update (e : Entity) (r : Runtime) (deltaTime : ℚ) : Runtime :=
  if !e.m_active then r
  else r.callAll e.activeObjects (Hook.update deltaTime)

/-- Method `GameObject::fixedUpdate` (`GameObject.cpp`, lines 39 to 48). -/
def Entity.fixedUpdate (e : Entity) (r : Runtime) (deltaTime : ℚ) : Runtime :=
  if !e.m_active then r
  else r.callAll e.activeObjects (Hook.fixedUpdate deltaTime)

/-! ## Scene

The vector `m_gameObjects` of owning pointers is the list of the entities it owns, in
insertion order; no operation stores a null pointer in it, so the null checks of the
loops never fail.  A raw `GameObject*` in the id index is modelled by the id of its
target.  The wall-clock members of `Statistics` are not modelled. -/

/-- Structure `Scene::Statistics` without its two wall-clock members. -/
structure Statistics where
  totalGameObjects : Nat := 0
  activeGameObjects : Nat := 0
  totalComponents : Nat := 0
  deriving DecidableEq

/-- Class `Scene` (`Scene.h`). -/
structure Scene where
  m_name : String := "Scene"
  m_active : Bool := true
  m_gameObjects : List Entity := []
  m_gameObjectsById : AList (fun _ : Nat => Nat) := ∅
  m_statistics : Statistics := {}

/-- Method `Scene::updateStatistics` (`Scene.cpp`, lines 152 to 166). -/
def Scene.updateStatistics (s : Scene) : Scene :=
  { s with
    m_statistics :=
      { totalGameObjects := s.m_gameObjects.length
        activeGameObjects := (s.m_gameObjects.filter (fun g => g.m_active)).length
        totalComponents := 0 } }

/-- Method `Scene::createGameObject` (`Scene.cpp`, lines 17 to 26). -/
def Scene.createGameObject (s : Scene) (r : Runtime) (name : String) :
    Runtime × Scene × Entity :=
  let (r1, gameObject) := Entity.create r name
  (r1,
    { s with
      m_gameObjectsById := s.m_gameObjectsById.insert gameObject.m_id gameObject.m_id
      m_gameObjects := s.m_gameObjects ++ [gameObject] },
    gameObject)

/-- Method `Scene::addGameObject` (`Scene.cpp`, lines 28 to 37); `none` is a null
`unique_ptr`. -/
def Scene.addGameObject (s : Scene) (gameObject : Option Entity) : Scene × Option Entity :=
  match gameObject with
  | none => (s, none)
  | some g =>
    ({ s with
       m_gameObjectsById := s.m_gameObjectsById.insert g.m_id g.m_id
       m_gameObjects := s.m_gameObjects ++ [g] },
      some g)

/-- Method `Scene::removeGameObject(size_t id)` (`Scene.cpp`, lines 45 to 68).  Erasing
the owning pointer from the vector destroys the entity. -/
def Scene.removeGameObject (s : Scene) (r : Runtime) (id : Nat) : Runtime × Scene × Bool :=
  match s.m_gameObjectsById.lookup id with
  | none => (r, s, false)
  | some _ =>
    let byId := s.m_gameObjectsById.erase id
    match s.m_gameObjects.find? (fun obj => decide (obj.m_id = id)) with
    | some obj =>
      (obj.destroy r,
        { s with
          m_gameObjectsById := byId
          m_gameObjects := s.m_gameObjects.eraseP (fun obj => decide (obj.m_id = id)) },
        true)
    | none => (r, { s with m_gameObjectsById := byId }, false)

/-- Method `Scene::removeGameObject(GameObject*)` (`Scene.cpp`, lines 39 to 43). -/
def Scene.removeGameObjectPtr (s : Scene) (r : Runtime) (gameObject : Option Entity) :
    Runtime × Scene × Bool :=
  match gameObject with
  | none => (r, s, false)
  | some g => s.removeGameObject r g.m_id

/-- Destruction of the entities owned by a vector, as `std::vector::clear` does. -/
def destroyAll (gameObjects : List Entity) (r : Runtime) : Runtime :=
  gameObjects.foldl (fun acc g => g.destroy acc) r

/-- Method `Scene::clear` (`Scene.cpp`, lines 143 to 150). -/
def Scene.clear (s : Scene) (r : Runtime) : Runtime × Scene :=
  (destroyAll s.m_gameObjects r,
    Scene.updateStatistics { s with m_gameObjects := [], m_gameObjectsById := ∅ })

/-- Method `Scene::update` (`Scene.cpp`, lines 109 to 125). -/
def Scene.update (s : Scene) (r : Runtime) (deltaTime : ℚ) : Runtime × Scene :=
  if !s.m_active then (r, s)
  else
    (s.m_gameObjects.foldl
        (fun acc gameObject =>
          if gameObject.m_active then gameObject.update acc deltaTime else acc) r,
      s.updateStatistics)

/-- Method `Scene::fixedUpdate` (`Scene.cpp`, lines 127 to 141). -/
def Scene.fixedUpdate (s : Scene) (r : Runtime) (deltaTime : ℚ) : Runtime :=
  if !s.m_active then r
  else
    s.m_gameObjects.foldl
      (fun acc gameObject =>
        if gameObject.m_active then gameObject.fixedUpdate acc deltaTime else acc) r

/-- Method `Scene::findGameObjectsWithComponent<T>` (`Scene.h`, lines 76 to 87). -/
def Scene.findGameObjectsWithComponent (s : Scene) (T : TypeIndex) : List Entity :=
  s.m_gameObjects.filter (fun gameObject => gameObject.hasComponent T)

/-- The identities of all components stored on the entities of the scene. -/
def Scene.objects (s : Scene) : List ObjectId :=
  s.m_gameObjects.flatMap (fun g => g.objects)

/-- A call on the registry of one entity. -/
inductive EntityOp where
  | addComponent (v : ComponentValue)
  | removeComponent (T : TypeIndex)
  deriving DecidableEq

/-- Effect of one registry call on the runtime and the entity. -/
def Entity.step (state : Runtime × Entity) (op : EntityOp) : Runtime × Entity :=
  match op with
  | EntityOp.addComponent v =>
    let result := state.2.addComponent state.1 v
    (result.1, result.2.1)
  | EntityOp.removeComponent T =>
    let result := state.2.removeComponent state.1 T
    (result.1, result.2.1)

/-- Effect of a sequence of registry calls, first call first. -/
def Entity.run (ops : List EntityOp) (state : Runtime × Entity) : Runtime × Entity :=
  ops.foldl Entity.step state

/-- Invariant of the `onDetach` bookkeeping for the objects allocated from `first` on:
the stored objects are pairwise distinct and already allocated, every recorded call is on
an allocated object, and an allocated object has received `onDetach` once if it is no
longer stored and never if it still is. -/
def DetachInv (first next : ObjectId) (calls : List HookCall) (stored : List ObjectId) :
    Prop :=
  stored.Nodup ∧
  (∀ o ∈ stored, o < next) ∧
  (∀ hc ∈ calls, hc.object < next) ∧
  (∀ o, first ≤ o → o < next →
    calls.count { object := o, hook := Hook.onDetach } = if o ∈ stored then 0 else 1)

/-- A new entity with id 7 and no component. -/
def sampleEntity : Entity := { m_id := 7 }

/-- A BoxCollider is added, which creates the Transform; the Transform is removed; a
Transform is added again. -/
def sampleOps : List EntityOp :=
  [EntityOp.addComponent (ComponentValue.boxCollider ⟨1, 1⟩ ⟨0, 0⟩ {}),
    EntityOp.removeComponent TypeIndex.transform,
    EntityOp.addComponent (ComponentValue.transform {})]

/-- The scene that owns the entity `sampleEntity` after the calls `sampleOps`. -/
def sampleScene : Scene :=
  { m_gameObjects := [(Entity.run sampleOps ({}, sampleEntity)).2]
    m_gameObjectsById := AList.singleton 7 7 }

/-- The components that a tick of the entity dispatches to: the active components of an
active entity, none of an inactive one. -/
def Entity.dispatched (e : Entity) : List ObjectId :=
  if e.m_active then e.activeObjects else []

/-! ## The cached matrix of `Transform`

`sf::Transform` is the SFML 2 value type; its operations follow
`SFML/Graphics/Transform.cpp`.  Only the 3x3 part that SFML fills is kept.  The cosine
and sine that `sf::Transform::rotate` takes of the angle are a parameter `Trig` of the
model: `trig.cos a` and `trig.sin a` stand for `std::cos` and `std::sin` of the angle of
`a` degrees converted to radians. -/

/-- Value type `sf::Transform`, a 3x3 matrix given by rows. -/
structure SfTransform where
  a00 : ℚ
  a01 : ℚ
  a02 : ℚ
  a10 : ℚ
  a11 : ℚ
  a12 : ℚ
  a20 : ℚ
  a21 : ℚ
  a22 : ℚ
  deriving DecidableEq

/-- Constant `sf::Transform::Identity`, also the default constructor. -/
def SfTransform.Identity : SfTransform :=
  { a00 := 1, a01 := 0, a02 := 0, a10 := 0, a11 := 1, a12 := 0, a20 := 0, a21 := 0, a22 := 1 }

/-- Library primitive `sf::Transform::combine`: `*this = *this * transform`, the matrix
product with the argument on the right. -/
def SfTransform.combine (a b : SfTransform) : SfTransform :=
  { a00 := a.a00 * b.a00 + a.a01 * b.a10 + a.a02 * b.a20
    a01 := a.a00 * b.a01 + a.a01 * b.a11 + a.a02 * b.a21
    a02 := a.a00 * b.a02 + a.a01 * b.a12 + a.a02 * b.a22
    a10 := a.a10 * b.a00 + a.a11 * b.a10 + a.a12 * b.a20
    a11 := a.a10 * b.a01 + a.a11 * b.a11 + a.a12 * b.a21
    a12 := a.a10 * b.a02 + a.a11 * b.a12 + a.a12 * b.a22
    a20 := a.a20 * b.a00 + a.a21 * b.a10 + a.a22 * b.a20
    a21 := a.a20 * b.a01 + a.a21 * b.a11 + a.a22 * b.a21
    a22 := a.a20 * b.a02 + a.a21 * b.a12 + a.a22 * b.a22 }

/-- The cosine and sine used by `sf::Transform::rotate`, as functions of the angle in
degrees. -/
structure Trig where
  cos : ℚ → ℚ
  sin : ℚ → ℚ

/-- Library primitive `sf::Transform::translate(const Vector2f&)`. -/
def SfTransform.translate (m : SfTransform) (offset : Vector2f) : SfTransform :=
  m.combine
    { a00 := 1, a01 := 0, a02 := offset.x, a10 := 0, a11 := 1, a12 := offset.y,
      a20 := 0, a21 := 0, a22 := 1 }

/-- Library primitive `sf::Transform::rotate(float angle)`. -/
def SfTransform.rotate (trig : Trig) (m : SfTransform) (angle : ℚ) : SfTransform :=
  m.combine
    { a00 := trig.cos angle, a01 := -trig.sin angle, a02 := 0,
      a10 := trig.sin angle, a11 := trig.cos angle, a12 := 0,
      a20 := 0, a21 := 0, a22 := 1 }

/-- Library primitive `sf::Transform::scale(const Vector2f&)`. -/
def SfTransform.scale (m : SfTransform) (factors : Vector2f) : SfTransform :=
  m.combine
    { a00 := factors.x, a01 := 0, a02 := 0, a10 := 0, a11 := factors.y, a12 := 0,
      a20 := 0, a21 := 0, a22 := 1 }

/-- Library primitive `sf::Transform::transformPoint`. -/
def SfTransform.transformPoint (m : SfTransform) (point : Vector2f) : Vector2f :=
  { x := m.a00 * point.x + m.a01 * point.y + m.a02
    y := m.a10 * point.x + m.a11 * point.y + m.a12 }

/-- Library primitive `sf::Transform::getInverse`: the inverse by cofactors when the
determinant is not zero, the identity otherwise. -/
def SfTransform.getInverse (m : SfTransform) : SfTransform :=
  let det := m.a00 * (m.a22 * m.a11 - m.a21 * m.a12)
    - m.a10 * (m.a22 * m.a01 - m.a21 * m.a02)
    + m.a20 * (m.a12 * m.a01 - m.a11 * m.a02)
  if det ≠ 0 then
    { a00 := (m.a22 * m.a11 - m.a21 * m.a12) / det
      a01 := -(m.a22 * m.a01 - m.a21 * m.a02) / det
      a02 := (m.a12 * m.a01 - m.a11 * m.a02) / det
      a10 := -(m.a22 * m.a10 - m.a20 * m.a12) / det
      a11 := (m.a22 * m.a00 - m.a20 * m.a02) / det
      a12 := -(m.a12 * m.a00 - m.a10 * m.a02) / det
      a20 := (m.a21 * m.a10 - m.a20 * m.a11) / det
      a21 := -(m.a21 * m.a00 - m.a20 * m.a01) / det
      a22 := (m.a11 * m.a00 - m.a10 * m.a01) / det }
  else SfTransform.Identity

/-- Class `Transform` in full (`Transform.h`): position, rotation and scale together
with the mutable cache members `m_transformMatrix` and `m_transformDirty`. -/
structure TransformState extends Transform where
  m_transformMatrix : SfTransform := SfTransform.Identity
  m_transformDirty : Bool := true
  deriving DecidableEq

/-- Constructor `Transform::Transform(position, rotation, scale)`. -/
def TransformState.create (position : Vector2f) (rotation : ℚ) (scale : Vector2f) :
    TransformState :=
  { m_position := position, m_rotation := rotation, m_scale := scale }

/-- Method `Transform::setPosition` (`Transform.h`, lines 29 to 32). -/
def TransformState.setPosition (t : TransformState) (position : Vector2f) : TransformState :=
  { t with m_position := position, m_transformDirty := true }

/-- Method `Transform::translate` (`Transform.h`, lines 44 to 47). -/
def TransformState.translate (t : TransformState) (offset : Vector2f) : TransformState :=
  { t with m_position := t.m_position + offset, m_transformDirty := true }

/-- Method `Transform::setRotation` (`Transform.h`, lines 57 to 60). -/
def TransformState.setRotation (t : TransformState) (rotation : ℚ) : TransformState :=
  { t with m_rotation := rotation, m_transformDirty := true }

/-- Method `Transform::rotate` (`Transform.h`, lines 65 to 68). -/
def TransformState.rotate (t : TransformState) (angle : ℚ) : TransformState :=
  { t with m_rotation := t.m_rotation + angle, m_transformDirty := true }

/-- Method `Transform::setScale` (`Transform.h`, lines 78 to 81). -/
def TransformState.setScale (t : TransformState) (scale : Vector2f) : TransformState :=
  { t with m_scale := scale, m_transformDirty := true }

/-- Method `Transform::updateTransformMatrix` (`Transform.cpp`, lines 42 to 49). -/
def TransformState.updateTransformMatrix (trig : Trig) (t : TransformState) : TransformState :=
  let m0 := SfTransform.Identity
  let m1 := m0.scale t.m_scale
  let m2 := m1.rotate trig t.m_rotation
  let m3 := m2.translate t.m_position
  { t with m_transformMatrix := m3 }

/-- Method `Transform::getTransformMatrix` (`Transform.cpp`, lines 26 to 32): the matrix
returned and the object after the call, whose cache members are `mutable`. -/
def TransformState.getTransformMatrix (trig : Trig) (t : TransformState) :
    SfTransform × TransformState :=
  if t.m_transformDirty then
    let t1 := t.updateTransformMatrix trig
    let t2 := { t1 with m_transformDirty := false }
    (t2.m_transformMatrix, t2)
  else (t.m_transformMatrix, t)

/-- Method `Transform::transformPoint` (`Transform.cpp`, lines 34 to 36). -/
def TransformState.transformPoint (trig : Trig) (t : TransformState) (localPoint : Vector2f) :
    Vector2f × TransformState :=
  let (m, t1) := t.getTransformMatrix trig
  (m.transformPoint localPoint, t1)

/-- Method `Transform::inverseTransformPoint` (`Transform.cpp`, lines 38 to 40). -/
def TransformState.inverseTransformPoint (trig : Trig) (t : TransformState)
    (worldPoint : Vector2f) : Vector2f × TransformState :=
  let (m, t1) := t.getTransformMatrix trig
  (m.getInverse.transformPoint worldPoint, t1)

/-- A call on a `Transform`: one of the five mutators or a read of the matrix. -/
inductive TransformOp where
  | setPosition (position : Vector2f)
  | translate (offset : Vector2f)
  | setRotation (rotation : ℚ)
  | rotate (angle : ℚ)
  | setScale (scale : Vector2f)
  | getTransformMatrix

/-- Effect of one call on the object. -/
def TransformState.step (trig : Trig) (t : TransformState) : TransformOp → TransformState
  | TransformOp.setPosition position => t.setPosition position
  | TransformOp.translate offset => t.translate offset
  | TransformOp.setRotation rotation => t.setRotation rotation
  | TransformOp.rotate angle => t.rotate angle
  | TransformOp.setScale scale => t.setScale scale
  | TransformOp.getTransformMatrix => (t.getTransformMatrix trig).2

/-- Effect of a sequence of calls, first call first. -/
def TransformState.run (trig : Trig) (ops : List TransformOp) (t : TransformState) :
    TransformState :=
  ops.foldl (TransformState.step trig) t

/-- The matrix that a fresh recomputation gives from the current position, rotation and
scale of the object. -/
def TransformState.fresh (trig : Trig) (t : TransformState) : SfTransform :=
  (t.updateTransformMatrix trig).m_transformMatrix

/-- The cache is coherent: when the dirty flag is clear, the cached matrix is the one a
fresh recomputation gives. -/
def TransformState.Coherent (trig : Trig) (t : TransformState) : Prop :=
  t.m_transformDirty = false → t.m_transformMatrix = t.fresh trig

/-- A rational stand-in for cosine and sine: for every angle a point of the unit circle,
(1, 0) at angle 0. -/
def rationalTrig : Trig :=
  { cos := fun a => (1 - a * a) / (1 + a * a)
    sin := fun a => 2 * a / (1 + a * a) }

/-! ## Lookups of the scene and runs of a process

`size_t` is modelled by `Nat`: the counter `s_nextId` advances by one per construction
and does not reach the width of `size_t` in a run. -/

/-- Method `Scene::findGameObject(size_t id)` (`Scene.cpp`, lines 79 to 82): the raw
pointer found in the id index, `none` for `nullptr`. -/
def Scene.findGameObject (s : Scene) (id : Nat) : Option Nat :=
  s.m_gameObjectsById.lookup id

/-- Method `Scene::findGameObjects` (`Scene.cpp`, lines 84 to 94). -/
def Scene.findGameObjects (s : Scene) (predicate : Entity → Bool) : List Entity :=
  s.m_gameObjects.filter (fun gameObject => predicate gameObject)

/-- Method `Scene::getAllGameObjects` (`Scene.cpp`, lines 96 to 107). -/
def Scene.getAllGameObjects (s : Scene) : List Entity :=
  s.m_gameObjects

/-- Method `Scene::getGameObjectCount` (`Scene.h`, line 105). -/
def Scene.getGameObjectCount (s : Scene) : Nat :=
  s.m_gameObjects.length

/-- A process with one scene: the runtime, the scene, the entities that callers own
outside the scene, and the ids that the constructor of `GameObject` has assigned so far,
oldest first. -/
structure Process where
  runtime : Runtime := {}
  scene : Scene := {}
  standalone : List Entity := []
  constructed : List Nat := []

/-- A step of a process.  Entities are referred to by their id. -/
inductive ProcessOp where
  | construct (name : String)
  | destroy (id : Nat)
  | createGameObject (name : String)
  | addGameObject (id : Nat)
  | addNull
  | removeGameObject (id : Nat)
  | clear
  | registry (inScene : Bool) (id : Nat) (op : EntityOp)

/-- Replaces the entities of the given id by `g`. -/
def replaceById (gameObjects : List Entity) (id : Nat) (g : Entity) : List Entity :=
  gameObjects.map (fun x => if x.m_id = id then g else x)

/-- Effect of one step.
* `construct`: a caller builds a `GameObject` and keeps it.
* `destroy`: a caller releases the standalone entity of that id.
* `createGameObject`: `Scene::createGameObject`.
* `addGameObject`: the standalone entity of that id is moved into `Scene::addGameObject`.
* `addNull`: `Scene::addGameObject(nullptr)`.
* `removeGameObject`, `clear`: the methods of `Scene`.
* `registry`: `addComponent` or `removeComponent` on the entity of that id, in the scene
  or standalone. -/
def Process.step (p : Process) (op : ProcessOp) : Process :=
  match op with
  | ProcessOp.construct name =>
    let created := Entity.create p.runtime name
    { p with
      runtime := created.1
      standalone := p.standalone ++ [created.2]
      constructed := p.constructed ++ [created.2.m_id] }
  | ProcessOp.destroy id =>
    match p.standalone.find? (fun g => decide (g.m_id = id)) with
    | some g =>
      { p with
        runtime := g.destroy p.runtime
        standalone := p.standalone.eraseP (fun g => decide (g.m_id = id)) }
    | none => p
  | ProcessOp.createGameObject name =>
    let created := p.scene.createGameObject p.runtime name
    { p with
      runtime := created.1
      scene := created.2.1
      constructed := p.constructed ++ [created.2.2.m_id] }
  | ProcessOp.addGameObject id =>
    match p.standalone.find? (fun g => decide (g.m_id = id)) with
    | some g =>
      { p with
        scene := (p.scene.addGameObject (some g)).1
        standalone := p.standalone.eraseP (fun g => decide (g.m_id = id)) }
    | none => p
  | ProcessOp.addNull => { p with scene := (p.scene.addGameObject none).1 }
  | ProcessOp.removeGameObject id =>
    let removed := p.scene.removeGameObject p.runtime id
    { p with runtime := removed.1, scene := removed.2.1 }
  | ProcessOp.clear =>
    let cleared := p.scene.clear p.runtime
    { p with runtime := cleared.1, scene := cleared.2 }
  | ProcessOp.registry true id op =>
    match p.scene.m_gameObjects.find? (fun g => decide (g.m_id = id)) with
    | some g =>
      let state := Entity.step (p.runtime, g) op
      { p with
        runtime := state.1
        scene := { p.scene with m_gameObjects := replaceById p.scene.m_gameObjects id state.2 } }
    | none => p
  | ProcessOp.registry false id op =>
    match p.standalone.find? (fun g => decide (g.m_id = id)) with
    | some g =>
      let state := Entity.step (p.runtime, g) op
      { p with runtime := state.1, standalone := replaceById p.standalone id state.2 }
    | none => p

/-- Effect of a sequence of steps, starting from a new process with an empty scene. -/
def Process.run (ops : List ProcessOp) : Process :=
  ops.foldl Process.step {}

/-- The ids of the entities of a list, in order. -/
def idsOf (gameObjects : List Entity) : List Nat :=
  gameObjects.map (fun g => g.m_id)

/-- Invariant of a process: the ids assigned so far are 1, 2, 3, ... in this order, the
counter is one past the last, the entities alive have pairwise distinct ids already
assigned, the id index knows exactly the ids of the entities of the scene, and every
pointer of the index points to the entity of its key. -/
def Process.Inv (p : Process) : Prop :=
  p.constructed = List.range' 1 p.constructed.length ∧
  p.runtime.s_nextId = p.constructed.length + 1 ∧
  (idsOf p.scene.m_gameObjects ++ idsOf p.standalone).Nodup ∧
  (∀ k ∈ idsOf p.scene.m_gameObjects ++ idsOf p.standalone, k < p.runtime.s_nextId) ∧
  (∀ k, k ∈ p.scene.m_gameObjectsById ↔ k ∈ idsOf p.scene.m_gameObjects) ∧
  (∀ k q, p.scene.m_gameObjectsById.lookup k = some q → q = k)

/-- A process that builds three entities, two of them in the scene, gives the second a
BoxCollider and removes the first from the scene. -/
def sampleProcessOps : List ProcessOp :=
  [ProcessOp.createGameObject "a", ProcessOp.construct "b", ProcessOp.createGameObject "c",
    ProcessOp.registry false 2
      (EntityOp.addComponent (ComponentValue.boxCollider ⟨1, 1⟩ ⟨0, 0⟩ {})),
    ProcessOp.addGameObject 2, ProcessOp.removeGameObject 1]

/-- The entities alive in a process: those of the scene, then the standalone ones. -/
def Process.alive (p : Process) : List Entity :=
  p.scene.m_gameObjects ++ p.standalone

/-- The identities of all components stored on the entities alive in a process. -/
def Process.objects (p : Process) : List ObjectId :=
  p.alive.flatMap (fun g => g.objects)

/-- Two entities are created in the scene; the first receives a BoxCollider (objects 0
and 1, the collider and its Transform), the second a CircleCollider (objects 2 and 3). -/
def sampleAttachOps : List ProcessOp :=
  [ProcessOp.createGameObject "a", ProcessOp.createGameObject "b",
    ProcessOp.registry true 1
      (EntityOp.addComponent (ComponentValue.boxCollider ⟨1, 1⟩ ⟨0, 0⟩ {})),
    ProcessOp.registry true 2
      (EntityOp.addComponent (ComponentValue.circleCollider (1 / 2) ⟨0, 0⟩ {}))]

/-- The Transform of the first entity is removed, the second entity receives one more
component, and the first entity is removed from the scene. -/
def sampleDetachOps : List ProcessOp :=
  [ProcessOp.registry true 1 (EntityOp.removeComponent TypeIndex.transform),
    ProcessOp.registry true 2 (EntityOp.addComponent (ComponentValue.other 5 0)),
    ProcessOp.removeGameObject 1]

/-- Move constructor `GameObject(GameObject&&) = default` (`GameObject.h`, line 28).  The
first component is the new object: it takes the id, the name, the active flag, the
entity-level fields and the component map of `other`, and no new id is drawn from
`s_nextId`.  The second component is `other` after the move: it keeps its id, its flag
and its entity-level fields; its moved-from name and component map are empty, as the
implementations of the standard library leave them. -/
def Entity.move (other : Entity) : Entity × Entity :=
  (other, { other with m_name := "", m_components := ∅ })

/-- A scene that holds an entity built by the constructor and the object
move-constructed from it, both added through `Scene::addGameObject`: two entities with
the id 1. -/
def sampleMovedScene : Scene :=
  let created := Entity.create {} "a"
  let moved := Entity.move created.2
  let added := ({} : Scene).addGameObject (some moved.2)
  (added.1.addGameObject (some moved.1)).1

/-! ## The collider queries in binary32 arithmetic

The C++ type `float` is IEEE 754 binary32.  Where rounding, overflow or NaN decide the
answer of a query, the query is read through the transcription of this section, in which
every operation rounds as the hardware does: round to nearest, ties to even, overflow to
an infinity, NaN for `inf - inf` and for `0 * inf`.  Every operation rounds by itself:
no product is fused with a sum and no intermediate result keeps excess precision.  A
finite value is given by the rational number it stands for, and `Binary32.representable`
says of a rational number that it is a value of the format.  The two zeros are not told
apart: the collider queries neither divide nor read a sign bit, so no result depends on
the sign of a zero.  `Rounded.X` is the class `X` of the source with its `float` members
in binary32. -/

/-- A value of the C++ type `float`: NaN, an infinity with its sign, or a finite value. -/
inductive Binary32 where
  | nan
  | inf (negative : Bool)
  | fin (value : ℚ)
  deriving DecidableEq

/-- The number of binary digits of `n`, for `n < 2 ^ fuel`. -/
def binaryDigits : Nat → Nat → Nat
  | 0, _ => 0
  | fuel + 1, n => if n = 0 then 0 else binaryDigits fuel (n / 2) + 1

/-- The integer nearest to `n / d`, the even one of the two when `n / d` lies halfway. -/
def roundHalfEven (n d : Nat) : Nat :=
  let q := n / d
  let r := n % d
  if 2 * r < d then q
  else if d < 2 * r then q + 1
  else if q % 2 = 0 then q else q + 1

/-- Rounding of a rational number to binary32.  The magnitude is taken in units of
`2 ^ -149`, the smallest positive value; `drop` is the number of low binary digits that
do not fit in the 24 digits of the significand, so that the result is a multiple of
`2 ^ drop` units; a result of `2 ^ 128` or more is an infinity. -/
def Binary32.round (q : ℚ) : Binary32 :=
  let n := q.num.natAbs * 2 ^ 149
  let d := q.den
  let drop := binaryDigits (n / d) (n / d) - 24
  let units := roundHalfEven n (d * 2 ^ drop) * 2 ^ drop
  if 2 ^ 128 * 2 ^ 149 ≤ units then Binary32.inf (decide (q < 0))
  else if q < 0 then Binary32.fin (-((units : ℚ) / (2 ^ 149 : ℕ)))
  else Binary32.fin ((units : ℚ) / (2 ^ 149 : ℕ))

/-- The rational number `q` is a binary32 value: rounding leaves it as it is. -/
def Binary32.representable (q : ℚ) : Prop :=
  Binary32.round q = Binary32.fin q

instance (q : ℚ) : Decidable (Binary32.representable q) := by
  unfold Binary32.representable; infer_instance

/-- Operator `+` of `float`. -/
def Binary32.add : Binary32 → Binary32 → Binary32
  | Binary32.fin a, Binary32.fin b => Binary32.round (a + b)
  | Binary32.fin _, Binary32.inf s => Binary32.inf s
  | Binary32.inf s, Binary32.fin _ => Binary32.inf s
  | Binary32.inf s, Binary32.inf t => if s = t then Binary32.inf s else Binary32.nan
  | _, _ => Binary32.nan

/-- Operator `-` of `float`. -/
def Binary32.sub : Binary32 → Binary32 → Binary32
  | Binary32.fin a, Binary32.fin b => Binary32.round (a - b)
  | Binary32.fin _, Binary32.inf s => Binary32.inf (!s)
  | Binary32.inf s, Binary32.fin _ => Binary32.inf s
  | Binary32.inf s, Binary32.inf t => if s = t then Binary32.nan else Binary32.inf s
  | _, _ => Binary32.nan

/-- Operator `*` of `float`. -/
def Binary32.mul : Binary32 → Binary32 → Binary32
  | Binary32.fin a, Binary32.fin b => Binary32.round (a * b)
  | Binary32.fin a, Binary32.inf s =>
    if a = 0 then Binary32.nan else Binary32.inf (xor s (decide (a < 0)))
  | Binary32.inf s, Binary32.fin b =>
    if b = 0 then Binary32.nan else Binary32.inf (xor s (decide (b < 0)))
  | Binary32.inf s, Binary32.inf t => Binary32.inf (xor s t)
  | _, _ => Binary32.nan

instance : Add Binary32 where
  add := Binary32.add

instance : Sub Binary32 where
  sub := Binary32.sub

instance : Mul Binary32 where
  mul := Binary32.mul

/-- Operator `<` of `float`: false when an operand is NaN. -/
def Binary32.lt : Binary32 → Binary32 → Bool
  | Binary32.fin a, Binary32.fin b => decide (a < b)
  | Binary32.fin _, Binary32.inf s => !s
  | Binary32.inf s, Binary32.fin _ => s
  | Binary32.inf s, Binary32.inf t => s && !t
  | _, _ => false

/-- Operator `<=` of `float`: false when an operand is NaN. -/
def Binary32.le : Binary32 → Binary32 → Bool
  | Binary32.fin a, Binary32.fin b => decide (a ≤ b)
  | Binary32.fin _, Binary32.inf s => !s
  | Binary32.inf s, Binary32.fin _ => s
  | Binary32.inf s, Binary32.inf t => s || !t
  | _, _ => false

/-- Operator `>=` of `float`. -/
def Binary32.ge (a b : Binary32) : Bool := b.le a

/-- Library function `std::min(a, b)`: `(b < a) ? b : a`. -/
def Binary32.min (a b : Binary32) : Binary32 := if b.lt a then b else a

/-- Library function `std::max(a, b)`: `(a < b) ? b : a`. -/
def Binary32.max (a b : Binary32) : Binary32 := if a.lt b then b else a

/-- The value is not NaN. -/
def Binary32.isNumber : Binary32 → Bool
  | Binary32.nan => false
  | _ => true

/-- The position of a value that is not NaN on the extended rational line; NaN, which
has no position, is sent to the bottom. -/
def Binary32.toExtended : Binary32 → WithBot (WithTop ℚ)
  | Binary32.nan => ⊥
  | Binary32.inf true => ⊥
  | Binary32.inf false => ((⊤ : WithTop ℚ) : WithBot (WithTop ℚ))
  | Binary32.fin a => ((a : WithTop ℚ) : WithBot (WithTop ℚ))

namespace Rounded

/-- Value type `sf::Vector2f`. -/
structure Vector2f where
  x : Binary32
  y : Binary32
  deriving DecidableEq

/-- Componentwise sum, `operator+` of `sf::Vector2f`. -/
instance : Add Vector2f where
  add a b := { x := a.x + b.x, y := a.y + b.y }

/-- Value type `sf::FloatRect`. -/
structure FloatRect where
  left : Binary32
  top : Binary32
  width : Binary32
  height : Binary32
  deriving DecidableEq

/-- Default constructor `sf::FloatRect()`: all four members are zero. -/
def FloatRect.empty : FloatRect :=
  { left := Binary32.fin 0, top := Binary32.fin 0, width := Binary32.fin 0,
    height := Binary32.fin 0 }

/-- Library primitive `sf::Rect<T>::contains(const Vector2<T>&)` of SFML 2. -/
def FloatRect.contains (r : FloatRect) (point : Vector2f) : Bool :=
  let minX := Binary32.min r.left (r.left + r.width)
  let maxX := Binary32.max r.left (r.left + r.width)
  let minY := Binary32.min r.top (r.top + r.height)
  let maxY := Binary32.max r.top (r.top + r.height)
  point.x.ge minX && point.x.lt maxX && point.y.ge minY && point.y.lt maxY

/-- Library primitive `sf::Rect<T>::intersects(const Rect<T>&)` of SFML 2. -/
def FloatRect.intersects (r : FloatRect) (rectangle : FloatRect) : Bool :=
  let r1MinX := Binary32.min r.left (r.left + r.width)
  let r1MaxX := Binary32.max r.left (r.left + r.width)
  let r1MinY := Binary32.min r.top (r.top + r.height)
  let r1MaxY := Binary32.max r.top (r.top + r.height)
  let r2MinX := Binary32.min rectangle.left (rectangle.left + rectangle.width)
  let r2MaxX := Binary32.max rectangle.left (rectangle.left + rectangle.width)
  let r2MinY := Binary32.min rectangle.top (rectangle.top + rectangle.height)
  let r2MaxY := Binary32.max rectangle.top (rectangle.top + rectangle.height)
  let interLeft := Binary32.max r1MinX r2MinX
  let interTop := Binary32.max r1MinY r2MinY
  let interRight := Binary32.min r1MaxX r2MaxX
  let interBottom := Binary32.min r1MaxY r2MaxY
  interLeft.lt interRight && interTop.lt interBottom

/-- No edge of the rectangle is NaN: neither `left`, `top`, `left + width` nor
`top + height`. -/
def FloatRect.numeric (r : FloatRect) : Bool :=
  r.left.isNumber && (r.left + r.width).isNumber &&
    r.top.isNumber && (r.top + r.height).isNumber

/-- The `Transform` component (`Transform.h`): position, rotation in degrees and scale. -/
structure Transform where
  m_position : Vector2f := { x := Binary32.fin 0, y := Binary32.fin 0 }
  m_rotation : Binary32 := Binary32.fin 0
  m_scale : Vector2f := { x := Binary32.fin 1, y := Binary32.fin 1 }
  deriving DecidableEq

/-- Accessor `Transform::getPosition`. -/
def Transform.getPosition (t : Transform) : Vector2f := t.m_position

/-- Accessor `Transform::getScale`. -/
def Transform.getScale (t : Transform) : Vector2f := t.m_scale

/-- The entity-level transform data of a `GameObject` (`GameObject.h`). -/
structure GameObject where
  m_position : Vector2f := { x := Binary32.fin 0, y := Binary32.fin 0 }
  m_rotation : Binary32 := Binary32.fin 0
  m_scale : Vector2f := { x := Binary32.fin 1, y := Binary32.fin 1 }
  deriving DecidableEq

/-- Accessor `GameObject::getPosition`. -/
def GameObject.getPosition (g : GameObject) : Vector2f := g.m_position

/-- Class `BoxCollider` with the members it inherits from `Collider` and `Component`. -/
structure BoxCollider where
  m_size : Vector2f := { x := Binary32.fin 1, y := Binary32.fin 1 }
  m_offset : Vector2f := { x := Binary32.fin 0, y := Binary32.fin 0 }
  m_isTrigger : Bool := false
  m_layer : Int := 0
  m_active : Bool := true
  m_transform : Option Transform := none
  m_gameObject : Option GameObject := none
  deriving DecidableEq

/-- Class `CircleCollider` with the members it inherits from `Collider` and
`Component`. -/
structure CircleCollider where
  m_radius : Binary32 := Binary32.fin (1 / 2)
  m_offset : Vector2f := { x := Binary32.fin 0, y := Binary32.fin 0 }
  m_isTrigger : Bool := false
  m_layer : Int := 0
  m_active : Bool := true
  m_transform : Option Transform := none
  m_gameObject : Option GameObject := none
  deriving DecidableEq

/-- A `const Collider&` by the dynamic type of its object. -/
inductive Collider where
  | box (b : BoxCollider)
  | circle (c : CircleCollider)

/-- Accessor `CircleCollider::getOffset`. -/
def CircleCollider.getOffset (c : CircleCollider) : Vector2f := c.m_offset

/-- Accessor `CircleCollider::getRadius`. -/
def CircleCollider.getRadius (c : CircleCollider) : Binary32 := c.m_radius

/-- Method `BoxCollider::getBounds` (`Collider.cpp`, lines 62 to 75). -/
def BoxCollider.getBounds (b : BoxCollider) : FloatRect :=
  match b.m_transform with
  | none => FloatRect.empty
  | some t =>
    let position := t.getPosition + b.m_offset
    let scale := t.getScale
    let scaledSize : Vector2f := { x := b.m_size.x * scale.x, y := b.m_size.y * scale.y }
    { left := position.x - scaledSize.x * Binary32.fin (1 / 2)
      top := position.y - scaledSize.y * Binary32.fin (1 / 2)
      width := scaledSize.x
      height := scaledSize.y }

/-- Method `BoxCollider::intersects` (`Collider.cpp`, lines 27 to 60); `none` where the
source dereferences a null back-reference. -/
def BoxCollider.intersects (b : BoxCollider) (other : Collider) : Option Bool :=
  match b.m_transform with
  | none => some false
  | some _ =>
    match other with
    | Collider.box otherBox =>
      let thisBounds := b.getBounds
      let otherBounds := otherBox.getBounds
      some (thisBounds.intersects otherBounds)
    | Collider.circle otherCircle =>
      match otherCircle.m_gameObject with
      | none => none
      | some go =>
        let circleCenter := go.getPosition + otherCircle.getOffset
        let radius := otherCircle.getRadius
        let boxBounds := b.getBounds
        let closestX := Binary32.max boxBounds.left
          (Binary32.min circleCenter.x (boxBounds.left + boxBounds.width))
        let closestY := Binary32.max boxBounds.top
          (Binary32.min circleCenter.y (boxBounds.top + boxBounds.height))
        let dx := circleCenter.x - closestX
        let dy := circleCenter.y - closestY
        let distanceSquared := dx * dx + dy * dy
        some (distanceSquared.le (radius * radius))

/-- Method `BoxCollider::containsPoint` (`Collider.cpp`, lines 77 to 80). -/
def BoxCollider.containsPoint (b : BoxCollider) (point : Vector2f) : Bool :=
  let bounds := b.getBounds
  bounds.contains point

/-- Method `CircleCollider::containsPoint` (`Collider.cpp`, lines 129 to 140). -/
def CircleCollider.containsPoint (c : CircleCollider) (point : Vector2f) : Bool :=
  match c.m_transform with
  | none => false
  | some t =>
    let center := t.getPosition + c.m_offset
    let scaledRadius := c.m_radius * Binary32.max t.getScale.x t.getScale.y
    let dx := point.x - center.x
    let dy := point.y - center.y
    let distanceSquared := dx * dx + dy * dy
    distanceSquared.le (scaledRadius * scaledRadius)

/-- A box collider of the given size and zero offset whose `Transform` has the given
position, rotation 0 and scale (1,1). -/
def boxAt (px py w h : ℚ) : BoxCollider :=
  { m_size := { x := Binary32.fin w, y := Binary32.fin h }
    m_transform := some { m_position := { x := Binary32.fin px, y := Binary32.fin py } }
    m_gameObject := some {} }

/-- A circle collider of the given radius and zero offset whose `Transform` has position
(0,0), rotation 0 and scale (1,1). -/
def circleAtOrigin (r : ℚ) : CircleCollider :=
  { m_radius := Binary32.fin r
    m_transform := some {}
    m_gameObject := some {} }

/-- A box collider whose bounds overflow: size `(2 ^ 127, 1)` and offset `(2 ^ 127, 0)`
on a `Transform` at position `(2 ^ 127, 0)` with scale (2,1).  All members are finite
binary32 values, about `1.7e38` where they are large. -/
def overflowingBox : BoxCollider :=
  { m_size := { x := Binary32.fin (2 ^ 127), y := Binary32.fin 1 }
    m_offset := { x := Binary32.fin (2 ^ 127), y := Binary32.fin 0 }
    m_transform := some
      { m_position := { x := Binary32.fin (2 ^ 127), y := Binary32.fin 0 }
        m_scale := { x := Binary32.fin 2, y := Binary32.fin 1 } }
    m_gameObject := some {} }

end Rounded

/-! ## The matrix of `Transform` over an arbitrary field

The transcription of `Transform` and `sf::Transform` once more, with the scalar type a
parameter `K`: the formulas are those of the section on the cached matrix of `Transform`,
read in any field.  With `K = ℝ` and the real cosine and sine this is the program in
exact real arithmetic. -/

namespace AnyField

/-- Value type `sf::Vector2f` with coordinates in `K`. -/
structure Vector2f (K : Type) where
  x : K
  y : K

/-- Componentwise sum, `operator+` of `sf::Vector2f`. -/
instance {K : Type} [Add K] : Add (Vector2f K) where
  add a b := { x := a.x + b.x, y := a.y + b.y }

/-- Value type `sf::Transform`, a 3x3 matrix given by rows. -/
structure SfTransform (K : Type) where
  a00 : K
  a01 : K
  a02 : K
  a10 : K
  a11 : K
  a12 : K
  a20 : K
  a21 : K
  a22 : K

/-- Constant `sf::Transform::Identity`, also the default constructor. -/
def SfTransform.Identity {K : Type} [Field K] : SfTransform K :=
  { a00 := 1, a01 := 0, a02 := 0, a10 := 0, a11 := 1, a12 := 0, a20 := 0, a21 := 0, a22 := 1 }

/-- Library primitive `sf::Transform::combine`: `*this = *this * transform`. -/
def SfTransform.combine {K : Type} [Field K] (a b : SfTransform K) : SfTransform K :=
  { a00 := a.a00 * b.a00 + a.a01 * b.a10 + a.a02 * b.a20
    a01 := a.a00 * b.a01 + a.a01 * b.a11 + a.a02 * b.a21
    a02 := a.a00 * b.a02 + a.a01 * b.a12 + a.a02 * b.a22
    a10 := a.a10 * b.a00 + a.a11 * b.a10 + a.a12 * b.a20
    a11 := a.a10 * b.a01 + a.a11 * b.a11 + a.a12 * b.a21
    a12 := a.a10 * b.a02 + a.a11 * b.a12 + a.a12 * b.a22
    a20 := a.a20 * b.a00 + a.a21 * b.a10 + a.a22 * b.a20
    a21 := a.a20 * b.a01 + a.a21 * b.a11 + a.a22 * b.a21
    a22 := a.a20 * b.a02 + a.a21 * b.a12 + a.a22 * b.a22 }

/-- The cosine and sine used by `sf::Transform::rotate`, as functions of the angle in
degrees. -/
structure Trig (K : Type) where
  cos : K → K
  sin : K → K

/-- Library primitive `sf::Transform::translate(const Vector2f&)`. -/
def SfTransform.translate {K : Type} [Field K] (m : SfTransform K) (offset : Vector2f K) :
    SfTransform K :=
  m.combine
    { a00 := 1, a01 := 0, a02 := offset.x, a10 := 0, a11 := 1, a12 := offset.y,
      a20 := 0, a21 := 0, a22 := 1 }

/-- Library primitive `sf::Transform::rotate(float angle)`. -/
def SfTransform.rotate {K : Type} [Field K] (trig : Trig K) (m : SfTransform K) (angle : K) :
    SfTransform K :=
  m.combine
    { a00 := trig.cos angle, a01 := -trig.sin angle, a02 := 0,
      a10 := trig.sin angle, a11 := trig.cos angle, a12 := 0,
      a20 := 0, a21 := 0, a22 := 1 }

/-- Library primitive `sf::Transform::scale(const Vector2f&)`. -/
def SfTransform.scale {K : Type} [Field K] (m : SfTransform K) (factors : Vector2f K) :
    SfTransform K :=
  m.combine
    { a00 := factors.x, a01 := 0, a02 := 0, a10 := 0, a11 := factors.y, a12 := 0,
      a20 := 0, a21 := 0, a22 := 1 }

/-- Library primitive `sf::Transform::transformPoint`. -/
def SfTransform.transformPoint {K : Type} [Field K] (m : SfTransform K) (point : Vector2f K) :
    Vector2f K :=
  { x := m.a00 * point.x + m.a01 * point.y + m.a02
    y := m.a10 * point.x + m.a11 * point.y + m.a12 }

/-- Library primitive `sf::Transform::getInverse`: the inverse by cofactors when the
determinant is not zero, the identity otherwise. -/
def SfTransform.getInverse {K : Type} [Field K] [DecidableEq K] (m : SfTransform K) :
    SfTransform K :=
  let det := m.a00 * (m.a22 * m.a11 - m.a21 * m.a12)
    - m.a10 * (m.a22 * m.a01 - m.a21 * m.a02)
    + m.a20 * (m.a12 * m.a01 - m.a11 * m.a02)
  if det ≠ 0 then
    { a00 := (m.a22 * m.a11 - m.a21 * m.a12) / det
      a01 := -(m.a22 * m.a01 - m.a21 * m.a02) / det
      a02 := (m.a12 * m.a01 - m.a11 * m.a02) / det
      a10 := -(m.a22 * m.a10 - m.a20 * m.a12) / det
      a11 := (m.a22 * m.a00 - m.a20 * m.a02) / det
      a12 := -(m.a12 * m.a00 - m.a10 * m.a02) / det
      a20 := (m.a21 * m.a10 - m.a20 * m.a11) / det
      a21 := -(m.a21 * m.a00 - m.a20 * m.a01) / det
      a22 := (m.a11 * m.a00 - m.a10 * m.a01) / det }
  else SfTransform.Identity

/-- Class `Transform` (`Transform.h`): position, rotation in degrees and scale together
with the mutable cache members `m_transformMatrix` and `m_transformDirty`. -/
structure TransformState (K : Type) where
  m_position : Vector2f K
  m_rotation : K
  m_scale : Vector2f K
  m_transformMatrix : SfTransform K
  m_transformDirty : Bool

/-- Constructor `Transform::Transform(position, rotation, scale)`: the cache holds the
identity and is marked dirty. -/
def TransformState.create {K : Type} [Field K] (position : Vector2f K) (rotation : K)
    (scale : Vector2f K) : TransformState K :=
  { m_position := position, m_rotation := rotation, m_scale := scale,
    m_transformMatrix := SfTransform.Identity, m_transformDirty := true }

/-- Method `Transform::setPosition` (`Transform.h`, lines 29 to 32). -/
def TransformState.setPosition {K : Type} (t : TransformState K) (position : Vector2f K) :
    TransformState K :=
  { t with m_position := position, m_transformDirty := true }

/-- Method `Transform::translate` (`Transform.h`, lines 44 to 47). -/
def TransformState.translate {K : Type} [Add K] (t : TransformState K) (offset : Vector2f K) :
    TransformState K :=
  { t with m_position := t.m_position + offset, m_transformDirty := true }

/-- Method `Transform::setRotation` (`Transform.h`, lines 57 to 60). -/
def TransformState.setRotation {K : Type} (t : TransformState K) (rotation : K) :
    TransformState K :=
  { t with m_rotation := rotation, m_transformDirty := true }

/-- Method `Transform::rotate` (`Transform.h`, lines 65 to 68). -/
def TransformState.rotate {K : Type} [Add K] (t : TransformState K) (angle : K) :
    TransformState K :=
  { t with m_rotation := t.m_rotation + angle, m_transformDirty := true }

/-- Method `Transform::setScale` (`Transform.h`, lines 78 to 81). -/
def TransformState.setScale {K : Type} (t : TransformState K) (scale : Vector2f K) :
    TransformState K :=
  { t with m_scale := scale, m_transformDirty := true }

/-- Method `Transform::updateTransformMatrix` (`Transform.cpp`, lines 42 to 49). -/
def TransformState.updateTransformMatrix {K : Type} [Field K] (trig : Trig K)
    (t : TransformState K) : TransformState K :=
  let m0 : SfTransform K := SfTransform.Identity
  let m1 := m0.scale t.m_scale
  let m2 := m1.rotate trig t.m_rotation
  let m3 := m2.translate t.m_position
  { t with m_transformMatrix := m3 }

/-- Method `Transform::getTransformMatrix` (`Transform.cpp`, lines 26 to 32): the matrix
returned and the object after the call. -/
def TransformState.getTransformMatrix {K : Type} [Field K] (trig : Trig K)
    (t : TransformState K) : SfTransform K × TransformState K :=
  if t.m_transformDirty then
    let t1 := t.updateTransformMatrix trig
    let t2 := { t1 with m_transformDirty := false }
    (t2.m_transformMatrix, t2)
  else (t.m_transformMatrix, t)

/-- Method `Transform::transformPoint` (`Transform.cpp`, lines 34 to 36). -/
def TransformState.transformPoint {K : Type} [Field K] (trig : Trig K) (t : TransformState K)
    (localPoint : Vector2f K) : Vector2f K × TransformState K :=
  let (m, t1) := t.getTransformMatrix trig
  (m.transformPoint localPoint, t1)

/-- Method `Transform::inverseTransformPoint` (`Transform.cpp`, lines 38 to 40). -/
def TransformState.inverseTransformPoint {K : Type} [Field K] [DecidableEq K] (trig : Trig K)
    (t : TransformState K) (worldPoint : Vector2f K) : Vector2f K × TransformState K :=
  let (m, t1) := t.getTransformMatrix trig
  (m.getInverse.transformPoint worldPoint, t1)

/-- A call on a `Transform`: one of the five mutators or a read of the matrix. -/
inductive TransformOp (K : Type) where
  | setPosition (position : Vector2f K)
  | translate (offset : Vector2f K)
  | setRotation (rotation : K)
  | rotate (angle : K)
  | setScale (scale : Vector2f K)
  | getTransformMatrix

/-- Effect of one call on the object. -/
def TransformState.step {K : Type} [Field K] (trig : Trig K) (t : TransformState K) :
    TransformOp K → TransformState K
  | TransformOp.setPosition position => t.setPosition position
  | TransformOp.translate offset => t.translate offset
  | TransformOp.setRotation rotation => t.setRotation rotation
  | TransformOp.rotate angle => t.rotate angle
  | TransformOp.setScale scale => t.setScale scale
  | TransformOp.getTransformMatrix => (t.getTransformMatrix trig).2

/-- Effect of a sequence of calls, first call first. -/
def TransformState.run {K : Type} [Field K] (trig : Trig K) (ops : List (TransformOp K))
    (t : TransformState K) : TransformState K :=
  ops.foldl (TransformState.step trig) t

/-- The matrix that a fresh recomputation gives from the current position, rotation and
scale of the object. -/
def TransformState.fresh {K : Type} [Field K] (trig : Trig K) (t : TransformState K) :
    SfTransform K :=
  (t.updateTransformMatrix trig).m_transformMatrix

/-- The cache is coherent: when the dirty flag is clear, the cached matrix is the one a
fresh recomputation gives. -/
def TransformState.Coherent {K : Type} [Field K] (trig : Trig K) (t : TransformState K) :
    Prop :=
  t.m_transformDirty = false → t.m_transformMatrix = t.fresh trig

/-- A cosine and a sine rounded to binary32 at 30 degrees (`0.8660254` and `0.5`), 1 and
0 at every other angle: their values at 30 degrees do not lie on the unit circle. -/
def sampleTrig : Trig ℚ :=
  { cos := fun a => if a = 30 then 14529495 / 16777216 else 1
    sin := fun a => if a = 30 then 1 / 2 else 0 }

end AnyField

/-! ## Basic facts -/

@[simp] theorem vector2f_add_x (a b : Vector2f) : (a + b).x = a.x + b.x := rfl

@[simp] theorem vector2f_add_y (a b : Vector2f) : (a + b).y = a.y + b.y := rfl

/-- The rectangle test of SFML is symmetric in its two rectangles. -/
theorem floatRect_intersects_comm (r s : FloatRect) : r.intersects s = s.intersects r := by
  simp only [FloatRect.intersects]
  rw [max_comm (min r.left (r.left + r.width)), max_comm (min r.top (r.top + r.height)),
    min_comm (max r.left (r.left + r.width)), min_comm (max r.top (r.top + r.height))]

/-- No rectangle intersects the default rectangle, which has no area. -/
theorem floatRect_intersects_empty (r : FloatRect) : r.intersects FloatRect.empty = false := by
  simp only [FloatRect.intersects, FloatRect.empty, add_zero, min_self, max_self,
    Bool.and_eq_false_imp, decide_eq_true_eq, decide_eq_false_iff_not, not_lt]
  intro h
  exact absurd (lt_of_le_of_lt (le_max_right _ _) (lt_of_lt_of_le h (min_le_right _ _)))
    (lt_irrefl _)

/-- Box against box always returns: the rectangle test of the two bounds. -/
theorem box_intersects_box_eq (a b : BoxCollider) :
    a.intersects (Collider.box b) = some (a.getBounds.intersects b.getBounds) := by
  cases h : a.m_transform with
  | none =>
    simp [BoxCollider.intersects, BoxCollider.getBounds, h,
      floatRect_intersects_comm FloatRect.empty, floatRect_intersects_empty]
  | some t => simp [BoxCollider.intersects, h]

/-- Box against circle, for a box with a Transform and a circle with a back-reference:
the circle's centre is the entity-level position of its GameObject plus the offset, and
the radius is the unscaled radius. -/
theorem box_intersects_circle_eq (b : BoxCollider) (c : CircleCollider) (t : Transform)
    (g : GameObject) (hb : b.m_transform = some t) (hg : c.m_gameObject = some g) :
    b.intersects (Collider.circle c) =
      some (decide (closestPointDistSq b.getBounds (g.m_position + c.m_offset)
        ≤ c.m_radius * c.m_radius)) := by
  simp [BoxCollider.intersects, hb, hg, closestPointDistSq, GameObject.getPosition,
    CircleCollider.getOffset, CircleCollider.getRadius]

/-- Circle against box is the box's answer whenever the circle has a Transform. -/
theorem circle_intersects_box_eq (c : CircleCollider) (b : BoxCollider) (t : Transform)
    (hc : c.m_transform = some t) :
    c.intersects (Collider.box b) = b.intersects (Collider.circle c) := by
  simp [CircleCollider.intersects, hc]

/-- Circle against circle, for a circle with a Transform and another circle with a
back-reference: this circle is read from its Transform, the other one from the
entity-level position and scale of its GameObject. -/
theorem circle_intersects_circle_eq (a b : CircleCollider) (t : Transform)
    (g : GameObject) (ha : a.m_transform = some t) (hg : b.m_gameObject = some g) :
    a.intersects (Collider.circle b) =
      some (decide (distSq (t.m_position + a.m_offset) (g.m_position + b.m_offset)
        ≤ (a.m_radius * max t.m_scale.x t.m_scale.y + b.m_radius * max g.m_scale.x g.m_scale.y)
          * (a.m_radius * max t.m_scale.x t.m_scale.y
            + b.m_radius * max g.m_scale.x g.m_scale.y))) := by
  simp [CircleCollider.intersects, ha, hg, distSq, Transform.getPosition, Transform.getScale,
    GameObject.getPosition, GameObject.getScale]

/-! ## Claims -/

/-- C1: for every attached BoxCollider `b` and attached CircleCollider `c`, with any
positions, scales, offsets, size and radius, `c.intersects(b)` and `b.intersects(c)` both
return and return the same value. -/
theorem circle_box_intersects_eq_box_circle (b : BoxCollider) (c : CircleCollider)
    (hb : b.attached) (hc : c.attached) :
    ∃ r : Bool, c.intersects (Collider.box b) = some r ∧
      b.intersects (Collider.circle c) = some r := by
  obtain ⟨hbt, -⟩ := hb
  obtain ⟨hct, hcg⟩ := hc
  obtain ⟨t, ht⟩ := Option.isSome_iff_exists.mp hct
  obtain ⟨g, hg⟩ := Option.isSome_iff_exists.mp hcg
  obtain ⟨tb, htb⟩ := Option.isSome_iff_exists.mp hbt
  rw [circle_intersects_box_eq c b t ht, box_intersects_circle_eq b c tb g htb hg]
  exact ⟨_, rfl, rfl⟩

/-- Witness of C1 on the box of size (10,10) at the origin and the circle of radius 3 at
(8,0). -/
theorem circle_box_intersects_eq_box_circle_witness :
    (boxOn 0 0 10 10).attached ∧ (circleOn 8 8 3 1).attached ∧
      ∃ r : Bool, (circleOn 8 8 3 1).intersects (Collider.box (boxOn 0 0 10 10)) = some r ∧
        (boxOn 0 0 10 10).intersects (Collider.circle (circleOn 8 8 3 1)) = some r :=
  ⟨by decide, by decide,
    circle_box_intersects_eq_box_circle (boxOn 0 0 10 10) (circleOn 8 8 3 1)
      (by decide) (by decide)⟩

/-- C2 (the code departs from the claim): the box has Transform position (20,0) and size
(10,10); the circle has Transform position (28,0), radius 3, scale (1,1), and its entity
keeps the default entity-level position (0,0).  The squared distance from the circle's
Transform position plus offset to the closest point of the box's bounds is 9, equal to
radius squared, yet `box.intersects(circle)` returns false, because the code reads the
circle's centre from the entity-level position. -/
theorem box_circle_boundary_reads_entity_position :
    (boxOn 20 0 10 10).attached ∧ (circleOn 28 0 3 1).attached ∧
      (∃ t, (circleOn 28 0 3 1).m_transform = some t ∧ t.m_scale = { x := 1, y := 1 } ∧
        closestPointDistSq (boxOn 20 0 10 10).getBounds
          (t.m_position + (circleOn 28 0 3 1).m_offset) = 3 * 3) ∧
      (boxOn 20 0 10 10).intersects (Collider.circle (circleOn 28 0 3 1)) = some false := by
  refine ⟨by decide, by decide, ?_, ?_⟩
  · refine ⟨_, rfl, rfl, ?_⟩
    norm_num [closestPointDistSq, boxOn, circleOn, BoxCollider.getBounds,
      Transform.getPosition, Transform.getScale]
  · rw [box_intersects_circle_eq _ _ _ _ rfl rfl]
    norm_num [closestPointDistSq, boxOn, circleOn, BoxCollider.getBounds,
      Transform.getPosition, Transform.getScale]

/-- C3 (the code departs from the claim): the box has Transform position (0,0) and size
(10,10); the circle has Transform position (9,0), radius 3, scale (1,1), and its entity
keeps the default entity-level position (0,0).  The squared distance from the circle's
Transform position plus offset to the closest point of the box's bounds is 16, greater
than radius squared, yet both `box.intersects(circle)` and `circle.intersects(box)`
return true. -/
theorem box_circle_separated_reads_entity_position :
    (boxOn 0 0 10 10).attached ∧ (circleOn 9 0 3 1).attached ∧
      (∃ t, (circleOn 9 0 3 1).m_transform = some t ∧ t.m_scale = { x := 1, y := 1 } ∧
        3 * 3 < closestPointDistSq (boxOn 0 0 10 10).getBounds
          (t.m_position + (circleOn 9 0 3 1).m_offset)) ∧
      (boxOn 0 0 10 10).intersects (Collider.circle (circleOn 9 0 3 1)) = some true ∧
      (circleOn 9 0 3 1).intersects (Collider.box (boxOn 0 0 10 10)) = some true := by
  have h : (boxOn 0 0 10 10).intersects (Collider.circle (circleOn 9 0 3 1)) = some true := by
    rw [box_intersects_circle_eq _ _ _ _ rfl rfl]
    norm_num [closestPointDistSq, boxOn, circleOn, BoxCollider.getBounds,
      Transform.getPosition, Transform.getScale]
  refine ⟨by decide, by decide, ?_, h, ?_⟩
  · refine ⟨_, rfl, rfl, ?_⟩
    norm_num [closestPointDistSq, boxOn, circleOn, BoxCollider.getBounds,
      Transform.getPosition, Transform.getScale]
  · rw [circle_intersects_box_eq _ _ _ rfl, h]

/-- C4 (the code departs from the claim): circles `a` and `b` of radius 2, scale (1,1)
and zero offset have Transform positions (0,0) and (5,0), and `b`'s entity keeps the
default entity-level position (0,0).  The squared distance of the two centres taken from
the Transforms is 25, greater than the squared sum of the scaled radii, 16, yet
`a.intersects(b)` returns true, because the code reads `b`'s centre and scale from the
entity-level fields of `b`'s GameObject. -/
theorem circle_circle_reads_entity_fields :
    (circleOn 0 0 2 1).attached ∧ (circleOn 5 0 2 1).attached ∧
      (∃ ta tb, (circleOn 0 0 2 1).m_transform = some ta ∧
        (circleOn 5 0 2 1).m_transform = some tb ∧
        ¬ distSq (ta.m_position + (circleOn 0 0 2 1).m_offset)
            (tb.m_position + (circleOn 5 0 2 1).m_offset) ≤
          ((circleOn 0 0 2 1).m_radius * max ta.m_scale.x ta.m_scale.y +
            (circleOn 5 0 2 1).m_radius * max tb.m_scale.x tb.m_scale.y) ^ 2) ∧
      (circleOn 0 0 2 1).intersects (Collider.circle (circleOn 5 0 2 1)) = some true := by
  refine ⟨by decide, by decide, ⟨_, _, rfl, rfl, ?_⟩, ?_⟩
  · norm_num [distSq, circleOn]
  · rw [circle_intersects_circle_eq _ _ _ _ rfl rfl]
    norm_num [distSq, circleOn]

/-- In exact arithmetic, for any two BoxColliders `a` and `b`, attached or not, with any
Transform position and scale, any size and offset, `a.intersects(b)` and
`b.intersects(a)` both return and return the same value. -/
theorem box_box_intersects_symm (a b : BoxCollider) :
    ∃ r : Bool, a.intersects (Collider.box b) = some r ∧
      b.intersects (Collider.box a) = some r :=
  ⟨a.getBounds.intersects b.getBounds, box_intersects_box_eq a b, by
    rw [box_intersects_box_eq, floatRect_intersects_comm]⟩

/-- In exact arithmetic, for an attached BoxCollider with zero offset and size `(w, h)`,
`w > 0` and `h > 0`, whose Transform has position `c` and scale (1,1), `containsPoint(p)`
is true for every `p` with `|p.x - c.x| < w/2` and `|p.y - c.y| < h/2`, and false for
every `p` with `|p.x - c.x| > w/2` or `|p.y - c.y| > h/2`. -/
theorem box_containsPoint_interior_exterior (b : BoxCollider) (t : Transform) (w h : ℚ)
    (ht : b.m_transform = some t) (hs : t.m_scale = { x := 1, y := 1 })
    (ho : b.m_offset = { x := 0, y := 0 }) (hz : b.m_size = { x := w, y := h })
    (hw : 0 < w) (hh : 0 < h) :
    (∀ p : Vector2f, |p.x - t.m_position.x| < w / 2 → |p.y - t.m_position.y| < h / 2 →
        b.containsPoint p = true) ∧
    (∀ p : Vector2f, (|p.x - t.m_position.x| > w / 2 ∨ |p.y - t.m_position.y| > h / 2) →
        b.containsPoint p = false) := by
  have hb : b.getBounds =
      FloatRect.mk (t.m_position.x - w / 2) (t.m_position.y - h / 2) w h := by
    simp [BoxCollider.getBounds, ht, hs, ho, hz, Transform.getPosition, Transform.getScale]
    constructor <;> ring
  have hx1 : min (t.m_position.x - w / 2) (t.m_position.x - w / 2 + w)
      = t.m_position.x - w / 2 := min_eq_left (by linarith)
  have hx2 : max (t.m_position.x - w / 2) (t.m_position.x - w / 2 + w)
      = t.m_position.x + w / 2 := by rw [max_eq_right (by linarith)]; ring
  have hy1 : min (t.m_position.y - h / 2) (t.m_position.y - h / 2 + h)
      = t.m_position.y - h / 2 := min_eq_left (by linarith)
  have hy2 : max (t.m_position.y - h / 2) (t.m_position.y - h / 2 + h)
      = t.m_position.y + h / 2 := by rw [max_eq_right (by linarith)]; ring
  constructor
  · intro p hx hy
    rw [abs_lt] at hx hy
    simp only [BoxCollider.containsPoint, hb, FloatRect.contains, hx1, hx2, hy1, hy2,
      Bool.and_eq_true, decide_eq_true_eq, ge_iff_le]
    refine ⟨⟨⟨?_, ?_⟩, ?_⟩, ?_⟩ <;> linarith [hx.1, hx.2, hy.1, hy.2]
  · intro p hp
    simp only [BoxCollider.containsPoint, hb, FloatRect.contains, hx1, hx2, hy1, hy2,
      ge_iff_le]
    rw [Bool.eq_false_iff]
    intro hc
    simp only [ne_eq, Bool.and_eq_true, decide_eq_true_eq] at hc
    obtain ⟨⟨⟨h1, h2⟩, h3⟩, h4⟩ := hc
    rcases hp with hp | hp
    · exact absurd (abs_le.mpr ⟨by linarith, by linarith⟩) (not_le.mpr hp)
    · exact absurd (abs_le.mpr ⟨by linarith, by linarith⟩) (not_le.mpr hp)

/-- In exact arithmetic, for an attached CircleCollider with Transform `t` and every
point `p`, `containsPoint(p)` is true exactly when
`(p.x - c.x)² + (p.y - c.y)² <= (radius * max(scale.x, scale.y))²`, where `c` is the
Transform position plus the offset; in particular a point exactly on the circle is
contained. -/
theorem circle_containsPoint_iff (c : CircleCollider) (t : Transform)
    (ht : c.m_transform = some t) (p : Vector2f) :
    (c.containsPoint p = true ↔
      (p.x - (t.m_position.x + c.m_offset.x)) ^ 2 + (p.y - (t.m_position.y + c.m_offset.y)) ^ 2
        ≤ (c.m_radius * max t.m_scale.x t.m_scale.y) ^ 2) ∧
    ((p.x - (t.m_position.x + c.m_offset.x)) ^ 2 + (p.y - (t.m_position.y + c.m_offset.y)) ^ 2
        = (c.m_radius * max t.m_scale.x t.m_scale.y) ^ 2 → c.containsPoint p = true) := by
  have h : c.containsPoint p = true ↔
      (p.x - (t.m_position.x + c.m_offset.x)) ^ 2 + (p.y - (t.m_position.y + c.m_offset.y)) ^ 2
        ≤ (c.m_radius * max t.m_scale.x t.m_scale.y) ^ 2 := by
    simp only [CircleCollider.containsPoint, ht, Transform.getPosition, Transform.getScale,
      vector2f_add_x, vector2f_add_y, decide_eq_true_eq, sq]
  exact ⟨h, fun he => h.mpr (le_of_eq he)⟩

/-- C8: for an attached BoxCollider with Transform `t`, `getBounds()` is the rectangle
with width `size.x * scale.x`, height `size.y * scale.y`,
left `position.x + offset.x - width/2` and top `position.y + offset.y - height/2`; the
result is the same for every value of the Transform's rotation. -/
theorem box_getBounds_eq (b : BoxCollider) (t : Transform) (ht : b.m_transform = some t) :
    b.getBounds =
      FloatRect.mk (t.m_position.x + b.m_offset.x - b.m_size.x * t.m_scale.x / 2)
        (t.m_position.y + b.m_offset.y - b.m_size.y * t.m_scale.y / 2)
        (b.m_size.x * t.m_scale.x) (b.m_size.y * t.m_scale.y) ∧
    ∀ rotation : ℚ,
      BoxCollider.getBounds { b with m_transform := some { t with m_rotation := rotation } }
        = b.getBounds := by
  constructor
  · simp only [BoxCollider.getBounds, ht, Transform.getPosition, Transform.getScale,
      vector2f_add_x, vector2f_add_y, FloatRect.mk.injEq, and_true]
    constructor <;> ring
  · intro rotation
    simp only [BoxCollider.getBounds, ht, Transform.getPosition, Transform.getScale]

/-- Witness of C8: the box of size (10,10) on a Transform at (20,0) has bounds
(15, -5, 10, 10). -/
theorem box_getBounds_eq_witness :
    (boxOn 20 0 10 10).getBounds = FloatRect.mk 15 (-5) 10 10 := by
  have h := (box_getBounds_eq (boxOn 20 0 10 10) { m_position := { x := 20, y := 0 } } rfl).1
  rw [h]
  norm_num [boxOn]

/-- C9: for an attached CircleCollider with Transform `t`, `getBounds()` is the square
with side `2 * radius * max(scale.x, scale.y)` centred at the Transform position plus the
offset: left is `centre.x - radius * max(scale.x, scale.y)` and top is
`centre.y - radius * max(scale.x, scale.y)`. -/
theorem circle_getBounds_eq (c : CircleCollider) (t : Transform)
    (ht : c.m_transform = some t) :
    c.getBounds =
      FloatRect.mk (t.m_position.x + c.m_offset.x - c.m_radius * max t.m_scale.x t.m_scale.y)
        (t.m_position.y + c.m_offset.y - c.m_radius * max t.m_scale.x t.m_scale.y)
        (2 * c.m_radius * max t.m_scale.x t.m_scale.y)
        (2 * c.m_radius * max t.m_scale.x t.m_scale.y) := by
  simp only [CircleCollider.getBounds, ht, Transform.getPosition, Transform.getScale,
    vector2f_add_x, vector2f_add_y, FloatRect.mk.injEq, true_and]
  constructor <;> ring

/-- Witness of C9: the circle of radius 1 on a Transform at (13/2, 0) of scale (2,2) has
the bounding square (9/2, -2, 4, 4). -/
theorem circle_getBounds_eq_witness :
    (circleOn (13 / 2) (13 / 2) 1 2).getBounds = FloatRect.mk (9 / 2) (-2) 4 4 := by
  have h := circle_getBounds_eq (circleOn (13 / 2) (13 / 2) 1 2)
    { m_position := { x := 13 / 2, y := 0 }, m_scale := { x := 2, y := 2 } } rfl
  rw [h]
  norm_num [circleOn]

/-- C10 (the code departs from the claim): the box has Transform position (0,0) and size
(10,10); the circle has radius 1, Transform scale (2,2), and its Transform position and
entity-level position are both (13/2, 0), so its centre lies 3/2 beyond the box's right
edge.  The squared distance from the centre to its clamp into the box's bounds is 9/4,
at most the scaled radius squared, 4, yet `box.intersects(circle)` returns false, because
the code compares against the unscaled radius. -/
theorem box_circle_uses_unscaled_radius :
    (boxOn 0 0 10 10).attached ∧ (circleOn (13 / 2) (13 / 2) 1 2).attached ∧
      (∃ t g, (circleOn (13 / 2) (13 / 2) 1 2).m_transform = some t ∧
        (circleOn (13 / 2) (13 / 2) 1 2).m_gameObject = some g ∧
        g.m_position = t.m_position ∧
        closestPointDistSq (boxOn 0 0 10 10).getBounds
            (t.m_position + (circleOn (13 / 2) (13 / 2) 1 2).m_offset) ≤
          ((circleOn (13 / 2) (13 / 2) 1 2).m_radius * max t.m_scale.x t.m_scale.y) ^ 2) ∧
      (boxOn 0 0 10 10).intersects (Collider.circle (circleOn (13 / 2) (13 / 2) 1 2))
        = some false := by
  refine ⟨by decide, by decide, ⟨_, _, rfl, rfl, rfl, ?_⟩, ?_⟩
  · norm_num [closestPointDistSq, boxOn, circleOn, BoxCollider.getBounds,
      Transform.getPosition, Transform.getScale]
  · rw [box_intersects_circle_eq _ _ _ _ rfl rfl]
    norm_num [closestPointDistSq, boxOn, circleOn, BoxCollider.getBounds,
      Transform.getPosition, Transform.getScale]

/-- Adding a component whose key is present returns the stored instance and changes
nothing. -/
theorem addComponent_of_present (e : Entity) (r : Runtime) (v : ComponentValue)
    (c : Component) (h : e.getComponent v.typeIndex = some c) :
    e.addComponent r v = (r, e, c.object) := by
  simp only [Entity.getComponent] at h
  simp [Entity.addComponent, h]

/-- Assigning a collider's `m_transform` leaves the other keys of the map alone. -/
theorem getComponent_setColliderTransform_ne (e : Entity) (T U : TypeIndex)
    (p : Option ObjectId) (h : T ≠ U) :
    (e.setColliderTransform U p).getComponent T = e.getComponent T := by
  unfold Entity.setColliderTransform
  cases hU : e.m_components.lookup U with
  | none => rfl
  | some c => simp [Entity.getComponent, AList.lookup_insert_ne h]

/-- Assigning a collider's `m_transform` rewrites only that member. -/
theorem getComponent_setColliderTransform_self (e : Entity) (U : TypeIndex)
    (p : Option ObjectId) (c : Component) (h : e.getComponent U = some c) :
    (e.setColliderTransform U p).getComponent U
      = some { c with value := c.value.setTransform p } := by
  simp only [Entity.getComponent] at h
  simp [Entity.setColliderTransform, h, Entity.getComponent, AList.lookup_insert]

/-- Adding a Transform keeps every component that is already stored. -/
theorem getComponent_addComponentTransform (e : Entity) (r : Runtime) (t : Transform)
    (T : TypeIndex) (c : Component) (h : e.getComponent T = some c) :
    (e.addComponentTransform r t).2.1.getComponent T = some c := by
  unfold Entity.addComponentTransform
  cases ht : e.m_components.lookup TypeIndex.transform with
  | some existing => simpa using h
  | none =>
    have hne : T ≠ TypeIndex.transform := by
      rintro rfl
      simp [Entity.getComponent, ht] at h
    simpa [Entity.emplace, Entity.getComponent, ComponentValue.typeIndex,
      AList.lookup_insert_ne hne] using h

/-- Adding any component keeps every component that is already stored, with its
identity and its state. -/
theorem getComponent_addComponent (e : Entity) (r : Runtime) (v : ComponentValue)
    (T : TypeIndex) (c : Component) (h : e.getComponent T = some c) :
    (e.addComponent r v).2.1.getComponent T = some c := by
  unfold Entity.addComponent
  cases hv : e.m_components.lookup v.typeIndex with
  | some existing => simpa using h
  | none =>
    have hne : T ≠ v.typeIndex := by
      rintro rfl
      simp [Entity.getComponent, hv] at h
    have h1 : (e.emplace r v).2.1.getComponent T = some c := by
      simpa [Entity.emplace, Entity.getComponent, AList.lookup_insert_ne hne] using h
    by_cases hc : v.isCollider = true
    · simp only [hc, if_true]
      unfold Collider.onAttach
      cases ht : (e.emplace r v).2.1.getComponent TypeIndex.transform with
      | some transform =>
        simp only [ht]
        rw [getComponent_setColliderTransform_ne _ _ _ _ hne]
        exact h1
      | none =>
        simp only [ht]
        rw [getComponent_setColliderTransform_ne _ _ _ _ hne]
        exact getComponent_addComponentTransform _ _ _ _ _ h1
    · simp only [hc]
      exact h1

/-- Removing the component of one type keeps the components of every other type. -/
theorem getComponent_removeComponent_ne (e : Entity) (r : Runtime) (T U : TypeIndex)
    (h : U ≠ T) : (e.removeComponent r T).2.1.getComponent U = e.getComponent U := by
  unfold Entity.removeComponent
  cases hT : e.m_components.lookup T with
  | none => rfl
  | some c => simp [Entity.getComponent, AList.lookup_erase_ne h]

/-- Assigning `m_transform` does nothing on an object that is not a collider. -/
theorem setTransform_of_not_isCollider (v : ComponentValue) (p : Option ObjectId)
    (h : v.isCollider = false) : v.setTransform p = v := by
  cases v <;> simp_all [ComponentValue.isCollider, ComponentValue.setTransform]

/-- A collider is never stored under the key of `Transform`. -/
theorem typeIndex_ne_transform_of_isCollider (v : ComponentValue)
    (h : v.isCollider = true) : v.typeIndex ≠ TypeIndex.transform := by
  cases v <;> simp_all [ComponentValue.isCollider, ComponentValue.typeIndex]

/-- The first `addComponent<T>`: the object built by `make_unique` is returned and is
stored under the key of `T`, with the back-reference set, active, and in the constructed
state up to the `m_transform` that `Collider::onAttach` assigns. -/
theorem addComponent_of_absent (e : Entity) (r : Runtime) (v : ComponentValue)
    (h : e.getComponent v.typeIndex = none) :
    (e.addComponent r v).2.2 = r.nextObject ∧
    ∃ p, (e.addComponent r v).2.1.getComponent v.typeIndex
      = some { object := r.nextObject, m_gameObject := some e.m_id, m_active := true,
               value := v.setTransform p } := by
  simp only [Entity.getComponent] at h
  have h1 : (e.emplace r v).2.1.getComponent v.typeIndex
      = some { object := r.nextObject, m_gameObject := some e.m_id, m_active := true,
               value := v } := by
    simp [Entity.emplace, Entity.getComponent, AList.lookup_insert]
  unfold Entity.addComponent
  simp only [h]
  by_cases hc : v.isCollider = true
  · simp only [hc, if_true]
    refine ⟨rfl, ?_⟩
    unfold Collider.onAttach
    cases ht : (e.emplace r v).2.1.getComponent TypeIndex.transform with
    | some transform =>
      exact ⟨_, by simp only [ht]; exact getComponent_setColliderTransform_self _ _ _ _ h1⟩
    | none =>
      refine ⟨some ((e.emplace r v).2.1.addComponentTransform
        ((e.emplace r v).1.call (e.emplace r v).2.2 Hook.onAttach) {}).2.2, ?_⟩
      simp only [ht]
      exact getComponent_setColliderTransform_self _ _ _ _
        (getComponent_addComponentTransform _ _ _ _ _ h1)
  · simp only [hc]
    refine ⟨rfl, none, ?_⟩
    rw [setTransform_of_not_isCollider v none (by simpa using hc)]
    exact h1

/-- A sequence of registry calls that never removes the type `T` keeps the stored `T`,
with its identity and its state. -/
theorem getComponent_run (T : TypeIndex) (c : Component) (ops : List EntityOp) :
    ∀ state : Runtime × Entity, EntityOp.removeComponent T ∉ ops →
      state.2.getComponent T = some c → (Entity.run ops state).2.getComponent T = some c := by
  induction ops with
  | nil => intro state _ h; exact h
  | cons op ops ih =>
    intro state hops h
    have hop : op ≠ EntityOp.removeComponent T := fun heq => hops (heq ▸ List.mem_cons_self _ _)
    have hrest : EntityOp.removeComponent T ∉ ops := fun hmem => hops (List.mem_cons_of_mem _ hmem)
    simp only [Entity.run, List.foldl_cons]
    apply ih _ hrest
    cases op with
    | addComponent v => exact getComponent_addComponent _ _ _ _ _ h
    | removeComponent U =>
      have hne : T ≠ U := fun heq => hop (heq ▸ rfl)
      simp only [Entity.step]
      rw [getComponent_removeComponent_ne _ _ _ _ hne]
      exact h

/-- A stored key occurs exactly once among the keys of the component map. -/
theorem count_keys_of_getComponent (e : Entity) (T : TypeIndex) (c : Component)
    (h : e.getComponent T = some c) : e.m_components.keys.count T = 1 := by
  have hmem : T ∈ e.m_components.keys := by
    rw [← AList.mem_keys, ← AList.lookup_isSome]
    simp only [Entity.getComponent] at h
    simp [h]
  exact List.count_eq_one_of_mem e.m_components.keys_nodup hmem

/-- C12: on an entity without a `T`, the first `addComponent<T>(args)` stores a new `T`
(a fresh object in the constructed state, up to the Transform pointer that a collider
resolves on attach) and returns it; after any sequence of registry calls that does not
remove `T`, `getComponent<T>()` returns that same instance in the same state, the entity
holds exactly one `T`, and `addComponent<T>(args')` with any arguments returns that
same instance and changes neither the entity nor the runtime, so no `onAttach` is
invoked. -/
theorem addComponent_idempotent (e : Entity) (r : Runtime) (v : ComponentValue)
    (h : e.hasComponent v.typeIndex = false) :
    ∃ c : Component,
      c.object = r.nextObject ∧ (∃ p, c.value = v.setTransform p) ∧
      (e.addComponent r v).2.2 = c.object ∧
      (e.addComponent r v).2.1.getComponent v.typeIndex = some c ∧
      ∀ ops : List EntityOp, EntityOp.removeComponent v.typeIndex ∉ ops →
        ∀ state : Runtime × Entity,
          state = Entity.run ops ((e.addComponent r v).1, (e.addComponent r v).2.1) →
          state.2.getComponent v.typeIndex = some c ∧
          state.2.m_components.keys.count v.typeIndex = 1 ∧
          ∀ v' : ComponentValue, v'.typeIndex = v.typeIndex →
            state.2.addComponent state.1 v' = (state.1, state.2, c.object) := by
  have habs : e.getComponent v.typeIndex = none := by
    simpa [Entity.hasComponent, Entity.getComponent] using h
  obtain ⟨hret, p, hget⟩ := addComponent_of_absent e r v habs
  refine ⟨_, rfl, ⟨p, rfl⟩, hret, hget, ?_⟩
  intro ops hops state hstate
  have hkeep := getComponent_run v.typeIndex _ ops
    ((e.addComponent r v).1, (e.addComponent r v).2.1) hops hget
  rw [← hstate] at hkeep
  refine ⟨hkeep, count_keys_of_getComponent _ _ _ hkeep, ?_⟩
  intro v' hv'
  exact addComponent_of_present _ _ _ _ (hv' ▸ hkeep)

/-- Witness of C12: on an empty entity, a BoxCollider is added, then a Transform is
requested and a second BoxCollider of another size: the second request returns the first
collider, object 0, and leaves the entity with one BoxCollider. -/
theorem addComponent_idempotent_witness :
    ∃ c : Component, c.object = 0 ∧
      ∀ state : Runtime × Entity,
        state = Entity.run [EntityOp.addComponent (ComponentValue.transform {})]
          (((({ m_id := 7 } : Entity).addComponent {}
              (ComponentValue.boxCollider ⟨1, 1⟩ ⟨0, 0⟩ {})).1),
            ((({ m_id := 7 } : Entity).addComponent {}
              (ComponentValue.boxCollider ⟨1, 1⟩ ⟨0, 0⟩ {})).2.1)) →
        state.2.m_components.keys.count TypeIndex.boxCollider = 1 ∧
        state.2.addComponent state.1 (ComponentValue.boxCollider ⟨4, 4⟩ ⟨0, 0⟩ {})
          = (state.1, state.2, c.object) := by
  obtain ⟨c, hc, -, -, -, hops⟩ := addComponent_idempotent ({ m_id := 7 } : Entity) {}
    (ComponentValue.boxCollider ⟨1, 1⟩ ⟨0, 0⟩ {}) rfl
  refine ⟨c, hc, fun state hstate => ?_⟩
  obtain ⟨-, hcount, hadd⟩ := hops [EntityOp.addComponent (ComponentValue.transform {})]
    (by decide) state hstate
  exact ⟨hcount, hadd _ rfl⟩

/-- C13: `removeComponent<T>()` returns true exactly when `hasComponent<T>()` was true
before the call, and `hasComponent<T>()` is true exactly when `getComponent<T>()` is not
null.  After a true result `hasComponent<T>()` is false, `getComponent<T>()` is null and
the components of every other type are unchanged; after a false result the entity and
the runtime are unchanged. -/
theorem removeComponent_spec (e : Entity) (r : Runtime) (T : TypeIndex) :
    (e.removeComponent r T).2.2 = e.hasComponent T ∧
    e.hasComponent T = (e.getComponent T).isSome ∧
    ((e.removeComponent r T).2.2 = true →
      (e.removeComponent r T).2.1.hasComponent T = false ∧
      (e.removeComponent r T).2.1.getComponent T = none ∧
      ∀ U : TypeIndex, U ≠ T →
        (e.removeComponent r T).2.1.getComponent U = e.getComponent U) ∧
    ((e.removeComponent r T).2.2 = false →
      (e.removeComponent r T).2.1 = e ∧ (e.removeComponent r T).1 = r) := by
  refine ⟨?_, rfl, ?_, ?_⟩
  · unfold Entity.removeComponent Entity.hasComponent
    cases e.m_components.lookup T <;> rfl
  · intro _
    refine ⟨?_, ?_, fun U hU => getComponent_removeComponent_ne e r T U hU⟩
    · unfold Entity.removeComponent Entity.hasComponent
      cases hT : e.m_components.lookup T with
      | none => simp [hT]
      | some c => simp [AList.lookup_erase]
    · unfold Entity.removeComponent Entity.getComponent
      cases hT : e.m_components.lookup T with
      | none => simp [hT]
      | some c => simp [AList.lookup_erase]
  · unfold Entity.removeComponent
    cases hT : e.m_components.lookup T with
    | none => intro _; exact ⟨rfl, rfl⟩
    | some c => intro hfalse; simp at hfalse

/-- Adding a Transform to an entity without one stores the fresh object. -/
theorem addComponentTransform_of_absent (e : Entity) (r : Runtime) (t : Transform)
    (h : e.getComponent TypeIndex.transform = none) :
    (e.addComponentTransform r t).2.2 = r.nextObject ∧
    (e.addComponentTransform r t).2.1.getComponent TypeIndex.transform
      = some { object := r.nextObject, m_gameObject := some e.m_id, m_active := true,
               value := ComponentValue.transform t } := by
  simp only [Entity.getComponent] at h
  simp [Entity.addComponentTransform, h, Entity.emplace, Entity.getComponent,
    AList.lookup_insert, ComponentValue.typeIndex]

/-- C14 as stated fails: on a new entity a BoxCollider is added (which creates the
Transform), the Transform is removed, and `addComponent<BoxCollider>()` is called again;
the call returns the stored collider without running `onAttach`, and afterwards
`hasComponent<Transform>()` is false. -/
theorem collider_readd_leaves_transform_absent :
    ((Entity.run
        [EntityOp.addComponent (ComponentValue.boxCollider ⟨1, 1⟩ ⟨0, 0⟩ {}),
          EntityOp.removeComponent TypeIndex.transform] ({}, sampleEntity)).2.addComponent
      (Entity.run
        [EntityOp.addComponent (ComponentValue.boxCollider ⟨1, 1⟩ ⟨0, 0⟩ {}),
          EntityOp.removeComponent TypeIndex.transform] ({}, sampleEntity)).1
      (ComponentValue.boxCollider ⟨1, 1⟩ ⟨0, 0⟩ {})).2.1.hasComponent TypeIndex.transform
      = false := by
  rfl

/-- C14 (amended): on an entity that does not yet hold a collider of the type being
added, after `addComponent<BoxCollider>()` or `addComponent<CircleCollider>()`
`hasComponent<Transform>()` is true.  If the entity had no Transform, a new one with
position (0,0), rotation 0 and scale (1,1) is stored; if it had one, that instance is
kept with its state.  In both cases the stored collider is the returned object, its
back-reference is the entity (it is already set on the object that `onAttach` runs on),
and its `m_transform`, which the queries read, points to that Transform. -/
theorem collider_attach_resolves_transform (e : Entity) (r : Runtime) (v : ComponentValue)
    (hv : v.isCollider = true) (h : e.hasComponent v.typeIndex = false) :
    (e.addComponent r v).2.1.hasComponent TypeIndex.transform = true ∧
    (e.getComponent TypeIndex.transform = none →
      (e.addComponent r v).2.1.getComponent TypeIndex.transform
        = some { object := r.nextObject + 1, m_gameObject := some e.m_id, m_active := true,
                 value := ComponentValue.transform
                   { m_position := { x := 0, y := 0 }, m_rotation := 0,
                     m_scale := { x := 1, y := 1 } } }) ∧
    (∀ t : Component, e.getComponent TypeIndex.transform = some t →
      (e.addComponent r v).2.1.getComponent TypeIndex.transform = some t) ∧
    (∃ c : Component, (e.emplace r v).2.1.getComponent v.typeIndex = some c ∧
      c.m_gameObject = some e.m_id) ∧
    ∃ t : Component,
      (e.addComponent r v).2.1.getComponent TypeIndex.transform = some t ∧
      (e.addComponent r v).2.1.getComponent v.typeIndex
        = some { object := (e.addComponent r v).2.2, m_gameObject := some e.m_id,
                 m_active := true, value := v.setTransform (some t.object) } := by
  have habs : e.m_components.lookup v.typeIndex = none := by
    simpa [Entity.hasComponent] using h
  have hne : v.typeIndex ≠ TypeIndex.transform := typeIndex_ne_transform_of_isCollider v hv
  have h1 : (e.emplace r v).2.1.getComponent v.typeIndex
      = some { object := r.nextObject, m_gameObject := some e.m_id, m_active := true,
               value := v } := by
    simp [Entity.emplace, Entity.getComponent, AList.lookup_insert]
  have h2 : (e.emplace r v).2.1.getComponent TypeIndex.transform
      = e.getComponent TypeIndex.transform := by
    simp [Entity.emplace, Entity.getComponent, AList.lookup_insert_ne hne.symm]
  have hadd : e.addComponent r v
      = ((Collider.onAttach (e.emplace r v).2.1
            ((e.emplace r v).1.call r.nextObject Hook.onAttach) v.typeIndex).1,
          (Collider.onAttach (e.emplace r v).2.1
            ((e.emplace r v).1.call r.nextObject Hook.onAttach) v.typeIndex).2,
          r.nextObject) := by
    simp [Entity.addComponent, habs, hv, Entity.emplace]
  cases ht : e.getComponent TypeIndex.transform with
  | some t =>
    have h3 : (e.addComponent r v).2.1.getComponent TypeIndex.transform = some t := by
      rw [hadd]
      simp only [Collider.onAttach, h2, ht]
      rw [getComponent_setColliderTransform_ne _ _ _ _ hne.symm, h2, ht]
    have h4 : (e.addComponent r v).2.1.getComponent v.typeIndex
        = some { object := r.nextObject, m_gameObject := some e.m_id, m_active := true,
                 value := v.setTransform (some t.object) } := by
      rw [hadd]
      simp only [Collider.onAttach, h2, ht]
      exact getComponent_setColliderTransform_self _ _ _ _ h1
    refine ⟨by simpa [Entity.hasComponent, Entity.getComponent] using congrArg Option.isSome h3,
      fun hnone => by simp at hnone, fun t' ht' => ?_, ⟨_, h1, rfl⟩, t, h3, ?_⟩
    · rw [h3, ← Option.some.inj ht']
    · rw [h4, hadd]
  | none =>
    have h2' : (e.emplace r v).2.1.getComponent TypeIndex.transform = none := by
      rw [h2, ht]
    have h3 : (e.addComponent r v).2.1.getComponent TypeIndex.transform
        = some { object := r.nextObject + 1, m_gameObject := some e.m_id, m_active := true,
                 value := ComponentValue.transform {} } := by
      rw [hadd]
      simp only [Collider.onAttach, h2, ht]
      rw [getComponent_setColliderTransform_ne _ _ _ _ hne.symm]
      exact (addComponentTransform_of_absent _ _ _ h2').2
    have h4 : (e.addComponent r v).2.1.getComponent v.typeIndex
        = some { object := r.nextObject, m_gameObject := some e.m_id, m_active := true,
                 value := v.setTransform (some (r.nextObject + 1)) } := by
      rw [hadd]
      simp only [Collider.onAttach, h2, ht]
      have h5 := getComponent_setColliderTransform_self _ _
        (some ((e.emplace r v).2.1.addComponentTransform
          ((e.emplace r v).1.call r.nextObject Hook.onAttach) {}).2.2) _
        (getComponent_addComponentTransform (e.emplace r v).2.1
          ((e.emplace r v).1.call r.nextObject Hook.onAttach) {} _ _ h1)
      rw [h5, (addComponentTransform_of_absent _ _ _ h2').1]
      rfl
    refine ⟨by simpa [Entity.hasComponent, Entity.getComponent] using congrArg Option.isSome h3,
      fun _ => h3, fun t' ht' => by simp at ht', ⟨_, h1, rfl⟩, _, h3, ?_⟩
    rw [h4, hadd]

/-- Witness of the amended C14: a CircleCollider added to an empty entity creates
the default Transform. -/
theorem collider_attach_resolves_transform_witness :
    (({ m_id := 7 } : Entity).addComponent {}
      (ComponentValue.circleCollider 3 ⟨0, 0⟩ {})).2.1.hasComponent TypeIndex.transform
      = true :=
  (collider_attach_resolves_transform ({ m_id := 7 } : Entity) {}
    (ComponentValue.circleCollider 3 ⟨0, 0⟩ {}) rfl rfl).1

/-! ## Detach bookkeeping -/

/-- Allocating a fresh object, storing it and invoking its `onAttach` keeps the
invariant. -/
theorem detachInv_alloc (first next : ObjectId) (calls : List HookCall)
    (stored : List ObjectId) (h : DetachInv first next calls stored) :
    DetachInv first (next + 1) (calls ++ [{ object := next, hook := Hook.onAttach }])
      (next :: stored) := by
  obtain ⟨hnd, hlt, hcalls, hcount⟩ := h
  refine ⟨List.nodup_cons.mpr ⟨fun hmem => absurd (hlt _ hmem) (lt_irrefl _), hnd⟩, ?_, ?_, ?_⟩
  · intro o ho
    rcases List.mem_cons.mp ho with rfl | ho
    · exact Nat.lt_succ_self _
    · exact Nat.lt_succ_of_lt (hlt o ho)
  · intro hc hmem
    rcases List.mem_append.mp hmem with hmem | hmem
    · exact Nat.lt_succ_of_lt (hcalls hc hmem)
    · rw [List.mem_singleton] at hmem
      subst hmem
      exact Nat.lt_succ_self _
  · intro o hfirst ho
    have hne : ({ object := next, hook := Hook.onAttach } : HookCall)
        ≠ { object := o, hook := Hook.onDetach } := by
      intro heq
      injection heq with _ hhook
      cases hhook
    rw [List.count_append, List.count_singleton, if_neg (by simp), add_zero]
    by_cases heq : o = next
    · subst heq
      rw [if_pos (List.mem_cons_self _ _)]
      exact List.count_eq_zero.mpr fun hmem => absurd (hcalls _ hmem) (lt_irrefl _)
    · have ho' : o < next := lt_of_le_of_ne (Nat.le_of_lt_succ ho) heq
      rw [hcount o hfirst ho']
      simp [List.mem_cons, heq]

/-- The invariant does not depend on the iteration order of the map. -/
theorem detachInv_perm (first next : ObjectId) (calls : List HookCall)
    (stored stored' : List ObjectId) (hp : stored.Perm stored')
    (h : DetachInv first next calls stored) : DetachInv first next calls stored' := by
  obtain ⟨hnd, hlt, hcalls, hcount⟩ := h
  refine ⟨hp.nodup_iff.mp hnd, fun o ho => hlt o (hp.mem_iff.mpr ho), hcalls, ?_⟩
  intro o hfirst ho
  rw [hcount o hfirst ho]
  simp only [hp.mem_iff]

/-- Invoking `onDetach` on a stored object and erasing it keeps the invariant. -/
theorem detachInv_detach (first next : ObjectId) (calls : List HookCall) (p : ObjectId)
    (stored : List ObjectId) (h : DetachInv first next calls (p :: stored)) :
    DetachInv first next (calls ++ [{ object := p, hook := Hook.onDetach }]) stored := by
  obtain ⟨hnd, hlt, hcalls, hcount⟩ := h
  obtain ⟨hp, hnd'⟩ := List.nodup_cons.mp hnd
  refine ⟨hnd', fun o ho => hlt o (List.mem_cons_of_mem _ ho), ?_, ?_⟩
  · intro hc hmem
    rcases List.mem_append.mp hmem with hmem | hmem
    · exact hcalls hc hmem
    · rw [List.mem_singleton] at hmem
      subst hmem
      exact hlt p (List.mem_cons_self _ _)
  · intro o hfirst ho
    rw [List.count_append, hcount o hfirst ho, List.count_singleton]
    by_cases heq : o = p
    · subst heq
      simp [hp]
    · have hne : ¬ (({ object := p, hook := Hook.onDetach } : HookCall)
          = { object := o, hook := Hook.onDetach }) := by
        intro h'
        injection h' with h1 _
        exact heq h1.symm
      simp [List.mem_cons, heq, hne]

/-- A stored entry can be moved to the front of the entries, the others being those of
the map with its key erased. -/
theorem entries_perm_of_lookup (m : AList (fun _ : TypeIndex => Component)) (T : TypeIndex)
    (c : Component) (h : m.lookup T = some c) :
    m.entries.Perm (⟨T, c⟩ :: (m.erase T).entries) := by
  have hmem : (⟨T, c⟩ : Sigma fun _ : TypeIndex => Component) ∈ m.entries :=
    AList.mem_lookup_iff.mp h
  have hkey : T ∈ m.entries.keys := List.mem_keys_of_mem hmem
  obtain ⟨b, l₁, l₂, -, hl, hk⟩ := List.exists_of_kerase hkey
  have hb : (⟨T, b⟩ : Sigma fun _ : TypeIndex => Component) ∈ m.entries := by
    rw [hl]
    exact List.mem_append_right _ (List.mem_cons_self _ _)
  have hbc : b = c := m.nodupKeys.eq_of_mk_mem hb hmem
  subst hbc
  have he : (m.erase T).entries = l₁ ++ l₂ := hk
  rw [he, hl]
  exact List.perm_middle

/-- Objects of the entity after `emplace` under an absent key. -/
theorem objects_emplace (e : Entity) (r : Runtime) (v : ComponentValue)
    (h : e.getComponent v.typeIndex = none) :
    (e.emplace r v).2.1.objects = r.nextObject :: e.objects := by
  have hnot : v.typeIndex ∉ e.m_components := AList.lookup_eq_none.mp h
  have he : (e.emplace r v).2.1.m_components.entries
      = ⟨v.typeIndex, { object := r.nextObject, m_gameObject := some e.m_id, value := v }⟩
        :: e.m_components.entries := AList.insert_entries_of_neg hnot
  simp only [Entity.objects, Entity.components, he, List.map_cons]

/-- Assigning a collider's `m_transform` keeps the stored objects. -/
theorem objects_setColliderTransform (e : Entity) (T : TypeIndex) (p : Option ObjectId) :
    (e.setColliderTransform T p).objects.Perm e.objects := by
  unfold Entity.setColliderTransform
  cases h : e.m_components.lookup T with
  | none => exact List.Perm.refl _
  | some c =>
    have hp := entries_perm_of_lookup e.m_components T c h
    have h1 : e.objects.Perm (c.object :: ((e.m_components.erase T).entries.map
        (fun entry => entry.2)).map (fun c => c.object)) := by
      simpa [Entity.objects, Entity.components] using
        (hp.map (fun entry => entry.2)).map (fun c => c.object)
    have h2 : (AList.insert T { c with value := c.value.setTransform p }
        e.m_components).entries
        = ⟨T, { c with value := c.value.setTransform p }⟩ :: (e.m_components.erase T).entries := by
      rw [AList.insert_entries]
      rfl
    simp only [Entity.objects, Entity.components, h2, List.map_cons]
    exact h1.symm

/-- Objects of the entity before and after a successful `removeComponent`. -/
theorem objects_removeComponent (e : Entity) (r : Runtime) (T : TypeIndex) (c : Component)
    (h : e.getComponent T = some c) :
    e.objects.Perm (c.object :: (e.removeComponent r T).2.1.objects) := by
  simp only [Entity.getComponent] at h
  have hp := entries_perm_of_lookup e.m_components T c h
  simpa [Entity.removeComponent, h, Entity.objects, Entity.components] using
    (hp.map (fun entry => entry.2)).map (fun c => c.object)

/-- Adding a Transform keeps the invariant, whatever other objects `rest` are stored
elsewhere. -/
theorem detachInv_addComponentTransform (first : ObjectId) (e : Entity) (r : Runtime)
    (t : Transform) (rest : List ObjectId)
    (h : DetachInv first r.nextObject r.calls (e.objects ++ rest)) :
    DetachInv first (e.addComponentTransform r t).1.nextObject
      (e.addComponentTransform r t).1.calls
      ((e.addComponentTransform r t).2.1.objects ++ rest) := by
  unfold Entity.addComponentTransform
  cases ht : e.m_components.lookup TypeIndex.transform with
  | some existing => exact h
  | none =>
    have ho := objects_emplace e r (ComponentValue.transform t) ht
    have := detachInv_alloc _ _ _ _ h
    simp only [Runtime.call]
    rw [ho]
    exact this

/-- Every `addComponent` keeps the invariant, whatever other objects `rest` are stored
elsewhere. -/
theorem detachInv_addComponent (first : ObjectId) (e : Entity) (r : Runtime)
    (v : ComponentValue) (rest : List ObjectId)
    (h : DetachInv first r.nextObject r.calls (e.objects ++ rest)) :
    DetachInv first (e.addComponent r v).1.nextObject
      (e.addComponent r v).1.calls ((e.addComponent r v).2.1.objects ++ rest) := by
  unfold Entity.addComponent
  cases hv : e.m_components.lookup v.typeIndex with
  | some existing => exact h
  | none =>
    have ho := objects_emplace e r v hv
    have h1 : DetachInv first ((e.emplace r v).1.call r.nextObject Hook.onAttach).nextObject
        ((e.emplace r v).1.call r.nextObject Hook.onAttach).calls
        ((e.emplace r v).2.1.objects ++ rest) := by
      rw [ho]
      exact detachInv_alloc _ _ _ _ h
    by_cases hc : v.isCollider = true
    · simp only [hc, if_true]
      unfold Collider.onAttach
      cases ht : (e.emplace r v).2.1.getComponent TypeIndex.transform with
      | some transform =>
        exact detachInv_perm _ _ _ _ _
          ((objects_setColliderTransform _ _ _).symm.append_right rest) h1
      | none =>
        exact detachInv_perm _ _ _ _ _
          ((objects_setColliderTransform _ _ _).symm.append_right rest)
          (detachInv_addComponentTransform _ _ _ _ rest h1)
    · simp only [hc]
      exact h1

/-- Every `removeComponent` keeps the invariant, whatever other objects `rest` are stored
elsewhere. -/
theorem detachInv_removeComponent (first : ObjectId) (e : Entity) (r : Runtime)
    (T : TypeIndex) (rest : List ObjectId)
    (h : DetachInv first r.nextObject r.calls (e.objects ++ rest)) :
    DetachInv first (e.removeComponent r T).1.nextObject
      (e.removeComponent r T).1.calls ((e.removeComponent r T).2.1.objects ++ rest) := by
  cases hT : e.getComponent T with
  | none =>
    simp only [Entity.getComponent] at hT
    simpa [Entity.removeComponent, hT] using h
  | some c =>
    have hp := objects_removeComponent e r T c hT
    have h1 := detachInv_detach _ _ _ _ _ (detachInv_perm _ _ _ _ _ (hp.append_right rest) h)
    simp only [Entity.getComponent] at hT
    simpa [Entity.removeComponent, hT, Runtime.call] using h1

/-- Every registry call keeps the invariant, whatever other objects `rest` are stored
elsewhere. -/
theorem detachInv_step (first : ObjectId) (state : Runtime × Entity) (op : EntityOp)
    (rest : List ObjectId)
    (h : DetachInv first state.1.nextObject state.1.calls (state.2.objects ++ rest)) :
    DetachInv first (Entity.step state op).1.nextObject (Entity.step state op).1.calls
      ((Entity.step state op).2.objects ++ rest) := by
  cases op with
  | addComponent v => exact detachInv_addComponent _ _ _ _ rest h
  | removeComponent T => exact detachInv_removeComponent _ _ _ _ rest h

/-- Assigning a collider's `m_transform` keeps the id of the entity. -/
theorem m_id_setColliderTransform (e : Entity) (T : TypeIndex) (p : Option ObjectId) :
    (e.setColliderTransform T p).m_id = e.m_id := by
  unfold Entity.setColliderTransform
  cases e.m_components.lookup T <;> rfl

/-- Adding a Transform keeps the id of the entity. -/
theorem m_id_addComponentTransform (e : Entity) (r : Runtime) (t : Transform) :
    (e.addComponentTransform r t).2.1.m_id = e.m_id := by
  unfold Entity.addComponentTransform
  cases e.m_components.lookup TypeIndex.transform <;> rfl

/-- A sequence of registry calls keeps the id of the entity. -/
theorem m_id_run (ops : List EntityOp) :
    ∀ state : Runtime × Entity, (Entity.run ops state).2.m_id = state.2.m_id := by
  induction ops with
  | nil => intro state; rfl
  | cons op ops ih =>
    intro state
    simp only [Entity.run, List.foldl_cons]
    refine (ih _).trans ?_
    cases op with
    | addComponent v =>
      simp only [Entity.step]
      unfold Entity.addComponent
      cases state.2.m_components.lookup v.typeIndex with
      | some existing => rfl
      | none =>
        by_cases hc : v.isCollider = true
        · simp only [hc, if_true]
          unfold Collider.onAttach
          cases (state.2.emplace state.1 v).2.1.getComponent TypeIndex.transform with
          | some transform => exact m_id_setColliderTransform _ _ _
          | none =>
            exact (m_id_setColliderTransform _ _ _).trans (m_id_addComponentTransform _ _ _)
        · simp only [hc]
          rfl
    | removeComponent T =>
      simp only [Entity.step]
      unfold Entity.removeComponent
      cases state.2.m_components.lookup T <;> rfl

/-- Counting the calls of one hook on `o` after a batch of calls of that hook. -/
theorem count_calls_append (calls : List HookCall) (ps : List ObjectId) (hook : Hook)
    (o : ObjectId) :
    (calls ++ ps.map (fun p => ({ object := p, hook := hook } : HookCall))).count
      { object := o, hook := hook }
      = calls.count { object := o, hook := hook } + ps.count o := by
  have hinj : Function.Injective (fun p => ({ object := p, hook := hook } : HookCall)) := by
    intro a b hab
    injection hab
  rw [List.count_append, List.count_map_of_injective ps _ hinj o]

/-- Destroying a vector of entities invokes `onDetach` on all their components. -/
theorem destroyAll_calls (gs : List Entity) :
    ∀ r : Runtime, (destroyAll gs r).calls
      = r.calls ++ (gs.flatMap (fun g => g.objects)).map
          (fun p => ({ object := p, hook := Hook.onDetach } : HookCall)) := by
  induction gs with
  | nil => intro r; simp [destroyAll]
  | cons g gs ih =>
    intro r
    have h := ih (g.destroy r)
    simp only [destroyAll, List.foldl_cons] at h ⊢
    rw [h]
    simp [Entity.destroy, Runtime.callAll, List.flatMap_cons, List.map_append,
      List.append_assoc]

/-! ## Tick dispatch -/

/-- Recording no call leaves the runtime as it is. -/
theorem callAll_nil (r : Runtime) (hook : Hook) : r.callAll [] hook = r := by
  simp [Runtime.callAll]

/-- Recording two batches of calls of one hook in a row. -/
theorem callAll_callAll (r : Runtime) (ps qs : List ObjectId) (hook : Hook) :
    (r.callAll ps hook).callAll qs hook = r.callAll (ps ++ qs) hook := by
  simp [Runtime.callAll, List.append_assoc]

/-- A tick of one entity invokes `update` on its dispatched components. -/
theorem update_eq_callAll (e : Entity) (r : Runtime) (deltaTime : ℚ) :
    e.update r deltaTime = r.callAll e.dispatched (Hook.update deltaTime) := by
  unfold Entity.update Entity.dispatched
  cases e.m_active <;> simp [callAll_nil]

/-- A fixed tick of one entity invokes `fixedUpdate` on its dispatched components. -/
theorem fixedUpdate_eq_callAll (e : Entity) (r : Runtime) (deltaTime : ℚ) :
    e.fixedUpdate r deltaTime = r.callAll e.dispatched (Hook.fixedUpdate deltaTime) := by
  unfold Entity.fixedUpdate Entity.dispatched
  cases e.m_active <;> simp [callAll_nil]

/-- The loop of `Scene::update` and `Scene::fixedUpdate` over the entities invokes the
hook on the dispatched components of every entity. -/
theorem foldl_dispatch (f : Entity → Runtime → Runtime) (hook : Hook)
    (hf : ∀ g r, f g r = r.callAll g.dispatched hook) (gs : List Entity) :
    ∀ r : Runtime, gs.foldl (fun acc g => if g.m_active then f g acc else acc) r
      = r.callAll (gs.flatMap (fun g => g.dispatched)) hook := by
  induction gs with
  | nil => intro r; simp [callAll_nil]
  | cons g gs ih =>
    intro r
    simp only [List.foldl_cons, List.flatMap_cons]
    rw [ih, ← callAll_callAll]
    congr 1
    cases hg : g.m_active with
    | true => simp [hf]
    | false => simp [Entity.dispatched, hg, callAll_nil]

/-- Among components with pairwise distinct identities, a stored component occurs among
the active ones once if it is active and not at all if it is not. -/
theorem count_filter_active (l : List Component) (c : Component)
    (hnd : (l.map (fun x => x.object)).Nodup) (hc : c ∈ l) :
    ((l.filter (fun x => x.m_active)).map (fun x => x.object)).count c.object
      = if c.m_active = true then 1 else 0 := by
  have hsub : ((l.filter (fun x => x.m_active)).map (fun x => x.object)).Sublist
      (l.map (fun x => x.object)) := (List.filter_sublist l).map _
  by_cases ha : c.m_active = true
  · rw [if_pos ha]
    exact List.count_eq_one_of_mem (hnd.sublist hsub)
      (List.mem_map.mpr ⟨c, List.mem_filter.mpr ⟨hc, by simpa using ha⟩, rfl⟩)
  · rw [if_neg ha, List.count_eq_zero]
    intro hmem
    obtain ⟨x, hx, hxo⟩ := List.mem_map.mp hmem
    obtain ⟨hxl, hxa⟩ := List.mem_filter.mp hx
    have hxc : x = c := List.inj_on_of_nodup_map hnd hxl hc hxo
    rw [hxc] at hxa
    exact ha (by simpa using hxa)

/-- The dispatched components of an entity are among its stored components. -/
theorem mem_objects_of_mem_dispatched (e : Entity) (o : ObjectId) (h : o ∈ e.dispatched) :
    o ∈ e.objects := by
  unfold Entity.dispatched at h
  cases ha : e.m_active with
  | false => simp [ha] at h
  | true =>
    simp only [ha, if_true, Entity.activeObjects] at h
    obtain ⟨x, hx, hxo⟩ := List.mem_map.mp h
    exact List.mem_map.mpr ⟨x, (List.mem_filter.mp hx).1, hxo⟩

/-- In a scene whose components have pairwise distinct identities, a component of an
entity is dispatched by the loop exactly as often as by that entity. -/
theorem count_flatMap_dispatched (gs : List Entity) (e : Entity) (o : ObjectId)
    (hnd : (gs.flatMap (fun g => g.objects)).Nodup) (he : e ∈ gs) (ho : o ∈ e.objects) :
    (gs.flatMap (fun g => g.dispatched)).count o = e.dispatched.count o := by
  induction gs with
  | nil => exact absurd he (List.not_mem_nil _)
  | cons g gs ih =>
    rw [List.flatMap_cons] at hnd ⊢
    obtain ⟨-, hnd2, hdis⟩ := List.nodup_append.mp hnd
    rw [List.count_append]
    have hrest : ∀ g' ∈ gs, o ∈ g'.objects → o ∉ g.objects := fun g' hg' ho' hog =>
      hdis hog (List.mem_flatMap.mpr ⟨g', hg', ho'⟩)
    by_cases hog : o ∈ g.objects
    · have heg : e = g := by
        rcases List.mem_cons.mp he with h | h
        · exact h
        · exact absurd hog (hrest e h ho)
      have hzero : (gs.flatMap (fun g => g.dispatched)).count o = 0 := by
        rw [List.count_eq_zero]
        intro hmem
        obtain ⟨g', hg', ho'⟩ := List.mem_flatMap.mp hmem
        exact hrest g' hg' (mem_objects_of_mem_dispatched g' o ho') hog
      rw [hzero, add_zero, heg]
    · have heg : e ∈ gs := by
        rcases List.mem_cons.mp he with h | h
        · exact absurd (h ▸ ho) hog
        · exact h
      have hzero : g.dispatched.count o = 0 :=
        List.count_eq_zero.mpr fun hmem => hog (mem_objects_of_mem_dispatched g o hmem)
      rw [hzero, zero_add]
      exact ih hnd2 heg

/-- C16: in a scene whose component objects are pairwise distinct, let `c` be a
component stored on the entity `e` of the scene.  `Scene::update(dt)` invokes
`update(dt)` on `c` exactly once when the scene, `e` and `c` are all active and not at
all otherwise; `GameObject::update(dt)` on `e` invokes it exactly once when `e` and `c`
are active and not at all otherwise, and on an inactive entity it records no call at
all.  The same holds for `fixedUpdate`. -/
theorem tick_dispatch_gating (s : Scene) (r : Runtime) (deltaTime : ℚ) (e : Entity)
    (T : TypeIndex) (c : Component) (hnd : s.objects.Nodup) (he : e ∈ s.m_gameObjects)
    (hc : e.getComponent T = some c) :
    (s.update r deltaTime).1.calls.count { object := c.object, hook := Hook.update deltaTime }
      = r.calls.count { object := c.object, hook := Hook.update deltaTime }
        + (if s.m_active = true ∧ e.m_active = true ∧ c.m_active = true then 1 else 0) ∧
    (s.fixedUpdate r deltaTime).calls.count
        { object := c.object, hook := Hook.fixedUpdate deltaTime }
      = r.calls.count { object := c.object, hook := Hook.fixedUpdate deltaTime }
        + (if s.m_active = true ∧ e.m_active = true ∧ c.m_active = true then 1 else 0) ∧
    (e.update r deltaTime).calls.count { object := c.object, hook := Hook.update deltaTime }
      = r.calls.count { object := c.object, hook := Hook.update deltaTime }
        + (if e.m_active = true ∧ c.m_active = true then 1 else 0) ∧
    (e.fixedUpdate r deltaTime).calls.count
        { object := c.object, hook := Hook.fixedUpdate deltaTime }
      = r.calls.count { object := c.object, hook := Hook.fixedUpdate deltaTime }
        + (if e.m_active = true ∧ c.m_active = true then 1 else 0) ∧
    (e.m_active = false → e.update r deltaTime = r ∧ e.fixedUpdate r deltaTime = r) := by
  have hcmem : c ∈ e.components := by
    simp only [Entity.getComponent] at hc
    exact List.mem_map.mpr ⟨⟨T, c⟩, AList.mem_lookup_iff.mp hc, rfl⟩
  have ho : c.object ∈ e.objects := List.mem_map.mpr ⟨c, hcmem, rfl⟩
  have hend : e.objects.Nodup := (List.nodup_flatMap.mp hnd).1 e he
  have hentity : e.dispatched.count c.object
      = if e.m_active = true ∧ c.m_active = true then 1 else 0 := by
    unfold Entity.dispatched
    cases ha : e.m_active with
    | false => simp
    | true =>
      simp only [if_true, true_and, Entity.activeObjects]
      exact count_filter_active e.components c hend hcmem
  have hscene : (s.m_gameObjects.flatMap (fun g => g.dispatched)).count c.object
      = if e.m_active = true ∧ c.m_active = true then 1 else 0 := by
    rw [count_flatMap_dispatched s.m_gameObjects e c.object hnd he ho, hentity]
  refine ⟨?_, ?_, ?_, ?_, ?_⟩
  · unfold Scene.update
    cases hs : s.m_active with
    | false => simp
    | true =>
      simp only [Bool.not_true, Bool.false_eq_true, if_false, true_and]
      rw [foldl_dispatch (fun g acc => g.update acc deltaTime) (Hook.update deltaTime)
        (fun g acc => update_eq_callAll g acc deltaTime)]
      simp only [Runtime.callAll]
      rw [count_calls_append, hscene]
  · unfold Scene.fixedUpdate
    cases hs : s.m_active with
    | false => simp
    | true =>
      simp only [Bool.not_true, Bool.false_eq_true, if_false, true_and]
      rw [foldl_dispatch (fun g acc => g.fixedUpdate acc deltaTime) (Hook.fixedUpdate deltaTime)
        (fun g acc => fixedUpdate_eq_callAll g acc deltaTime)]
      simp only [Runtime.callAll]
      rw [count_calls_append, hscene]
  · rw [update_eq_callAll]
    simp only [Runtime.callAll]
    rw [count_calls_append, hentity]
  · rw [fixedUpdate_eq_callAll]
    simp only [Runtime.callAll]
    rw [count_calls_append, hentity]
  · intro ha
    simp [Entity.update, Entity.fixedUpdate, ha]

/-- Witness of C16: in the scene that owns the sample entity, whose BoxCollider is
object 0, one `Scene::update` invokes `update` on the collider exactly once. -/
theorem tick_dispatch_gating_witness :
    (sampleScene.update {} (1 / 60)).1.calls.count
      { object := 0, hook := Hook.update (1 / 60) } = 1 :=
  (tick_dispatch_gating sampleScene {} (1 / 60) (Entity.run sampleOps ({}, sampleEntity)).2
    TypeIndex.boxCollider
    { object := 0, m_gameObject := some 7, m_active := true,
      value := ComponentValue.boxCollider ⟨1, 1⟩ ⟨0, 0⟩ { m_transform := some 1 } }
    (by decide) (List.mem_singleton.mpr rfl) rfl).1

/-! ## Queries of the scene -/

/-- No constructible component has the abstract class `Collider` as its dynamic type. -/
theorem typeIndex_ne_collider (v : ComponentValue) : v.typeIndex ≠ TypeIndex.collider := by
  cases v <;> simp [ComponentValue.typeIndex]

/-- An `addComponent` changes the map at most under the key of the added class and the
key of `Transform`. -/
theorem getComponent_addComponent_ne (e : Entity) (r : Runtime) (v : ComponentValue)
    (T : TypeIndex) (h1 : T ≠ v.typeIndex) (h2 : T ≠ TypeIndex.transform) :
    (e.addComponent r v).2.1.getComponent T = e.getComponent T := by
  have hemplace : ∀ (e' : Entity) (r' : Runtime) (w : ComponentValue), T ≠ w.typeIndex →
      (e'.emplace r' w).2.1.getComponent T = e'.getComponent T := by
    intro e' r' w hw
    simp [Entity.emplace, Entity.getComponent, AList.lookup_insert_ne hw]
  have htransform : ∀ (e' : Entity) (r' : Runtime) (t : Transform),
      (e'.addComponentTransform r' t).2.1.getComponent T = e'.getComponent T := by
    intro e' r' t
    unfold Entity.addComponentTransform
    cases e'.m_components.lookup TypeIndex.transform with
    | some existing => rfl
    | none => exact hemplace e' r' (ComponentValue.transform t) h2
  unfold Entity.addComponent
  cases e.m_components.lookup v.typeIndex with
  | some existing => rfl
  | none =>
    by_cases hc : v.isCollider = true
    · simp only [hc, if_true]
      unfold Collider.onAttach
      cases (e.emplace r v).2.1.getComponent TypeIndex.transform with
      | some transform =>
        exact (getComponent_setColliderTransform_ne _ _ _ _ h1).trans (hemplace e r v h1)
      | none =>
        exact (getComponent_setColliderTransform_ne _ _ _ _ h1).trans
          ((htransform _ _ _).trans (hemplace e r v h1))
    · simp only [hc]
      exact hemplace e r v h1

/-- After `removeComponent<T>()` the entity has no `T`. -/
theorem hasComponent_removeComponent_self (e : Entity) (r : Runtime) (T : TypeIndex) :
    (e.removeComponent r T).2.1.hasComponent T = false := by
  unfold Entity.removeComponent Entity.hasComponent
  cases hT : e.m_components.lookup T with
  | none => simp [hT]
  | some c => simp [AList.lookup_erase]

/-- No sequence of registry calls stores a component under the key of the
abstract class `Collider`. -/
theorem hasComponent_collider_run (ops : List EntityOp) :
    ∀ state : Runtime × Entity, state.2.hasComponent TypeIndex.collider = false →
      (Entity.run ops state).2.hasComponent TypeIndex.collider = false := by
  induction ops with
  | nil => intro state h; exact h
  | cons op ops ih =>
    intro state h
    simp only [Entity.run, List.foldl_cons]
    apply ih
    have hget : state.2.getComponent TypeIndex.collider = none := by
      simpa [Entity.hasComponent, Entity.getComponent] using h
    cases op with
    | addComponent v =>
      have := getComponent_addComponent_ne state.2 state.1 v TypeIndex.collider
        (typeIndex_ne_collider v).symm (by decide)
      simp only [Entity.step, Entity.hasComponent]
      simp only [Entity.getComponent] at this hget
      rw [this, hget]
      rfl
    | removeComponent T =>
      simp only [Entity.step]
      by_cases hT : TypeIndex.collider = T
      · subst hT
        exact hasComponent_removeComponent_self state.2 state.1 TypeIndex.collider
      · have := getComponent_removeComponent_ne state.2 state.1 T TypeIndex.collider hT
        simp only [Entity.hasComponent]
        simp only [Entity.getComponent] at this hget
        rw [this, hget]
        rfl

/-- C20: `findGameObjectsWithComponent<T>()` returns exactly the entities of the scene
for which `hasComponent<T>()` holds for the exact type `T`, in the order of the scene.
With `T = BoxCollider` it returns no entity that has a CircleCollider and no BoxCollider,
and vice versa.  With `T` the abstract `Collider` it returns no entity without a
component stored under the key of `Collider` itself, whatever BoxCollider or
CircleCollider it holds; no entity built by registry calls has such a component. -/
theorem findGameObjectsWithComponent_exact (s : Scene) (T : TypeIndex) :
    s.findGameObjectsWithComponent T
      = s.m_gameObjects.filter (fun g => g.hasComponent T) ∧
    (∀ e : Entity, e ∈ s.findGameObjectsWithComponent T ↔
      e ∈ s.m_gameObjects ∧ e.hasComponent T = true) ∧
    (∀ e : Entity, e.hasComponent TypeIndex.circleCollider = true →
      e.hasComponent TypeIndex.boxCollider = false →
      e ∉ s.findGameObjectsWithComponent TypeIndex.boxCollider) ∧
    (∀ e : Entity, e.hasComponent TypeIndex.boxCollider = true →
      e.hasComponent TypeIndex.circleCollider = false →
      e ∉ s.findGameObjectsWithComponent TypeIndex.circleCollider) ∧
    (∀ e : Entity, (∀ k ∈ e.m_components.keys, k ≠ TypeIndex.collider) →
      e ∉ s.findGameObjectsWithComponent TypeIndex.collider) ∧
    (∀ (ops : List EntityOp) (r : Runtime) (e0 : Entity), e0.m_components = ∅ →
      (Entity.run ops (r, e0)).2 ∉ s.findGameObjectsWithComponent TypeIndex.collider) := by
  have hmem : ∀ (U : TypeIndex) (e : Entity), e ∈ s.findGameObjectsWithComponent U ↔
      e ∈ s.m_gameObjects ∧ e.hasComponent U = true := by
    intro U e
    simp [Scene.findGameObjectsWithComponent, List.mem_filter]
  refine ⟨rfl, hmem T, ?_, ?_, ?_, ?_⟩
  · intro e _ hbox hfind
    rw [((hmem _ e).mp hfind).2] at hbox
    cases hbox
  · intro e _ hcircle hfind
    rw [((hmem _ e).mp hfind).2] at hcircle
    cases hcircle
  · intro e hkeys hfind
    have hhas := ((hmem _ e).mp hfind).2
    have hk : TypeIndex.collider ∈ e.m_components.keys := by
      rw [← AList.mem_keys, ← AList.lookup_isSome]
      exact hhas
    exact hkeys _ hk rfl
  · intro ops r e0 he0 hfind
    have hhas := ((hmem _ _).mp hfind).2
    have hnone : (r, e0).2.hasComponent TypeIndex.collider = false := by
      simp [Entity.hasComponent, he0]
    rw [hasComponent_collider_run ops (r, e0) hnone] at hhas
    cases hhas

/-! ## The cached matrix of `Transform` -/

/-- Extensionality of `Vector2f`. -/
theorem vector2f_ext (p q : Vector2f) (hx : p.x = q.x) (hy : p.y = q.y) : p = q := by
  cases p
  cases q
  simp only [Vector2f.mk.injEq]
  exact ⟨hx, hy⟩

/-- The matrix recomputed by `updateTransformMatrix`, entry by entry: the product of the
scaling, the rotation and the translation, in this order from the left. -/
theorem fresh_eq (trig : Trig) (t : TransformState) :
    t.fresh trig =
      { a00 := t.m_scale.x * trig.cos t.m_rotation
        a01 := -(t.m_scale.x * trig.sin t.m_rotation)
        a02 := t.m_scale.x * trig.cos t.m_rotation * t.m_position.x
          - t.m_scale.x * trig.sin t.m_rotation * t.m_position.y
        a10 := t.m_scale.y * trig.sin t.m_rotation
        a11 := t.m_scale.y * trig.cos t.m_rotation
        a12 := t.m_scale.y * trig.sin t.m_rotation * t.m_position.x
          + t.m_scale.y * trig.cos t.m_rotation * t.m_position.y
        a20 := 0
        a21 := 0
        a22 := 1 } := by
  simp only [TransformState.fresh, TransformState.updateTransformMatrix, SfTransform.scale,
    SfTransform.rotate, SfTransform.translate, SfTransform.combine, SfTransform.Identity,
    SfTransform.mk.injEq]
  refine ⟨?_, ?_, ?_, ?_, ?_, ?_, ?_, ?_, ?_⟩ <;> ring

/-- A read of the matrix changes neither position, rotation nor scale. -/
theorem toTransform_getTransformMatrix (trig : Trig) (t : TransformState) :
    (t.getTransformMatrix trig).2.toTransform = t.toTransform := by
  unfold TransformState.getTransformMatrix
  cases t.m_transformDirty <;> rfl

/-- The recomputed matrix depends on position, rotation and scale only. -/
theorem fresh_congr (trig : Trig) (t t' : TransformState) (h : t.toTransform = t'.toTransform) :
    t.fresh trig = t'.fresh trig := by
  have hp : t.m_position = t'.m_position := congrArg Transform.m_position h
  have hr : t.m_rotation = t'.m_rotation := congrArg Transform.m_rotation h
  have hs : t.m_scale = t'.m_scale := congrArg Transform.m_scale h
  rw [fresh_eq, fresh_eq, hp, hr, hs]

/-- Every call on a `Transform` keeps the cache coherent. -/
theorem coherent_step (trig : Trig) (t : TransformState) (op : TransformOp)
    (h : t.Coherent trig) : (t.step trig op).Coherent trig := by
  cases op with
  | getTransformMatrix =>
    intro _
    simp only [TransformState.step]
    rw [fresh_congr trig _ t (toTransform_getTransformMatrix trig t)]
    unfold TransformState.getTransformMatrix
    cases hd : t.m_transformDirty with
    | true => rfl
    | false => exact h hd
  | setPosition position => intro hd; cases hd
  | translate offset => intro hd; cases hd
  | setRotation rotation => intro hd; cases hd
  | rotate angle => intro hd; cases hd
  | setScale scale => intro hd; cases hd

/-- Every object reached from its constructor by mutators and reads has a coherent
cache. -/
theorem coherent_run (trig : Trig) (position : Vector2f) (rotation : ℚ) (scale : Vector2f)
    (ops : List TransformOp) :
    (TransformState.run trig ops (TransformState.create position rotation scale)).Coherent
      trig := by
  have hgen : ∀ (l : List TransformOp) (t : TransformState), t.Coherent trig →
      (TransformState.run trig l t).Coherent trig := by
    intro l
    induction l with
    | nil => intro t h; exact h
    | cons op l ih =>
      intro t h
      exact ih _ (coherent_step trig t op h)
  exact hgen ops _ (fun hd => by cases hd)

/-- On a coherent cache a read returns the freshly recomputed matrix. -/
theorem getTransformMatrix_of_coherent (trig : Trig) (t : TransformState)
    (h : t.Coherent trig) : (t.getTransformMatrix trig).1 = t.fresh trig := by
  unfold TransformState.getTransformMatrix
  cases hd : t.m_transformDirty with
  | true => rfl
  | false => exact h hd

/-- C17: for every Transform and every sequence of mutator calls (setPosition,
translate, setRotation, rotate, setScale) interleaved with matrix reads, a read of
`getTransformMatrix()` returns exactly the matrix of a fresh recomputation from the
current position, rotation and scale; the read leaves position, rotation and scale
unchanged and a second read right after it returns the identical matrix. -/
theorem getTransformMatrix_coherent (trig : Trig) (position : Vector2f) (rotation : ℚ)
    (scale : Vector2f) (ops : List TransformOp) :
    ((TransformState.run trig ops
        (TransformState.create position rotation scale)).getTransformMatrix trig).1
      = (TransformState.run trig ops (TransformState.create position rotation scale)).fresh
          trig ∧
    ((TransformState.run trig ops
        (TransformState.create position rotation scale)).getTransformMatrix trig).2.toTransform
      = (TransformState.run trig ops
          (TransformState.create position rotation scale)).toTransform ∧
    (((TransformState.run trig ops
        (TransformState.create position rotation scale)).getTransformMatrix
          trig).2.getTransformMatrix trig).1
      = ((TransformState.run trig ops
          (TransformState.create position rotation scale)).getTransformMatrix trig).1 := by
  have h1 := getTransformMatrix_of_coherent trig _ (coherent_run trig position rotation scale ops)
  have h2 := getTransformMatrix_of_coherent trig _
    (coherent_run trig position rotation scale (ops ++ [TransformOp.getTransformMatrix]))
  refine ⟨h1, toTransform_getTransformMatrix trig _, ?_⟩
  simp only [TransformState.run, List.foldl_append, List.foldl_cons, List.foldl_nil,
    TransformState.step] at h2
  simp only [TransformState.run] at h1 ⊢
  rw [h2, h1]
  exact fresh_congr trig _ _ (toTransform_getTransformMatrix trig _)

/-- With rotation 0, cosine 1 and sine 0, `transformPoint` on a coherent cache first adds
the position to the point and then multiplies the sum by the scale. -/
theorem transformPoint_rotation_zero (trig : Trig) (t : TransformState)
    (hc : t.Coherent trig) (hr : t.m_rotation = 0) (hcos : trig.cos 0 = 1)
    (hsin : trig.sin 0 = 0) (p : Vector2f) :
    (t.transformPoint trig p).1
      = { x := (p.x + t.m_position.x) * t.m_scale.x
          y := (p.y + t.m_position.y) * t.m_scale.y } := by
  simp only [TransformState.transformPoint, getTransformMatrix_of_coherent trig t hc,
    fresh_eq, hr, hcos, hsin, SfTransform.transformPoint]
  apply vector2f_ext <;> simp only <;> ring

/-- C19 (the code departs from the claim): the Transform has position (1,0), rotation 0
and scale (2,2).  The claim gives `transformPoint((0,0)) = (0*2 + 1, 0*2 + 0) = (1,0)`;
the code returns (2,0), because the matrix built by `scale`, `rotate`, `translate` in
this order of calls applies the translation to the point first and the scale last. -/
theorem transformPoint_scales_the_position (trig : Trig) (hcos : trig.cos 0 = 1)
    (hsin : trig.sin 0 = 0) :
    ((TransformState.create ⟨1, 0⟩ 0 ⟨2, 2⟩).transformPoint trig ⟨0, 0⟩).1 = ⟨2, 0⟩ ∧
    ((TransformState.create ⟨1, 0⟩ 0 ⟨2, 2⟩).transformPoint trig ⟨0, 0⟩).1
      ≠ ⟨0 * 2 + 1, 0 * 2 + 0⟩ := by
  have h := transformPoint_rotation_zero trig (TransformState.create ⟨1, 0⟩ 0 ⟨2, 2⟩)
    (fun hd => by cases hd) rfl hcos hsin ⟨0, 0⟩
  have h2 : ((TransformState.create ⟨1, 0⟩ 0 ⟨2, 2⟩).transformPoint trig ⟨0, 0⟩).1
      = ⟨2, 0⟩ := by
    rw [h]
    norm_num [TransformState.create]
  refine ⟨h2, ?_⟩
  rw [h2]
  intro heq
  have hx := congrArg Vector2f.x heq
  norm_num at hx

/-- Witness of C19 with the rational stand-in for cosine and sine, which are 1 and 0 at
angle 0. -/
theorem transformPoint_scales_the_position_witness :
    ((TransformState.create ⟨1, 0⟩ 0 ⟨2, 2⟩).transformPoint rationalTrig ⟨0, 0⟩).1 = ⟨2, 0⟩ :=
  (transformPoint_scales_the_position rationalTrig (by norm_num [rationalTrig])
    (by norm_num [rationalTrig])).1

/-! ## Dependence of the queries on the entity-level fields -/

/-- C24 (the code departs from the claim): the box has Transform position (0,0) and size
(10,10); the circle has Transform position (9,0), scale (1,1), radius 3 and zero offset.
Two configurations agree on both Transforms and both shapes and differ only in the
entity-level position of the circle's GameObject, (0,0) against (9,0); yet
`box.intersects(circle)` is true in the first and false in the second, and so is
`circle.intersects(box)`. -/
theorem intersects_depends_on_entity_position :
    (boxOn 0 0 10 10).attached ∧ (circleOn 9 0 3 1).attached ∧ (circleOn 9 9 3 1).attached ∧
      (circleOn 9 0 3 1).m_transform = (circleOn 9 9 3 1).m_transform ∧
      (circleOn 9 0 3 1).m_radius = (circleOn 9 9 3 1).m_radius ∧
      (circleOn 9 0 3 1).m_offset = (circleOn 9 9 3 1).m_offset ∧
      (boxOn 0 0 10 10).intersects (Collider.circle (circleOn 9 0 3 1)) = some true ∧
      (boxOn 0 0 10 10).intersects (Collider.circle (circleOn 9 9 3 1)) = some false ∧
      (circleOn 9 0 3 1).intersects (Collider.box (boxOn 0 0 10 10)) = some true ∧
      (circleOn 9 9 3 1).intersects (Collider.box (boxOn 0 0 10 10)) = some false := by
  have h1 : (boxOn 0 0 10 10).intersects (Collider.circle (circleOn 9 0 3 1)) = some true := by
    rw [box_intersects_circle_eq _ _ _ _ rfl rfl]
    norm_num [closestPointDistSq, boxOn, circleOn, BoxCollider.getBounds,
      Transform.getPosition, Transform.getScale]
  have h2 : (boxOn 0 0 10 10).intersects (Collider.circle (circleOn 9 9 3 1)) = some false := by
    rw [box_intersects_circle_eq _ _ _ _ rfl rfl]
    norm_num [closestPointDistSq, boxOn, circleOn, BoxCollider.getBounds,
      Transform.getPosition, Transform.getScale]
  refine ⟨by decide, by decide, by decide, rfl, rfl, rfl, h1, h2, ?_, ?_⟩
  · rw [circle_intersects_box_eq _ _ _ rfl, h1]
  · rw [circle_intersects_box_eq _ _ _ rfl, h2]

/-- C25 (the code departs from the claim): circles `a` and `b` of radius 2, scale (1,1)
and zero offset are attached; `a` has Transform position (0,0), `b` has Transform
position (5,0), and both entities keep the default entity-level position (0,0).  Then
`a.intersects(b)` is true and `b.intersects(a)` is false: each call reads its own circle
from the Transform and the other circle from the entity-level fields. -/
theorem circle_circle_intersects_not_symmetric :
    (circleOn 0 0 2 1).attached ∧ (circleOn 5 0 2 1).attached ∧
      (circleOn 0 0 2 1).intersects (Collider.circle (circleOn 5 0 2 1)) = some true ∧
      (circleOn 5 0 2 1).intersects (Collider.circle (circleOn 0 0 2 1)) = some false := by
  refine ⟨by decide, by decide, ?_, ?_⟩
  · rw [circle_intersects_circle_eq _ _ _ _ rfl rfl]
    norm_num [distSq, circleOn]
  · rw [circle_intersects_circle_eq _ _ _ _ rfl rfl]
    norm_num [distSq, circleOn]

/-! ## Intersection tests and point containment -/

/-- Two rectangles pass the rectangle test of SFML exactly when some point passes the
containment test of both. -/
theorem floatRect_intersects_iff_common_point (r s : FloatRect) :
    r.intersects s = true ↔ ∃ p : Vector2f, r.contains p = true ∧ s.contains p = true := by
  simp only [FloatRect.intersects, FloatRect.contains, Bool.and_eq_true, decide_eq_true_eq,
    max_lt_iff, lt_min_iff, ge_iff_le]
  constructor
  · rintro ⟨⟨⟨h1, h2⟩, h3, h4⟩, ⟨h5, h6⟩, h7, h8⟩
    refine ⟨⟨max (min r.left (r.left + r.width)) (min s.left (s.left + s.width)),
      max (min r.top (r.top + r.height)) (min s.top (s.top + s.height))⟩, ?_, ?_⟩
    · exact ⟨⟨⟨le_max_left _ _, max_lt h1 h2⟩, le_max_left _ _⟩, max_lt h5 h6⟩
    · exact ⟨⟨⟨le_max_right _ _, max_lt h3 h4⟩, le_max_right _ _⟩, max_lt h7 h8⟩
  · rintro ⟨p, ⟨⟨⟨h1, h2⟩, h3⟩, h4⟩, ⟨⟨h5, h6⟩, h7⟩, h8⟩
    exact ⟨⟨⟨lt_of_le_of_lt h1 h2, lt_of_le_of_lt h5 h2⟩, lt_of_le_of_lt h1 h6,
      lt_of_le_of_lt h5 h6⟩, ⟨lt_of_le_of_lt h3 h4, lt_of_le_of_lt h7 h4⟩,
      lt_of_le_of_lt h3 h8, lt_of_le_of_lt h7 h8⟩

/-- In exact arithmetic, for every two BoxColliders `a` and `b`, attached or not,
`a.intersects(b)` is true exactly when there is a point `p` with `a.containsPoint(p)` and
`b.containsPoint(p)`: both primitives use the half-open convention. -/
theorem box_box_intersects_iff_common_point (a b : BoxCollider) :
    (∃ r : Bool, a.intersects (Collider.box b) = some r) ∧
    (a.intersects (Collider.box b) = some true ↔
      ∃ p : Vector2f, a.containsPoint p = true ∧ b.containsPoint p = true) := by
  rw [box_intersects_box_eq]
  refine ⟨⟨_, rfl⟩, ?_⟩
  rw [Option.some.injEq]
  exact floatRect_intersects_iff_common_point a.getBounds b.getBounds

/-- Two closed discs of radii `A, B >= 0` share a point exactly when the squared distance
of their centres is at most `(A + B)²`; the shared point can be taken on the segment of
the centres. -/
theorem discs_share_point_iff (A B x1 y1 x2 y2 : ℚ) (hA : 0 ≤ A) (hB : 0 ≤ B) :
    (x1 - x2) * (x1 - x2) + (y1 - y2) * (y1 - y2) ≤ (A + B) * (A + B) ↔
      ∃ px py : ℚ, (px - x1) * (px - x1) + (py - y1) * (py - y1) ≤ A * A ∧
        (px - x2) * (px - x2) + (py - y2) * (py - y2) ≤ B * B := by
  constructor
  · intro h
    by_cases hS : A + B = 0
    · have hA0 : A = 0 := by linarith
      have hB0 : B = 0 := by linarith
      refine ⟨x1, y1, ?_, ?_⟩
      · rw [hA0]
        simp
      · rw [hA0, hB0] at h
        rw [hB0]
        linarith
    · have hpos : 0 < A + B := lt_of_le_of_ne (add_nonneg hA hB) (Ne.symm hS)
      refine ⟨(B * x1 + A * x2) / (A + B), (B * y1 + A * y2) / (A + B), ?_, ?_⟩
      · have ex : (B * x1 + A * x2) / (A + B) - x1 = A / (A + B) * (x2 - x1) := by
          field_simp
          ring
        have ey : (B * y1 + A * y2) / (A + B) - y1 = A / (A + B) * (y2 - y1) := by
          field_simp
          ring
        rw [ex, ey]
        calc A / (A + B) * (x2 - x1) * (A / (A + B) * (x2 - x1))
              + A / (A + B) * (y2 - y1) * (A / (A + B) * (y2 - y1))
            = A / (A + B) * (A / (A + B))
                * ((x1 - x2) * (x1 - x2) + (y1 - y2) * (y1 - y2)) := by ring
          _ ≤ A / (A + B) * (A / (A + B)) * ((A + B) * (A + B)) :=
            mul_le_mul_of_nonneg_left h (mul_self_nonneg _)
          _ = A * A := by
            field_simp
      · have ex : (B * x1 + A * x2) / (A + B) - x2 = B / (A + B) * (x1 - x2) := by
          field_simp
          ring
        have ey : (B * y1 + A * y2) / (A + B) - y2 = B / (A + B) * (y1 - y2) := by
          field_simp
          ring
        rw [ex, ey]
        calc B / (A + B) * (x1 - x2) * (B / (A + B) * (x1 - x2))
              + B / (A + B) * (y1 - y2) * (B / (A + B) * (y1 - y2))
            = B / (A + B) * (B / (A + B))
                * ((x1 - x2) * (x1 - x2) + (y1 - y2) * (y1 - y2)) := by ring
          _ ≤ B / (A + B) * (B / (A + B)) * ((A + B) * (A + B)) :=
            mul_le_mul_of_nonneg_left h (mul_self_nonneg _)
          _ = B * B := by
            field_simp
  · rintro ⟨px, py, h1, h2⟩
    have hdot : (x1 - px) * (px - x2) + (y1 - py) * (py - y2) ≤ A * B := by
      by_contra hcon
      have hlt : A * B < (x1 - px) * (px - x2) + (y1 - py) * (py - y2) := lt_of_not_le hcon
      have hAB : 0 ≤ A * B := mul_nonneg hA hB
      have hsq : (A * B) * (A * B)
          < ((x1 - px) * (px - x2) + (y1 - py) * (py - y2))
            * ((x1 - px) * (px - x2) + (y1 - py) * (py - y2)) :=
        mul_self_lt_mul_self hAB hlt
      have hcs : ((x1 - px) * (px - x2) + (y1 - py) * (py - y2))
            * ((x1 - px) * (px - x2) + (y1 - py) * (py - y2))
          ≤ ((px - x1) * (px - x1) + (py - y1) * (py - y1))
            * ((px - x2) * (px - x2) + (py - y2) * (py - y2)) := by
        nlinarith [mul_self_nonneg ((x1 - px) * (py - y2) - (y1 - py) * (px - x2))]
      have hprod : ((px - x1) * (px - x1) + (py - y1) * (py - y1))
            * ((px - x2) * (px - x2) + (py - y2) * (py - y2))
          ≤ (A * A) * (B * B) :=
        mul_le_mul h1 h2 (add_nonneg (mul_self_nonneg _) (mul_self_nonneg _))
          (mul_self_nonneg A)
      nlinarith
    nlinarith

/-- C30: for two attached CircleColliders `a` and `b` with non-negative radii and
non-negative Transform scales, where `b`'s entity-level position and scale equal those
of `b`'s Transform, `a.intersects(b)` returns, and it is true exactly when there is a
point `p` with `a.containsPoint(p)` and `b.containsPoint(p)`. -/
theorem circle_circle_intersects_iff_common_point (a b : CircleCollider) (ta tb : Transform)
    (g : GameObject) (ha : a.m_transform = some ta) (hb : b.m_transform = some tb)
    (hg : b.m_gameObject = some g) (hra : 0 ≤ a.m_radius) (hrb : 0 ≤ b.m_radius)
    (hsa : 0 ≤ ta.m_scale.x ∧ 0 ≤ ta.m_scale.y) (hsb : 0 ≤ tb.m_scale.x ∧ 0 ≤ tb.m_scale.y)
    (hpos : g.m_position = tb.m_position) (hscale : g.m_scale = tb.m_scale) :
    (∃ r : Bool, a.intersects (Collider.circle b) = some r) ∧
    (a.intersects (Collider.circle b) = some true ↔
      ∃ p : Vector2f, a.containsPoint p = true ∧ b.containsPoint p = true) := by
  rw [circle_intersects_circle_eq a b ta g ha hg]
  refine ⟨⟨_, rfl⟩, ?_⟩
  have hA : 0 ≤ a.m_radius * max ta.m_scale.x ta.m_scale.y :=
    mul_nonneg hra (le_trans hsa.1 (le_max_left _ _))
  have hB : 0 ≤ b.m_radius * max tb.m_scale.x tb.m_scale.y :=
    mul_nonneg hrb (le_trans hsb.1 (le_max_left _ _))
  simp only [Option.some.injEq, decide_eq_true_eq, distSq, CircleCollider.containsPoint, ha,
    hb, Transform.getPosition, Transform.getScale, hpos, hscale, vector2f_add_x,
    vector2f_add_y]
  rw [discs_share_point_iff _ _ _ _ _ _ hA hB]
  constructor
  · rintro ⟨px, py, h1, h2⟩
    exact ⟨⟨px, py⟩, h1, h2⟩
  · rintro ⟨p, h1, h2⟩
    exact ⟨p.x, p.y, h1, h2⟩

/-- Witness of C30: two circles of radius 2 with scale (1,1) whose centres are 39/10
apart intersect. -/
theorem circle_circle_intersects_iff_common_point_witness :
    (circleOn 0 0 2 1).intersects (Collider.circle (circleOn (39 / 10) (39 / 10) 2 1))
      = some true :=
  (circle_circle_intersects_iff_common_point (circleOn 0 0 2 1)
    (circleOn (39 / 10) (39 / 10) 2 1)
    { m_position := { x := 0, y := 0 }, m_scale := { x := 1, y := 1 } }
    { m_position := { x := 39 / 10, y := 0 }, m_scale := { x := 1, y := 1 } }
    { m_position := { x := 39 / 10, y := 0 } } rfl rfl rfl
    (by norm_num [circleOn]) (by norm_num [circleOn]) (by norm_num) (by norm_num)
    rfl rfl).2.mpr
    ⟨⟨2, 0⟩, by norm_num [circleOn, CircleCollider.containsPoint, Transform.getScale,
        Transform.getPosition],
      by norm_num [circleOn, CircleCollider.containsPoint, Transform.getScale,
        Transform.getPosition]⟩

/-! ## The dirty flag of `Transform` -/

/-- C26 as stated fails: a Transform is constructed at position (1,2), its matrix is
read, and `setPosition` is called with the same position (1,2).  The dirty flag is then
true although the cached matrix is equal to the matrix recomputed from the current
position, rotation and scale. -/
theorem dirty_flag_set_with_current_cache :
    (TransformState.run rationalTrig
        [TransformOp.getTransformMatrix, TransformOp.setPosition ⟨1, 2⟩]
        (TransformState.create ⟨1, 2⟩ 0 ⟨1, 1⟩)).m_transformDirty = true ∧
    (TransformState.run rationalTrig
        [TransformOp.getTransformMatrix, TransformOp.setPosition ⟨1, 2⟩]
        (TransformState.create ⟨1, 2⟩ 0 ⟨1, 1⟩)).m_transformMatrix
      = (TransformState.run rationalTrig
          [TransformOp.getTransformMatrix, TransformOp.setPosition ⟨1, 2⟩]
          (TransformState.create ⟨1, 2⟩ 0 ⟨1, 1⟩)).fresh rationalTrig := by
  constructor
  · rfl
  · rfl

/-- C26 (amended): in every state reached from the constructor by mutator calls and
`getTransformMatrix()` reads, the dirty flag is true whenever the cached matrix differs
from the matrix recomputed from the current position, rotation and scale. -/
theorem dirty_flag_set_when_cache_stale (trig : Trig) (position : Vector2f) (rotation : ℚ)
    (scale : Vector2f) (ops : List TransformOp)
    (h : (TransformState.run trig ops
        (TransformState.create position rotation scale)).m_transformMatrix
      ≠ (TransformState.run trig ops
          (TransformState.create position rotation scale)).fresh trig) :
    (TransformState.run trig ops
      (TransformState.create position rotation scale)).m_transformDirty = true := by
  have hc := coherent_run trig position rotation scale ops
  cases hd : (TransformState.run trig ops
      (TransformState.create position rotation scale)).m_transformDirty with
  | true => rfl
  | false => exact absurd (hc hd) h

/-- Witness of the amended C26: right after construction at position (1,2) the cached
matrix is the identity, which differs from the recomputed matrix, and the flag is set. -/
theorem dirty_flag_set_when_cache_stale_witness :
    (TransformState.run rationalTrig [] (TransformState.create ⟨1, 2⟩ 0 ⟨1, 1⟩)).m_transformDirty
      = true :=
  dirty_flag_set_when_cache_stale rationalTrig ⟨1, 2⟩ 0 ⟨1, 1⟩ [] (by
    rw [fresh_eq]
    intro heq
    have h02 := congrArg SfTransform.a02 heq
    norm_num [TransformState.run, TransformState.create, SfTransform.Identity,
      rationalTrig] at h02)

/-! ## Queries, removal and ids of the scene -/

/-- C21: `findGameObjects(pred)` returns exactly the entities of the scene that satisfy
`pred`, in the order of `getAllGameObjects()` and each once when the scene lists each
entity once; `findGameObjectsWithComponent<T>()` is `findGameObjects` of the predicate
`e -> e.hasComponent<T>()`.  The order of `getAllGameObjects()` is the insertion order:
`createGameObject` and `addGameObject` append at the end and `removeGameObject` keeps
the order of the remaining entities. -/
theorem findGameObjects_spec (s : Scene) (predicate : Entity → Bool) :
    s.findGameObjects predicate = s.getAllGameObjects.filter (fun e => predicate e) ∧
    (s.findGameObjects predicate).Sublist s.getAllGameObjects ∧
    (∀ e : Entity, e ∈ s.findGameObjects predicate ↔
      e ∈ s.getAllGameObjects ∧ predicate e = true) ∧
    (s.getAllGameObjects.Nodup → (s.findGameObjects predicate).Nodup) ∧
    (∀ T : TypeIndex,
      s.findGameObjectsWithComponent T = s.findGameObjects (fun e => e.hasComponent T)) ∧
    (∀ (r : Runtime) (name : String),
      (s.createGameObject r name).2.1.getAllGameObjects
        = s.getAllGameObjects ++ [(s.createGameObject r name).2.2]) ∧
    (∀ g : Entity, (s.addGameObject (some g)).1.getAllGameObjects = s.getAllGameObjects ++ [g]) ∧
    (∀ (r : Runtime) (id : Nat),
      (s.removeGameObject r id).2.1.getAllGameObjects.Sublist s.getAllGameObjects) := by
  refine ⟨rfl, List.filter_sublist _, ?_, ?_, fun T => rfl, fun r name => rfl, fun g => rfl, ?_⟩
  · intro e
    simp [Scene.findGameObjects, Scene.getAllGameObjects, List.mem_filter]
  · intro hnd
    exact hnd.sublist (List.filter_sublist _)
  · intro r id
    unfold Scene.removeGameObject Scene.getAllGameObjects
    cases s.m_gameObjectsById.lookup id with
    | none => exact List.Sublist.refl _
    | some q =>
      cases s.m_gameObjects.find? (fun obj => decide (obj.m_id = id)) with
      | none => exact List.Sublist.refl _
      | some obj => exact List.eraseP_sublist _

/-- The first entity of a given id in a list, and the list without it. -/
theorem find_eraseP_of_mem (gs : List Entity) (id : Nat) (h : id ∈ idsOf gs) :
    ∃ pre g post, gs = pre ++ g :: post ∧ g.m_id = id ∧ (∀ x ∈ pre, x.m_id ≠ id) ∧
      gs.find? (fun g => decide (g.m_id = id)) = some g ∧
      gs.eraseP (fun g => decide (g.m_id = id)) = pre ++ post := by
  induction gs with
  | nil => simp [idsOf] at h
  | cons x xs ih =>
    by_cases hx : x.m_id = id
    · exact ⟨[], x, xs, rfl, hx, fun y hy => absurd hy (List.not_mem_nil y),
        by simp [List.find?_cons, hx], by simp [List.eraseP_cons, hx]⟩
    · have hmem : id ∈ idsOf xs := by
        simp only [idsOf, List.map_cons, List.mem_cons] at h
        rcases h with h | h
        · exact absurd h.symm hx
        · exact h
      obtain ⟨pre, g, post, hgs, hg, hpre, hfind, herase⟩ := ih hmem
      refine ⟨x :: pre, g, post, by rw [hgs]; rfl, hg, ?_, ?_, ?_⟩
      · intro y hy
        rcases List.mem_cons.mp hy with rfl | hy
        · exact hx
        · exact hpre y hy
      · simp [List.find?_cons, hx, hfind]
      · simp [List.eraseP_cons, hx, herase]

/-- No entity of a list has an id that is not among the ids of the list. -/
theorem find_none_of_not_mem (gs : List Entity) (id : Nat) (h : id ∉ idsOf gs) :
    gs.find? (fun g => decide (g.m_id = id)) = none := by
  rw [List.find?_eq_none]
  intro x hx hid
  exact h (List.mem_map.mpr ⟨x, hx, by simpa using hid⟩)

/-- An entity found by its id is in the list and has that id. -/
theorem mem_of_find (gs : List Entity) (id : Nat) (g : Entity)
    (h : gs.find? (fun g => decide (g.m_id = id)) = some g) : g.m_id = id ∧ id ∈ idsOf gs := by
  have h1 : g.m_id = id := by simpa using List.find?_some h
  exact ⟨h1, List.mem_map.mpr ⟨g, List.mem_of_find?_eq_some h, h1⟩⟩

/-- Replacing an entity by one of the same id keeps the ids of the list. -/
theorem idsOf_replaceById (gs : List Entity) (id : Nat) (g : Entity) (hg : g.m_id = id) :
    idsOf (replaceById gs id g) = idsOf gs := by
  simp only [idsOf, replaceById, List.map_map]
  apply List.map_congr_left
  intro x _
  by_cases hx : x.m_id = id
  · simp [hx, hg]
  · simp [hx]

/-- A registry call keeps the counter of ids. -/
theorem s_nextId_step (state : Runtime × Entity) (op : EntityOp) :
    (Entity.step state op).1.s_nextId = state.1.s_nextId := by
  have hset : ∀ (e : Entity) (r : Runtime) (t : Transform),
      (e.addComponentTransform r t).1.s_nextId = r.s_nextId := by
    intro e r t
    unfold Entity.addComponentTransform
    cases e.m_components.lookup TypeIndex.transform <;> rfl
  cases op with
  | addComponent v =>
    simp only [Entity.step]
    unfold Entity.addComponent
    cases state.2.m_components.lookup v.typeIndex with
    | some existing => rfl
    | none =>
      by_cases hc : v.isCollider = true
      · simp only [hc, if_true]
        unfold Collider.onAttach
        cases (state.2.emplace state.1 v).2.1.getComponent TypeIndex.transform with
        | some transform => rfl
        | none => exact hset _ _ _
      · simp only [hc]
        rfl
  | removeComponent T =>
    simp only [Entity.step]
    unfold Entity.removeComponent
    cases state.2.m_components.lookup T <;> rfl

/-- Destroying entities keeps the counter of ids. -/
theorem s_nextId_destroyAll (gs : List Entity) :
    ∀ r : Runtime, (destroyAll gs r).s_nextId = r.s_nextId := by
  induction gs with
  | nil => intro r; rfl
  | cons g gs ih =>
    intro r
    simp only [destroyAll, List.foldl_cons]
    exact (ih (g.destroy r)).trans rfl

/-- The invariant of a process only reads the assigned ids, the counter, the ids of the
entities alive and the id index. -/
theorem inv_congr (p p' : Process) (h : p.Inv) (h1 : p'.constructed = p.constructed)
    (h2 : p'.runtime.s_nextId = p.runtime.s_nextId)
    (h3 : idsOf p'.scene.m_gameObjects = idsOf p.scene.m_gameObjects)
    (h4 : idsOf p'.standalone = idsOf p.standalone)
    (h5 : p'.scene.m_gameObjectsById = p.scene.m_gameObjectsById) : p'.Inv := by
  unfold Process.Inv
  rw [h1, h2, h3, h4, h5]
  exact h

/-- Releasing entities keeps the invariant of a process. -/
theorem inv_of_sublist (p p' : Process) (h : p.Inv) (h1 : p'.constructed = p.constructed)
    (h2 : p'.runtime.s_nextId = p.runtime.s_nextId)
    (h3 : p'.scene = p.scene)
    (h4 : (idsOf p'.standalone).Sublist (idsOf p.standalone)) : p'.Inv := by
  obtain ⟨hc, hn, hnd, hlt, hidx, hptr⟩ := h
  have hsub : (idsOf p'.scene.m_gameObjects ++ idsOf p'.standalone).Sublist
      (idsOf p.scene.m_gameObjects ++ idsOf p.standalone) := by
    rw [h3]
    exact List.Sublist.append (List.Sublist.refl _) h4
  refine ⟨by rw [h1]; exact hc, by rw [h1, h2]; exact hn, hnd.sublist hsub, ?_, ?_, ?_⟩
  · intro k hk
    rw [h2]
    exact hlt k (hsub.subset hk)
  · rw [h3]
    exact hidx
  · rw [h3]
    exact hptr

/-- A construction assigns the next id and keeps the invariant, whether the new entity
is kept by the caller or appended to the scene with an index entry. -/
theorem inv_of_construct (p p' : Process) (h : p.Inv)
    (h1 : p'.constructed = p.constructed ++ [p.runtime.s_nextId])
    (h2 : p'.runtime.s_nextId = p.runtime.s_nextId + 1)
    (hcase :
      (p'.scene = p.scene ∧ idsOf p'.standalone = idsOf p.standalone ++ [p.runtime.s_nextId]) ∨
      (idsOf p'.scene.m_gameObjects = idsOf p.scene.m_gameObjects ++ [p.runtime.s_nextId] ∧
        p'.scene.m_gameObjectsById
          = p.scene.m_gameObjectsById.insert p.runtime.s_nextId p.runtime.s_nextId ∧
        p'.standalone = p.standalone)) : p'.Inv := by
  obtain ⟨hc, hn, hnd, hlt, hidx, hptr⟩ := h
  have hfresh : p.runtime.s_nextId ∉ idsOf p.scene.m_gameObjects ++ idsOf p.standalone :=
    fun hmem => absurd (hlt _ hmem) (lt_irrefl _)
  have hc' : p'.constructed = List.range' 1 p'.constructed.length := by
    have hr : List.range' 1 (p.constructed.length + 1)
        = List.range' 1 p.constructed.length ++ [p.constructed.length + 1] := by
      rw [List.range'_concat, Nat.one_mul, Nat.add_comm 1]
    rw [h1, List.length_append, List.length_singleton, hr, ← hc, hn]
  have hn' : p'.runtime.s_nextId = p'.constructed.length + 1 := by
    rw [h2, h1, List.length_append, List.length_singleton, hn]
  rcases hcase with ⟨hs, ha⟩ | ⟨hs, hi, ha⟩
  · refine ⟨hc', hn', ?_, ?_, by rw [hs]; exact hidx, by rw [hs]; exact hptr⟩
    · rw [hs, ha, ← List.append_assoc]
      exact List.Nodup.append hnd (List.nodup_singleton _) (by
        intro k hk hk'
        rw [List.mem_singleton] at hk'
        exact hfresh (hk' ▸ hk))
    · intro k hk
      rw [hs, ha, ← List.append_assoc] at hk
      rw [h2]
      rcases List.mem_append.mp hk with hk | hk
      · exact Nat.lt_succ_of_lt (hlt k hk)
      · rw [List.mem_singleton] at hk
        rw [hk]
        exact Nat.lt_succ_self _
  · have hperm : (idsOf p'.scene.m_gameObjects ++ idsOf p'.standalone).Perm
        (p.runtime.s_nextId :: (idsOf p.scene.m_gameObjects ++ idsOf p.standalone)) := by
      rw [hs, ha, List.append_assoc]
      exact List.perm_middle
    refine ⟨hc', hn', hperm.nodup_iff.mpr (List.nodup_cons.mpr ⟨hfresh, hnd⟩), ?_, ?_, ?_⟩
    · intro k hk
      rw [h2]
      rcases List.mem_cons.mp (hperm.mem_iff.mp hk) with hk | hk
      · rw [hk]
        exact Nat.lt_succ_self _
      · exact Nat.lt_succ_of_lt (hlt k hk)
    · intro k
      rw [hi, hs, AList.mem_insert, List.mem_append, List.mem_singleton, hidx k]
      exact or_comm
    · intro k q hq
      rw [hi] at hq
      by_cases hk : k = p.runtime.s_nextId
      · subst hk
        rw [AList.lookup_insert] at hq
        exact (Option.some.inj hq).symm
      · rw [AList.lookup_insert_ne hk] at hq
        exact hptr k q hq

/-- Moving a standalone entity into the scene keeps the invariant. -/
theorem inv_of_move (p p' : Process) (h : p.Inv) (g : Entity) (pre post : List Entity)
    (h1 : p'.constructed = p.constructed) (h2 : p'.runtime.s_nextId = p.runtime.s_nextId)
    (hp : p.standalone = pre ++ g :: post) (hp' : p'.standalone = pre ++ post)
    (hs : p'.scene.m_gameObjects = p.scene.m_gameObjects ++ [g])
    (hi : p'.scene.m_gameObjectsById = p.scene.m_gameObjectsById.insert g.m_id g.m_id) :
    p'.Inv := by
  obtain ⟨hc, hn, hnd, hlt, hidx, hptr⟩ := h
  have hperm : (idsOf p'.scene.m_gameObjects ++ idsOf p'.standalone).Perm
      (idsOf p.scene.m_gameObjects ++ idsOf p.standalone) := by
    rw [hs, hp, hp']
    simp only [idsOf, List.map_append, List.map_cons, List.map_nil, List.append_assoc,
      List.singleton_append]
    exact List.Perm.append_left _ List.perm_middle.symm
  refine ⟨by rw [h1]; exact hc, by rw [h1, h2]; exact hn, hperm.nodup_iff.mpr hnd, ?_, ?_, ?_⟩
  · intro k hk
    rw [h2]
    exact hlt k (hperm.mem_iff.mp hk)
  · intro k
    rw [hi, hs, AList.mem_insert, hidx k]
    simp only [idsOf, List.map_append, List.map_cons, List.map_nil, List.mem_append,
      List.mem_singleton]
    exact or_comm
  · intro k q hq
    rw [hi] at hq
    by_cases hk : k = g.m_id
    · subst hk
      rw [AList.lookup_insert] at hq
      exact (Option.some.inj hq).symm
    · rw [AList.lookup_insert_ne hk] at hq
      exact hptr k q hq

/-- Removing an entity of the scene together with its index entry keeps the invariant. -/
theorem inv_of_remove (p p' : Process) (h : p.Inv) (g : Entity) (pre post : List Entity)
    (h1 : p'.constructed = p.constructed) (h2 : p'.runtime.s_nextId = p.runtime.s_nextId)
    (ha : p'.standalone = p.standalone)
    (hs : p.scene.m_gameObjects = pre ++ g :: post)
    (hs' : p'.scene.m_gameObjects = pre ++ post)
    (hi : p'.scene.m_gameObjectsById = p.scene.m_gameObjectsById.erase g.m_id) : p'.Inv := by
  obtain ⟨hc, hn, hnd, hlt, hidx, hptr⟩ := h
  have hsub : (idsOf p'.scene.m_gameObjects ++ idsOf p'.standalone).Sublist
      (idsOf p.scene.m_gameObjects ++ idsOf p.standalone) := by
    rw [hs, hs', ha]
    refine List.Sublist.append ?_ (List.Sublist.refl _)
    exact List.Sublist.map _
      (List.Sublist.append (List.Sublist.refl _) (List.sublist_cons_self _ _))
  have hnds : (idsOf p.scene.m_gameObjects).Nodup := (List.nodup_append.mp hnd).1
  have hnot : g.m_id ∉ idsOf (pre ++ post) := by
    rw [hs] at hnds
    simp only [idsOf, List.map_append, List.map_cons] at hnds ⊢
    exact (List.nodup_cons.mp (List.nodup_middle.mp hnds)).1
  refine ⟨by rw [h1]; exact hc, by rw [h1, h2]; exact hn, hnd.sublist hsub, ?_, ?_, ?_⟩
  · intro k hk
    rw [h2]
    exact hlt k (hsub.subset hk)
  · intro k
    rw [hi, hs', AList.mem_erase, hidx k, hs]
    constructor
    · rintro ⟨hne, hk⟩
      simp only [idsOf, List.map_append, List.map_cons, List.mem_append, List.mem_cons] at hk ⊢
      rcases hk with hk | hk | hk
      · exact Or.inl hk
      · exact absurd hk hne
      · exact Or.inr hk
    · intro hk
      refine ⟨fun heq => hnot (heq ▸ hk), ?_⟩
      simp only [idsOf, List.map_append, List.map_cons, List.mem_append, List.mem_cons] at hk ⊢
      rcases hk with hk | hk
      · exact Or.inl hk
      · exact Or.inr (Or.inr hk)
  · intro k q hq
    rw [hi] at hq
    by_cases hk : k = g.m_id
    · subst hk
      rw [AList.lookup_erase] at hq
      cases hq
    · rw [AList.lookup_erase_ne hk] at hq
      exact hptr k q hq

/-- Clearing the scene keeps the invariant. -/
theorem inv_of_clear (p p' : Process) (h : p.Inv) (h1 : p'.constructed = p.constructed)
    (h2 : p'.runtime.s_nextId = p.runtime.s_nextId) (ha : p'.standalone = p.standalone)
    (hs : p'.scene.m_gameObjects = []) (hi : p'.scene.m_gameObjectsById = ∅) : p'.Inv := by
  obtain ⟨hc, hn, hnd, hlt, -, -⟩ := h
  have hsub : (idsOf p'.scene.m_gameObjects ++ idsOf p'.standalone).Sublist
      (idsOf p.scene.m_gameObjects ++ idsOf p.standalone) := by
    rw [hs, ha]
    exact List.sublist_append_right _ _
  refine ⟨by rw [h1]; exact hc, by rw [h1, h2]; exact hn, hnd.sublist hsub, ?_, ?_, ?_⟩
  · intro k hk
    rw [h2]
    exact hlt k (hsub.subset hk)
  · intro k
    rw [hi, hs]
    simp [idsOf]
  · intro k q hq
    rw [hi, AList.lookup_empty] at hq
    cases hq

/-- On a scene whose index knows exactly the ids of its entities, removing an id that is
present destroys the first entity of that id and erases it from the vector and from the
index. -/
theorem removeGameObject_of_mem (s : Scene) (r : Runtime) (id : Nat)
    (hidx : ∀ k, k ∈ s.m_gameObjectsById ↔ k ∈ idsOf s.m_gameObjects)
    (h : id ∈ idsOf s.m_gameObjects) :
    ∃ pre g post, s.m_gameObjects = pre ++ g :: post ∧ g.m_id = id ∧
      (∀ x ∈ pre, x.m_id ≠ id) ∧
      s.removeGameObject r id
        = (g.destroy r,
            { s with
              m_gameObjectsById := s.m_gameObjectsById.erase id
              m_gameObjects := pre ++ post },
            true) := by
  obtain ⟨pre, g, post, hgs, hg, hpre, hfind, herase⟩ := find_eraseP_of_mem _ _ h
  have hsome : (s.m_gameObjectsById.lookup id).isSome = true :=
    AList.lookup_isSome.mpr ((hidx id).mpr h)
  obtain ⟨q, hq⟩ := Option.isSome_iff_exists.mp hsome
  exact ⟨pre, g, post, hgs, hg, hpre, by simp [Scene.removeGameObject, hq, hfind, herase]⟩

/-- On such a scene, removing an id that is absent returns false and changes nothing. -/
theorem removeGameObject_of_not_mem (s : Scene) (r : Runtime) (id : Nat)
    (hidx : ∀ k, k ∈ s.m_gameObjectsById ↔ k ∈ idsOf s.m_gameObjects)
    (h : id ∉ idsOf s.m_gameObjects) : s.removeGameObject r id = (r, s, false) := by
  have hnone : s.m_gameObjectsById.lookup id = none :=
    AList.lookup_eq_none.mpr (fun hmem => h ((hidx id).mp hmem))
  simp [Scene.removeGameObject, hnone]

/-- Every step of a process keeps the invariant. -/
theorem inv_step (p : Process) (op : ProcessOp) (h : p.Inv) : (p.step op).Inv := by
  cases op with
  | construct name =>
    exact inv_of_construct p _ h rfl rfl
      (Or.inl ⟨rfl, by simp [Process.step, idsOf, Entity.create]⟩)
  | destroy id =>
    simp only [Process.step]
    cases hf : p.standalone.find? (fun g => decide (g.m_id = id)) with
    | none => exact h
    | some g =>
      exact inv_of_sublist p _ h rfl rfl rfl (List.Sublist.map _ (List.eraseP_sublist _))
  | createGameObject name =>
    exact inv_of_construct p _ h rfl rfl
      (Or.inr ⟨by simp [Process.step, idsOf, Scene.createGameObject, Entity.create], rfl, rfl⟩)
  | addGameObject id =>
    simp only [Process.step]
    cases hf : p.standalone.find? (fun g => decide (g.m_id = id)) with
    | none => exact h
    | some g =>
      obtain ⟨hgid, hmem⟩ := mem_of_find _ _ _ hf
      obtain ⟨pre, g', post, hgs, -, -, hfind, herase⟩ := find_eraseP_of_mem _ _ hmem
      have hgg : g' = g := Option.some.inj (hfind.symm.trans hf)
      subst hgg
      exact inv_of_move p _ h g' pre post rfl rfl hgs herase rfl rfl
  | addNull => exact inv_congr p _ h rfl rfl rfl rfl rfl
  | removeGameObject id =>
    simp only [Process.step]
    by_cases hmem : id ∈ idsOf p.scene.m_gameObjects
    · obtain ⟨pre, g, post, hgs, hg, -, hrem⟩ :=
        removeGameObject_of_mem p.scene p.runtime id h.2.2.2.2.1 hmem
      rw [hrem]
      exact inv_of_remove p _ h g pre post rfl rfl rfl hgs rfl (by rw [hg])
    · rw [removeGameObject_of_not_mem p.scene p.runtime id h.2.2.2.2.1 hmem]
      exact h
  | clear =>
    exact inv_of_clear p _ h rfl (s_nextId_destroyAll _ _) rfl rfl rfl
  | registry inScene id op =>
    cases inScene with
    | true =>
      simp only [Process.step]
      cases hf : p.scene.m_gameObjects.find? (fun g => decide (g.m_id = id)) with
      | none => exact h
      | some g =>
        have hid : (Entity.step (p.runtime, g) op).2.m_id = id :=
          (m_id_run [op] (p.runtime, g)).trans (mem_of_find _ _ _ hf).1
        exact inv_congr p _ h rfl (s_nextId_step _ _) (idsOf_replaceById _ _ _ hid) rfl rfl
    | false =>
      simp only [Process.step]
      cases hf : p.standalone.find? (fun g => decide (g.m_id = id)) with
      | none => exact h
      | some g =>
        have hid : (Entity.step (p.runtime, g) op).2.m_id = id :=
          (m_id_run [op] (p.runtime, g)).trans (mem_of_find _ _ _ hf).1
        exact inv_congr p _ h rfl (s_nextId_step _ _) rfl (idsOf_replaceById _ _ _ hid) rfl

/-- Every run of a process from a new process with an empty scene satisfies the
invariant. -/
theorem inv_run (ops : List ProcessOp) : (Process.run ops).Inv := by
  have hgen : ∀ (l : List ProcessOp) (p : Process), p.Inv → (l.foldl Process.step p).Inv := by
    intro l
    induction l with
    | nil => intro p h; exact h
    | cons op l ih => intro p h; exact ih _ (inv_step p op h)
  refine hgen ops {} ⟨rfl, rfl, List.nodup_nil, ?_, ?_, ?_⟩
  · intro k hk
    cases hk
  · intro k
    simp [idsOf]
  · intro k q hq
    cases hq

/-- C22: on every scene that a process can build from entities constructed by name,
whose ids are therefore pairwise distinct, `removeGameObject(id)` returns true exactly
when an entity with that id is in the scene.  On true exactly that entity is
removed: the entities before and after it keep their order, `getGameObjectCount()`
decreases by one, no remaining entity has the id and `findGameObject(id)` returns null.
On false the scene and the runtime are unchanged.  `removeGameObject(nullptr)` returns
false and changes nothing. -/
theorem removeGameObject_spec (ops : List ProcessOp) (r : Runtime) (id : Nat) :
    (((Process.run ops).scene.removeGameObject r id).2.2 = true ↔
      ∃ g ∈ (Process.run ops).scene.getAllGameObjects, g.m_id = id) ∧
    (((Process.run ops).scene.removeGameObject r id).2.2 = true →
      ∃ pre g post, (Process.run ops).scene.getAllGameObjects = pre ++ g :: post ∧
        g.m_id = id ∧
        ((Process.run ops).scene.removeGameObject r id).2.1.getAllGameObjects = pre ++ post ∧
        ((Process.run ops).scene.removeGameObject r id).2.1.getGameObjectCount + 1
          = (Process.run ops).scene.getGameObjectCount ∧
        (∀ x ∈ ((Process.run ops).scene.removeGameObject r id).2.1.getAllGameObjects,
          x.m_id ≠ id) ∧
        ((Process.run ops).scene.removeGameObject r id).2.1.findGameObject id = none) ∧
    (((Process.run ops).scene.removeGameObject r id).2.2 = false →
      ((Process.run ops).scene.removeGameObject r id).2.1 = (Process.run ops).scene ∧
      ((Process.run ops).scene.removeGameObject r id).1 = r) ∧
    (Process.run ops).scene.removeGameObjectPtr r none = (r, (Process.run ops).scene, false) := by
  obtain ⟨-, -, hnd, -, hidx, -⟩ := inv_run ops
  generalize (Process.run ops).scene = s at hnd hidx ⊢
  have hmem_iff : id ∈ idsOf s.m_gameObjects ↔ ∃ g ∈ s.getAllGameObjects, g.m_id = id := by
    simp [idsOf, Scene.getAllGameObjects]
  by_cases hmem : id ∈ idsOf s.m_gameObjects
  · obtain ⟨pre, g, post, hgs, hg, hpre, hrem⟩ := removeGameObject_of_mem s r id hidx hmem
    have hnds : (idsOf s.m_gameObjects).Nodup := (List.nodup_append.mp hnd).1
    have hnot : id ∉ idsOf (pre ++ post) := by
      rw [hgs] at hnds
      simp only [idsOf, List.map_append, List.map_cons] at hnds ⊢
      rw [← hg]
      exact (List.nodup_cons.mp (List.nodup_middle.mp hnds)).1
    rw [hrem]
    refine ⟨⟨fun _ => hmem_iff.mp hmem, fun _ => rfl⟩, fun _ => ?_,
      fun hf => Bool.noConfusion hf, rfl⟩
    refine ⟨pre, g, post, hgs, hg, rfl, ?_, ?_, ?_⟩
    · simp only [Scene.getGameObjectCount, hgs, List.length_append, List.length_cons]
      omega
    · intro x hx heq
      exact hnot (List.mem_map.mpr ⟨x, hx, heq⟩)
    · simp [Scene.findGameObject, AList.lookup_erase]
  · rw [removeGameObject_of_not_mem s r id hidx hmem]
    exact ⟨⟨fun hf => Bool.noConfusion hf, fun hex => absurd (hmem_iff.mpr hex) hmem⟩,
      fun hf => Bool.noConfusion hf, fun _ => ⟨rfl, rfl⟩, rfl⟩

/-- C23: in every run of a process the ids assigned by the constructor, standalone or
through `Scene::createGameObject`, are 1, 2, 3, ... in the order of construction, hence
pairwise different, whatever entities were destroyed in between; the next construction
of either kind gets the number of constructions so far plus one; the entities alive at
any time have pairwise different ids. -/
theorem ids_unique_increasing (ops : List ProcessOp) :
    (Process.run ops).constructed = List.range' 1 (Process.run ops).constructed.length ∧
    (Process.run ops).constructed.Nodup ∧
    (∀ name : String, (Entity.create (Process.run ops).runtime name).2.m_id
      = (Process.run ops).constructed.length + 1) ∧
    (∀ name : String,
      ((Process.run ops).scene.createGameObject (Process.run ops).runtime name).2.2.m_id
        = (Process.run ops).constructed.length + 1) ∧
    (idsOf (Process.run ops).scene.m_gameObjects ++ idsOf (Process.run ops).standalone).Nodup := by
  obtain ⟨hc, hn, hnd, -, -, -⟩ := inv_run ops
  refine ⟨hc, ?_, fun name => hn, fun name => hn, hnd⟩
  rw [hc]
  exact List.nodup_range' 1 _

/-- C27: in every run of a process (`createGameObject`, `addGameObject` of entities
built by the constructor, `removeGameObject`, `clear`, and registry calls on the
entities) the ids in the id index are exactly the ids of the entities in the ordered
collection, which are pairwise different; `findGameObject(id)` returns an entity exactly
when an entity with that id is in `getAllGameObjects()`, and the pointer returned is the
one to the entity of that id. -/
theorem scene_index_consistent (ops : List ProcessOp) :
    (∀ id : Nat, id ∈ (Process.run ops).scene.m_gameObjectsById.keys ↔
      id ∈ idsOf (Process.run ops).scene.getAllGameObjects) ∧
    (idsOf (Process.run ops).scene.getAllGameObjects).Nodup ∧
    (∀ id : Nat, ((Process.run ops).scene.findGameObject id).isSome = true ↔
      ∃ g ∈ (Process.run ops).scene.getAllGameObjects, g.m_id = id) ∧
    (∀ id q : Nat, (Process.run ops).scene.findGameObject id = some q →
      q = id ∧ ∃ g ∈ (Process.run ops).scene.getAllGameObjects, g.m_id = q) := by
  obtain ⟨-, -, hnd, -, hidx, hptr⟩ := inv_run ops
  generalize (Process.run ops).scene = s at hnd hidx hptr ⊢
  have hfind : ∀ id : Nat, (s.findGameObject id).isSome = true ↔
      ∃ g ∈ s.getAllGameObjects, g.m_id = id := by
    intro id
    rw [Scene.findGameObject, AList.lookup_isSome, hidx id]
    simp [idsOf, Scene.getAllGameObjects]
  refine ⟨fun id => by rw [← AList.mem_keys]; exact hidx id, (List.nodup_append.mp hnd).1,
    hfind, ?_⟩
  intro id q hq
  have hqid : q = id := hptr id q hq
  refine ⟨hqid, ?_⟩
  rw [hqid]
  exact (hfind id).mp (by rw [hq]; rfl)

/-- Witness of C22 on the sample process, whose scene holds the entities 3 and 2:
removing the id 3 returns true. -/
theorem removeGameObject_spec_witness :
    ((Process.run sampleProcessOps).scene.removeGameObject {} 3).2.2 = true := by
  have h : ∃ g, (Process.run sampleProcessOps).scene.getAllGameObjects[0]? = some g ∧
      g.m_id = 3 := ⟨_, rfl, rfl⟩
  obtain ⟨g, hg, hid⟩ := h
  exact (removeGameObject_spec sampleProcessOps {} 3).1.mpr ⟨g, List.getElem?_mem hg, hid⟩

/-- Witness of C23 on the sample process: its three constructions got the ids 1, 2, 3. -/
theorem ids_unique_increasing_witness :
    (Process.run sampleProcessOps).constructed = [1, 2, 3] :=
  (ids_unique_increasing sampleProcessOps).1.trans rfl

/-- Witness of C27 on the sample process: the entity 2, added after its construction, is
found by its id, and the removed entity 1 is not. -/
theorem scene_index_consistent_witness :
    ((Process.run sampleProcessOps).scene.findGameObject 2).isSome = true ∧
    ((Process.run sampleProcessOps).scene.findGameObject 1).isSome ≠ true := by
  have h : ∃ g, (Process.run sampleProcessOps).scene.getAllGameObjects[1]? = some g ∧
      g.m_id = 2 := ⟨_, rfl, rfl⟩
  obtain ⟨g, hg, hid⟩ := h
  refine ⟨((scene_index_consistent sampleProcessOps).2.2.1 2).mpr
    ⟨g, List.getElem?_mem hg, hid⟩, fun h1 => ?_⟩
  obtain ⟨g1, hg1, hid1⟩ := ((scene_index_consistent sampleProcessOps).2.2.1 1).mp h1
  have hmem : (1 : Nat) ∈ idsOf (Process.run sampleProcessOps).scene.getAllGameObjects :=
    List.mem_map.mpr ⟨g1, hg1, hid1⟩
  revert hmem
  decide

/-! ## The collider queries in binary32 arithmetic -/

/-- Rounding at known values of the format: `0.1f` and the float nearest to 1/3; the
integers from `2 ^ 24` on are rounded to even significands; the largest finite value
`(2 ^ 24 - 1) * 2 ^ 104` is kept, and half a unit in the last place above it is the first
value rounded to infinity; the smallest positive value `2 ^ -149` is kept, half of it is
rounded to zero and three halves of it to `2 ^ -148`; rounding is odd in its argument. -/
theorem binary32_round_examples :
    Binary32.round (1 / 10) = Binary32.fin (13421773 / 2 ^ 27) ∧
    Binary32.round (1 / 3) = Binary32.fin (11184811 / 2 ^ 25) ∧
    Binary32.round 16777217 = Binary32.fin 16777216 ∧
    Binary32.round 16777219 = Binary32.fin 16777220 ∧
    Binary32.round ((2 ^ 24 - 1) * 2 ^ 104) = Binary32.fin ((2 ^ 24 - 1) * 2 ^ 104) ∧
    Binary32.round ((2 ^ 24 - 1) * 2 ^ 104 + 2 ^ 103 - 1)
      = Binary32.fin ((2 ^ 24 - 1) * 2 ^ 104) ∧
    Binary32.round ((2 ^ 24 - 1) * 2 ^ 104 + 2 ^ 103) = Binary32.inf false ∧
    Binary32.round (1 / 2 ^ 149) = Binary32.fin (1 / 2 ^ 149) ∧
    Binary32.round (1 / 2 ^ 150) = Binary32.fin 0 ∧
    Binary32.round (3 / 2 ^ 150) = Binary32.fin (1 / 2 ^ 148) ∧
    Binary32.round (-(1 / 3)) = Binary32.fin (-(11184811 / 2 ^ 25)) ∧
    Binary32.round (-(2 ^ 128)) = Binary32.inf true := by
  decide!

@[simp] theorem rounded_add_x (a b : Rounded.Vector2f) : (a + b).x = a.x + b.x := rfl

@[simp] theorem rounded_add_y (a b : Rounded.Vector2f) : (a + b).y = a.y + b.y := rfl

/-- A comparison `<` that holds has two operands that are not NaN. -/
theorem isNumber_of_lt (a b : Binary32) (h : a.lt b = true) :
    a.isNumber = true ∧ b.isNumber = true := by
  cases a <;> cases b <;> simp_all [Binary32.lt, Binary32.isNumber]

/-- A comparison `<=` that holds has two operands that are not NaN. -/
theorem isNumber_of_le (a b : Binary32) (h : a.le b = true) :
    a.isNumber = true ∧ b.isNumber = true := by
  cases a <;> cases b <;> simp_all [Binary32.le, Binary32.isNumber]

/-- On values that are not NaN, `<` is the order of the extended line. -/
theorem lt_iff_toExtended (a b : Binary32) (ha : a.isNumber = true) (hb : b.isNumber = true) :
    a.lt b = true ↔ a.toExtended < b.toExtended := by
  cases a with
  | nan => simp [Binary32.isNumber] at ha
  | inf s =>
    cases b with
    | nan => simp [Binary32.isNumber] at hb
    | inf t => cases s <;> cases t <;> simp [Binary32.lt, Binary32.toExtended]
    | fin y => cases s <;> simp [Binary32.lt, Binary32.toExtended]
  | fin x =>
    cases b with
    | nan => simp [Binary32.isNumber] at hb
    | inf t =>
      cases t
      · simp only [Binary32.lt, Binary32.toExtended, Bool.not_false, true_iff]
        exact WithBot.coe_lt_coe.mpr (WithTop.coe_lt_top x)
      · simp [Binary32.lt, Binary32.toExtended]
    | fin y => simp [Binary32.lt, Binary32.toExtended]

/-- On values that are not NaN, `<=` is the order of the extended line. -/
theorem le_iff_toExtended (a b : Binary32) (ha : a.isNumber = true) (hb : b.isNumber = true) :
    a.le b = true ↔ a.toExtended ≤ b.toExtended := by
  cases a with
  | nan => simp [Binary32.isNumber] at ha
  | inf s =>
    cases b with
    | nan => simp [Binary32.isNumber] at hb
    | inf t => cases s <;> cases t <;> simp [Binary32.le, Binary32.toExtended]
    | fin y => cases s <;> simp [Binary32.le, Binary32.toExtended]
  | fin x =>
    cases b with
    | nan => simp [Binary32.isNumber] at hb
    | inf t =>
      cases t
      · simp only [Binary32.le, Binary32.toExtended, Bool.not_false, true_iff]
        exact WithBot.coe_le_coe.mpr le_top
      · simp [Binary32.le, Binary32.toExtended]
    | fin y => simp [Binary32.le, Binary32.toExtended]

/-- The minimum of two values that are not NaN is not NaN and is their minimum on the
extended line. -/
theorem toExtended_min (a b : Binary32) (ha : a.isNumber = true) (hb : b.isNumber = true) :
    (Binary32.min a b).isNumber = true ∧
      (Binary32.min a b).toExtended = min a.toExtended b.toExtended := by
  unfold Binary32.min
  by_cases h : b.lt a = true
  · rw [if_pos h]
    exact ⟨hb, (min_eq_right (le_of_lt ((lt_iff_toExtended b a hb ha).mp h))).symm⟩
  · rw [if_neg h]
    refine ⟨ha, (min_eq_left ?_).symm⟩
    exact not_lt.mp (fun hlt => h ((lt_iff_toExtended b a hb ha).mpr hlt))

/-- The maximum of two values that are not NaN is not NaN and is their maximum on the
extended line. -/
theorem toExtended_max (a b : Binary32) (ha : a.isNumber = true) (hb : b.isNumber = true) :
    (Binary32.max a b).isNumber = true ∧
      (Binary32.max a b).toExtended = max a.toExtended b.toExtended := by
  unfold Binary32.max
  by_cases h : a.lt b = true
  · rw [if_pos h]
    exact ⟨hb, (max_eq_right (le_of_lt ((lt_iff_toExtended a b ha hb).mp h))).symm⟩
  · rw [if_neg h]
    refine ⟨ha, (max_eq_left ?_).symm⟩
    exact not_lt.mp (fun hlt => h ((lt_iff_toExtended a b ha hb).mpr hlt))

/-- The four edges of a rectangle without NaN edge. -/
theorem numeric_iff (r : Rounded.FloatRect) :
    r.numeric = true ↔ r.left.isNumber = true ∧ (r.left + r.width).isNumber = true ∧
      r.top.isNumber = true ∧ (r.top + r.height).isNumber = true := by
  simp [Rounded.FloatRect.numeric, and_assoc]

/-- On rectangles without NaN edge, `sf::Rect::intersects` is the strict overlap of the
two normalised rectangles on the extended line. -/
theorem rounded_intersects_iff (r s : Rounded.FloatRect) (hr : r.numeric = true)
    (hs : s.numeric = true) :
    r.intersects s = true ↔
      (max (min r.left.toExtended (r.left + r.width).toExtended)
          (min s.left.toExtended (s.left + s.width).toExtended)
        < min (max r.left.toExtended (r.left + r.width).toExtended)
          (max s.left.toExtended (s.left + s.width).toExtended)) ∧
      (max (min r.top.toExtended (r.top + r.height).toExtended)
          (min s.top.toExtended (s.top + s.height).toExtended)
        < min (max r.top.toExtended (r.top + r.height).toExtended)
          (max s.top.toExtended (s.top + s.height).toExtended)) := by
  obtain ⟨r1, r2, r3, r4⟩ := (numeric_iff r).mp hr
  obtain ⟨s1, s2, s3, s4⟩ := (numeric_iff s).mp hs
  have a1 := toExtended_min _ _ r1 r2
  have a2 := toExtended_max _ _ r1 r2
  have a3 := toExtended_min _ _ r3 r4
  have a4 := toExtended_max _ _ r3 r4
  have b1 := toExtended_min _ _ s1 s2
  have b2 := toExtended_max _ _ s1 s2
  have b3 := toExtended_min _ _ s3 s4
  have b4 := toExtended_max _ _ s3 s4
  have c1 := toExtended_max _ _ a1.1 b1.1
  have c2 := toExtended_max _ _ a3.1 b3.1
  have c3 := toExtended_min _ _ a2.1 b2.1
  have c4 := toExtended_min _ _ a4.1 b4.1
  simp only [Rounded.FloatRect.intersects, Bool.and_eq_true]
  rw [lt_iff_toExtended _ _ c1.1 c3.1, lt_iff_toExtended _ _ c2.1 c4.1, c1.2, c2.2, c3.2, c4.2,
    a1.2, a2.2, a3.2, a4.2, b1.2, b2.2, b3.2, b4.2]

/-- On a rectangle without NaN edge, `sf::Rect::contains` holds of the points whose
coordinates are not NaN and lie in the half-open normalised rectangle. -/
theorem rounded_contains_iff (r : Rounded.FloatRect) (hr : r.numeric = true)
    (p : Rounded.Vector2f) :
    r.contains p = true ↔
      p.x.isNumber = true ∧ p.y.isNumber = true ∧
      min r.left.toExtended (r.left + r.width).toExtended ≤ p.x.toExtended ∧
      p.x.toExtended < max r.left.toExtended (r.left + r.width).toExtended ∧
      min r.top.toExtended (r.top + r.height).toExtended ≤ p.y.toExtended ∧
      p.y.toExtended < max r.top.toExtended (r.top + r.height).toExtended := by
  obtain ⟨r1, r2, r3, r4⟩ := (numeric_iff r).mp hr
  have a1 := toExtended_min _ _ r1 r2
  have a2 := toExtended_max _ _ r1 r2
  have a3 := toExtended_min _ _ r3 r4
  have a4 := toExtended_max _ _ r3 r4
  simp only [Rounded.FloatRect.contains, Bool.and_eq_true, Binary32.ge]
  constructor
  · rintro ⟨⟨⟨h1, h2⟩, h3⟩, h4⟩
    have hx := (isNumber_of_lt _ _ h2).1
    have hy := (isNumber_of_lt _ _ h4).1
    refine ⟨hx, hy, ?_, ?_, ?_, ?_⟩
    · rw [← a1.2]; exact (le_iff_toExtended _ _ a1.1 hx).mp h1
    · rw [← a2.2]; exact (lt_iff_toExtended _ _ hx a2.1).mp h2
    · rw [← a3.2]; exact (le_iff_toExtended _ _ a3.1 hy).mp h3
    · rw [← a4.2]; exact (lt_iff_toExtended _ _ hy a4.1).mp h4
  · rintro ⟨hx, hy, h1, h2, h3, h4⟩
    refine ⟨⟨⟨?_, ?_⟩, ?_⟩, ?_⟩
    · rw [← a1.2] at h1; exact (le_iff_toExtended _ _ a1.1 hx).mpr h1
    · rw [← a2.2] at h2; exact (lt_iff_toExtended _ _ hx a2.1).mpr h2
    · rw [← a3.2] at h3; exact (le_iff_toExtended _ _ a3.1 hy).mpr h3
    · rw [← a4.2] at h4; exact (lt_iff_toExtended _ _ hy a4.1).mpr h4

/-- On rectangles without NaN edge, `sf::Rect::intersects` is symmetric. -/
theorem rounded_intersects_comm (r s : Rounded.FloatRect) (hr : r.numeric = true)
    (hs : s.numeric = true) : r.intersects s = s.intersects r := by
  rw [Bool.eq_iff_iff, rounded_intersects_iff r s hr hs, rounded_intersects_iff s r hs hr,
    max_comm (min r.left.toExtended _), min_comm (max r.left.toExtended _),
    max_comm (min r.top.toExtended _), min_comm (max r.top.toExtended _)]

/-- Zero is a binary32 value. -/
theorem round_zero : Binary32.round 0 = Binary32.fin 0 := by decide!

/-- The default rectangle has no NaN edge. -/
theorem numeric_empty : Rounded.FloatRect.empty.numeric = true := by decide!

/-- The default rectangle intersects no rectangle without NaN edge. -/
theorem rounded_intersects_empty (r : Rounded.FloatRect) (hr : r.numeric = true) :
    r.intersects Rounded.FloatRect.empty = false := by
  rw [Bool.eq_false_iff]
  intro h
  rw [rounded_intersects_iff r _ hr numeric_empty] at h
  have h0 : (Rounded.FloatRect.empty.left + Rounded.FloatRect.empty.width)
      = Rounded.FloatRect.empty.left := by decide!
  rw [h0, min_self, max_self] at h
  exact absurd (lt_of_le_of_lt (le_max_right _ _) (lt_of_lt_of_le h.1 (min_le_right _ _)))
    (lt_irrefl _)

/-- C5: for any two BoxColliders `a` and `b` whose `getBounds()` rectangles have no NaN
edge (`left`, `top`, `left + width` and `top + height` are not NaN),
`a.intersects(b) == b.intersects(a)` in binary32 arithmetic, whatever the positions,
scales, sizes and offsets otherwise are, infinite bounds and unattached boxes included. -/
theorem box_box_intersects_symm_of_numeric (a b : Rounded.BoxCollider)
    (ha : a.getBounds.numeric = true) (hb : b.getBounds.numeric = true) :
    a.intersects (Rounded.Collider.box b) = b.intersects (Rounded.Collider.box a) := by
  have hae : a.m_transform = none → a.getBounds = Rounded.FloatRect.empty := by
    intro h; simp [Rounded.BoxCollider.getBounds, h]
  have hbe : b.m_transform = none → b.getBounds = Rounded.FloatRect.empty := by
    intro h; simp [Rounded.BoxCollider.getBounds, h]
  cases hta : a.m_transform with
  | none =>
    cases htb : b.m_transform with
    | none => simp [Rounded.BoxCollider.intersects, hta, htb]
    | some tb =>
      simp only [Rounded.BoxCollider.intersects, hta, htb, hae hta]
      rw [rounded_intersects_empty _ hb]
  | some ta =>
    cases htb : b.m_transform with
    | none =>
      simp only [Rounded.BoxCollider.intersects, hta, htb, hbe htb]
      rw [rounded_intersects_empty _ ha]
    | some tb =>
      simp only [Rounded.BoxCollider.intersects, hta, htb]
      rw [rounded_intersects_comm _ _ ha hb]

/-- Witness of C5: boxes of size (10,10) at (0,0) and at (5,0); their bounds are finite. -/
theorem box_box_intersects_symm_of_numeric_witness :
    (Rounded.boxAt 0 0 10 10).getBounds.numeric = true ∧
    (Rounded.boxAt 5 0 10 10).getBounds.numeric = true ∧
    (Rounded.boxAt 0 0 10 10).intersects (Rounded.Collider.box (Rounded.boxAt 5 0 10 10))
      = (Rounded.boxAt 5 0 10 10).intersects (Rounded.Collider.box (Rounded.boxAt 0 0 10 10)) :=
  ⟨by decide!, by decide!,
    box_box_intersects_symm_of_numeric _ _ (by decide!) (by decide!)⟩

/-- C5 (the claim as worded fails): the box `overflowingBox` has finite members, yet
`position.x + offset.x` and `size.x * scale.x` overflow to infinity, so the left edge of
its bounds is `inf - inf`, NaN.  With `b` the box of size (1,1) at (0,0),
`std::max(NaN, -0.5)` is NaN and `std::max(-0.5, NaN)` is `-0.5`: `a.intersects(b)` is
false and `b.intersects(a)` is true. -/
theorem box_box_intersects_asymmetric_on_overflow :
    Rounded.overflowingBox.getBounds
      = ⟨Binary32.nan, Binary32.fin (-1 / 2), Binary32.inf false, Binary32.fin 1⟩ ∧
    Rounded.overflowingBox.intersects (Rounded.Collider.box (Rounded.boxAt 0 0 1 1))
      = some false ∧
    (Rounded.boxAt 0 0 1 1).intersects (Rounded.Collider.box Rounded.overflowingBox)
      = some true := by
  decide!

/-- The default rectangle contains no point. -/
theorem rounded_contains_empty (p : Rounded.Vector2f) :
    Rounded.FloatRect.empty.contains p = false := by
  rw [Bool.eq_false_iff]
  intro h
  rw [rounded_contains_iff _ numeric_empty] at h
  have h0 : (Rounded.FloatRect.empty.left + Rounded.FloatRect.empty.width)
      = Rounded.FloatRect.empty.left := by decide!
  obtain ⟨-, -, h1, h2, -, -⟩ := h
  rw [h0, min_self] at h1
  rw [h0, max_self] at h2
  exact absurd (lt_of_le_of_lt h1 h2) (lt_irrefl _)

/-- On rectangles without NaN edge, `sf::Rect::intersects` holds exactly when some point
is contained in both rectangles. -/
theorem rounded_intersects_iff_common_point (r s : Rounded.FloatRect)
    (hr : r.numeric = true) (hs : s.numeric = true) :
    r.intersects s = true ↔
      ∃ p : Rounded.Vector2f, r.contains p = true ∧ s.contains p = true := by
  obtain ⟨r1, r2, r3, r4⟩ := (numeric_iff r).mp hr
  obtain ⟨s1, s2, s3, s4⟩ := (numeric_iff s).mp hs
  rw [rounded_intersects_iff r s hr hs]
  constructor
  · rintro ⟨hx, hy⟩
    have a1 := toExtended_min _ _ r1 r2
    have a3 := toExtended_min _ _ r3 r4
    have b1 := toExtended_min _ _ s1 s2
    have b3 := toExtended_min _ _ s3 s4
    have c1 := toExtended_max _ _ a1.1 b1.1
    have c2 := toExtended_max _ _ a3.1 b3.1
    refine ⟨⟨Binary32.max (Binary32.min r.left (r.left + r.width))
        (Binary32.min s.left (s.left + s.width)),
      Binary32.max (Binary32.min r.top (r.top + r.height))
        (Binary32.min s.top (s.top + s.height))⟩, ?_, ?_⟩
    · rw [rounded_contains_iff r hr]
      simp only [c1.2, c2.2, a1.2, a3.2, b1.2, b3.2]
      exact ⟨c1.1, c2.1, le_max_left _ _, lt_of_lt_of_le hx (min_le_left _ _),
        le_max_left _ _, lt_of_lt_of_le hy (min_le_left _ _)⟩
    · rw [rounded_contains_iff s hs]
      simp only [c1.2, c2.2, a1.2, a3.2, b1.2, b3.2]
      exact ⟨c1.1, c2.1, le_max_right _ _, lt_of_lt_of_le hx (min_le_right _ _),
        le_max_right _ _, lt_of_lt_of_le hy (min_le_right _ _)⟩
  · rintro ⟨p, hpr, hps⟩
    rw [rounded_contains_iff r hr] at hpr
    rw [rounded_contains_iff s hs] at hps
    obtain ⟨-, -, h1, h2, h3, h4⟩ := hpr
    obtain ⟨-, -, k1, k2, k3, k4⟩ := hps
    exact ⟨lt_of_le_of_lt (max_le h1 k1) (lt_min h2 k2),
      lt_of_le_of_lt (max_le h3 k3) (lt_min h4 k4)⟩

/-- C28: for every two BoxColliders `a` and `b` whose `getBounds()` rectangles have no
NaN edge, `a.intersects(b)` is true in binary32 arithmetic exactly when there is a point
`p` with `a.containsPoint(p)` and `b.containsPoint(p)`; both primitives use the half-open
convention on the same rounded edges. -/
theorem box_box_intersects_iff_common_point_of_numeric (a b : Rounded.BoxCollider)
    (ha : a.getBounds.numeric = true) (hb : b.getBounds.numeric = true) :
    a.intersects (Rounded.Collider.box b) = some true ↔
      ∃ p : Rounded.Vector2f, a.containsPoint p = true ∧ b.containsPoint p = true := by
  cases hta : a.m_transform with
  | none =>
    have hae : a.getBounds = Rounded.FloatRect.empty := by
      simp [Rounded.BoxCollider.getBounds, hta]
    simp [Rounded.BoxCollider.intersects, hta, Rounded.BoxCollider.containsPoint, hae,
      rounded_contains_empty]
  | some ta =>
    simp only [Rounded.BoxCollider.intersects, hta, Rounded.BoxCollider.containsPoint,
      Option.some.injEq]
    exact rounded_intersects_iff_common_point _ _ ha hb

/-- Witness of C28: boxes of size (10,10) at (0,0) and at (5,0) intersect and both
contain the point (0,-5). -/
theorem box_box_intersects_iff_common_point_of_numeric_witness :
    (Rounded.boxAt 0 0 10 10).intersects (Rounded.Collider.box (Rounded.boxAt 5 0 10 10))
      = some true ∧
    ((Rounded.boxAt 0 0 10 10).containsPoint ⟨Binary32.fin 0, Binary32.fin (-5)⟩ = true ∧
      (Rounded.boxAt 5 0 10 10).containsPoint ⟨Binary32.fin 0, Binary32.fin (-5)⟩ = true) ∧
    ∃ p : Rounded.Vector2f, (Rounded.boxAt 0 0 10 10).containsPoint p = true ∧
      (Rounded.boxAt 5 0 10 10).containsPoint p = true :=
  ⟨by decide!, by decide!,
    (box_box_intersects_iff_common_point_of_numeric _ _ (by decide!) (by decide!)).mp
      (by decide!)⟩

/-- C28 (the claim as worded fails): with `a` the box `overflowingBox`, whose bounds have
the left edge NaN, and `b` the box of size (1,1) at (0,0), `b.intersects(a)` is true
although `a.containsPoint(p)` is false for every point `p`: every comparison of
`sf::Rect::contains` with the NaN edge is false. -/
theorem box_box_intersects_without_common_point :
    (Rounded.boxAt 0 0 1 1).intersects (Rounded.Collider.box Rounded.overflowingBox)
      = some true ∧
    ∀ p : Rounded.Vector2f, Rounded.overflowingBox.containsPoint p = false := by
  refine ⟨by decide!, ?_⟩
  intro p
  have hb : Rounded.overflowingBox.getBounds
      = ⟨Binary32.nan, Binary32.fin (-1 / 2), Binary32.inf false, Binary32.fin 1⟩ := by
    decide!
  have hmin : Binary32.min Binary32.nan (Binary32.nan + Binary32.inf false) = Binary32.nan := by
    decide!
  have hge : p.x.ge Binary32.nan = false := by
    cases p.x <;> rfl
  simp only [Rounded.BoxCollider.containsPoint, hb, Rounded.FloatRect.contains, hmin, hge,
    Bool.false_and]

/-- The bounds of a box with zero offset on a `Transform` of scale (1,1), and its
containment test on finite points, when the edges are computed without rounding. -/
theorem box_getBounds_exact_edges (b : Rounded.BoxCollider) (t : Rounded.Transform)
    (cx cy w h : ℚ) (ht : b.m_transform = some t)
    (hoff : b.m_offset = ⟨Binary32.fin 0, Binary32.fin 0⟩)
    (hsize : b.m_size = ⟨Binary32.fin w, Binary32.fin h⟩)
    (hpos : t.m_position = ⟨Binary32.fin cx, Binary32.fin cy⟩)
    (hscale : t.m_scale = ⟨Binary32.fin 1, Binary32.fin 1⟩)
    (hexact : ∀ q ∈ [cx, cy, w, h, w / 2, h / 2, cx - w / 2, cy - h / 2, cx + w / 2,
      cy + h / 2], Binary32.representable q) :
    b.getBounds = ⟨Binary32.fin (cx - w / 2), Binary32.fin (cy - h / 2), Binary32.fin w,
      Binary32.fin h⟩ ∧
    (Binary32.fin (cx - w / 2) + Binary32.fin w : Binary32) = Binary32.fin (cx + w / 2) ∧
    (Binary32.fin (cy - h / 2) + Binary32.fin h : Binary32) = Binary32.fin (cy + h / 2) := by
  have r1 : Binary32.round cx = Binary32.fin cx := hexact cx (by simp)
  have r2 : Binary32.round cy = Binary32.fin cy := hexact cy (by simp)
  have r3 : Binary32.round w = Binary32.fin w := hexact w (by simp)
  have r4 : Binary32.round h = Binary32.fin h := hexact h (by simp)
  have r5 : Binary32.round (w / 2) = Binary32.fin (w / 2) := hexact (w / 2) (by simp)
  have r6 : Binary32.round (h / 2) = Binary32.fin (h / 2) := hexact (h / 2) (by simp)
  have r7 : Binary32.round (cx - w / 2) = Binary32.fin (cx - w / 2) :=
    hexact (cx - w / 2) (by simp)
  have r8 : Binary32.round (cy - h / 2) = Binary32.fin (cy - h / 2) :=
    hexact (cy - h / 2) (by simp)
  have r9 : Binary32.round (cx + w / 2) = Binary32.fin (cx + w / 2) :=
    hexact (cx + w / 2) (by simp)
  have r10 : Binary32.round (cy + h / 2) = Binary32.fin (cy + h / 2) :=
    hexact (cy + h / 2) (by simp)
  have e1 : (Binary32.fin cx + Binary32.fin 0 : Binary32) = Binary32.fin cx := by
    show Binary32.round (cx + 0) = _
    rw [add_zero]; exact r1
  have e2 : (Binary32.fin cy + Binary32.fin 0 : Binary32) = Binary32.fin cy := by
    show Binary32.round (cy + 0) = _
    rw [add_zero]; exact r2
  have e3 : (Binary32.fin w * Binary32.fin 1 : Binary32) = Binary32.fin w := by
    show Binary32.round (w * 1) = _
    rw [mul_one]; exact r3
  have e4 : (Binary32.fin h * Binary32.fin 1 : Binary32) = Binary32.fin h := by
    show Binary32.round (h * 1) = _
    rw [mul_one]; exact r4
  have e5 : (Binary32.fin w * Binary32.fin (1 / 2) : Binary32) = Binary32.fin (w / 2) := by
    show Binary32.round (w * (1 / 2)) = _
    rw [mul_one_div]; exact r5
  have e6 : (Binary32.fin h * Binary32.fin (1 / 2) : Binary32) = Binary32.fin (h / 2) := by
    show Binary32.round (h * (1 / 2)) = _
    rw [mul_one_div]; exact r6
  have e7 : (Binary32.fin cx - Binary32.fin (w / 2) : Binary32) = Binary32.fin (cx - w / 2) :=
    r7
  have e8 : (Binary32.fin cy - Binary32.fin (h / 2) : Binary32) = Binary32.fin (cy - h / 2) :=
    r8
  refine ⟨?_, ?_, ?_⟩
  · simp only [Rounded.BoxCollider.getBounds, ht, Rounded.Transform.getPosition,
      Rounded.Transform.getScale, hpos, hoff, hsize, hscale]
    show Rounded.FloatRect.mk _ _ _ _ = _
    simp only [rounded_add_x, rounded_add_y, e1, e2, e3, e4, e5, e6, e7, e8]
  · show Binary32.round (cx - w / 2 + w) = _
    rw [show cx - w / 2 + w = cx + w / 2 by ring]; exact r9
  · show Binary32.round (cy - h / 2 + h) = _
    rw [show cy - h / 2 + h = cy + h / 2 by ring]; exact r10

/-- C6: for every attached BoxCollider with zero offset and size (w,h), `w > 0` and
`h > 0`, whose Transform has position `c` and scale (1,1), and for which `w / 2`, `h / 2`
and the four edges `c.x - w / 2`, `c.x + w / 2`, `c.y - h / 2`, `c.y + h / 2` are binary32
values (so that neither `getBounds()` nor `left + width`, `top + height` round),
`containsPoint(p)` is true for every finite `p` with `|p.x - c.x| < w / 2` and
`|p.y - c.y| < h / 2`, false for every finite `p` with `|p.x - c.x| > w / 2` or
`|p.y - c.y| > h / 2`, and false for every `p` with an infinite coordinate. -/
theorem box_containsPoint_of_exact_edges (b : Rounded.BoxCollider) (t : Rounded.Transform)
    (cx cy w h px py : ℚ) (ht : b.m_transform = some t)
    (hoff : b.m_offset = ⟨Binary32.fin 0, Binary32.fin 0⟩)
    (hsize : b.m_size = ⟨Binary32.fin w, Binary32.fin h⟩)
    (hpos : t.m_position = ⟨Binary32.fin cx, Binary32.fin cy⟩)
    (hscale : t.m_scale = ⟨Binary32.fin 1, Binary32.fin 1⟩)
    (hw : 0 < w) (hh : 0 < h)
    (hexact : ∀ q ∈ [cx, cy, w, h, w / 2, h / 2, cx - w / 2, cy - h / 2, cx + w / 2,
      cy + h / 2], Binary32.representable q) :
    (|px - cx| < w / 2 ∧ |py - cy| < h / 2 →
      b.containsPoint ⟨Binary32.fin px, Binary32.fin py⟩ = true) ∧
    (|px - cx| > w / 2 ∨ |py - cy| > h / 2 →
      b.containsPoint ⟨Binary32.fin px, Binary32.fin py⟩ = false) ∧
    (∀ (s : Bool) (q : Binary32), b.containsPoint ⟨Binary32.inf s, q⟩ = false ∧
      b.containsPoint ⟨q, Binary32.inf s⟩ = false) := by
  obtain ⟨hb, hr, hbm⟩ := box_getBounds_exact_edges b t cx cy w h ht hoff hsize hpos
    hscale hexact
  have hlx : cx - w / 2 < cx + w / 2 := by linarith
  have hly : cy - h / 2 < cy + h / 2 := by linarith
  have m1 : Binary32.min (Binary32.fin (cx - w / 2)) (Binary32.fin (cx + w / 2))
      = Binary32.fin (cx - w / 2) := by
    simp [Binary32.min, Binary32.lt, not_lt.mpr (le_of_lt hlx)]
  have m2 : Binary32.max (Binary32.fin (cx - w / 2)) (Binary32.fin (cx + w / 2))
      = Binary32.fin (cx + w / 2) := by
    simp [Binary32.max, Binary32.lt, hlx]
  have m3 : Binary32.min (Binary32.fin (cy - h / 2)) (Binary32.fin (cy + h / 2))
      = Binary32.fin (cy - h / 2) := by
    simp [Binary32.min, Binary32.lt, not_lt.mpr (le_of_lt hly)]
  have m4 : Binary32.max (Binary32.fin (cy - h / 2)) (Binary32.fin (cy + h / 2))
      = Binary32.fin (cy + h / 2) := by
    simp [Binary32.max, Binary32.lt, hly]
  have hc : ∀ p : Rounded.Vector2f, b.containsPoint p
      = (p.x.ge (Binary32.fin (cx - w / 2)) && p.x.lt (Binary32.fin (cx + w / 2)) &&
        p.y.ge (Binary32.fin (cy - h / 2)) && p.y.lt (Binary32.fin (cy + h / 2))) := by
    intro p
    simp only [Rounded.BoxCollider.containsPoint, hb, Rounded.FloatRect.contains, hr, hbm,
      m1, m2, m3, m4]
  refine ⟨?_, ?_, ?_⟩
  · rintro ⟨h1, h2⟩
    rw [abs_lt] at h1 h2
    rw [hc]
    simp only [Binary32.ge, Binary32.le, Binary32.lt, Bool.and_eq_true, decide_eq_true_eq]
    refine ⟨⟨⟨?_, ?_⟩, ?_⟩, ?_⟩ <;> linarith [h1.1, h1.2, h2.1, h2.2]
  · intro hout
    rw [hc, Bool.eq_false_iff]
    simp only [Binary32.ge, Binary32.le, Binary32.lt, Bool.and_eq_true, decide_eq_true_eq,
      ne_eq]
    rintro ⟨⟨⟨k1, k2⟩, k3⟩, k4⟩
    rcases hout with h1 | h2
    · rw [gt_iff_lt, lt_abs] at h1
      rcases h1 with h1 | h1 <;> linarith
    · rw [gt_iff_lt, lt_abs] at h2
      rcases h2 with h2 | h2 <;> linarith
  · intro s q
    rw [hc, hc]
    cases s <;> simp [Binary32.ge, Binary32.le, Binary32.lt]

/-- Witness of C6: size (4,4) at (0,0); the edges -2 and 2 are binary32 values; the
point (1,1) is contained and the point (3,3) is not. -/
theorem box_containsPoint_of_exact_edges_witness :
    (Rounded.boxAt 0 0 4 4).containsPoint ⟨Binary32.fin 1, Binary32.fin 1⟩ = true ∧
    (Rounded.boxAt 0 0 4 4).containsPoint ⟨Binary32.fin 3, Binary32.fin 3⟩ = false :=
  ⟨(box_containsPoint_of_exact_edges (Rounded.boxAt 0 0 4 4)
      { m_position := ⟨Binary32.fin 0, Binary32.fin 0⟩ } 0 0 4 4 1 1 rfl rfl rfl rfl rfl
      (by norm_num) (by norm_num) (by decide!)).1 (by norm_num [abs_lt]),
    (box_containsPoint_of_exact_edges (Rounded.boxAt 0 0 4 4)
      { m_position := ⟨Binary32.fin 0, Binary32.fin 0⟩ } 0 0 4 4 3 3 rfl rfl rfl rfl rfl
      (by norm_num) (by norm_num) (by decide!)).2.1 (by norm_num [lt_abs])⟩

/-- C6 (the claim as worded fails): all inputs below are binary32 values.
* Size (1,1) at (100000000,0): `left = 1e8 - 0.5` rounds to `1e8` and `left + width`
  rounds to `1e8` as well, so the rectangle is empty and the centre itself, at distance 0
  from `c`, is not contained.
* Size (2,2) at (16777218,0): `left = 16777217` rounds to `16777216`, so the point
  (16777216,0), at distance 2 > w/2 = 1 from `c`, is contained. -/
theorem box_containsPoint_with_rounded_edges :
    (∀ q ∈ [(100000000 : ℚ), 16777218, 16777216, 1, 2, 0], Binary32.representable q) ∧
    (Rounded.boxAt 100000000 0 1 1).getBounds
      = ⟨Binary32.fin 100000000, Binary32.fin (-1 / 2), Binary32.fin 1, Binary32.fin 1⟩ ∧
    (Binary32.fin 100000000 + Binary32.fin 1 : Binary32) = Binary32.fin 100000000 ∧
    (Rounded.boxAt 100000000 0 1 1).containsPoint ⟨Binary32.fin 100000000, Binary32.fin 0⟩
      = false ∧
    (Rounded.boxAt 16777218 0 2 2).getBounds
      = ⟨Binary32.fin 16777216, Binary32.fin (-1), Binary32.fin 2, Binary32.fin 2⟩ ∧
    (Rounded.boxAt 16777218 0 2 2).containsPoint ⟨Binary32.fin 16777216, Binary32.fin 0⟩
      = true := by
  decide!

/-- The containment test of a circle on a finite point when no operation of the
computation rounds. -/
theorem circle_containsPoint_exact_eq (c : Rounded.CircleCollider) (t : Rounded.Transform)
    (px py ox oy sx sy r x y : ℚ) (ht : c.m_transform = some t)
    (hpos : t.m_position = ⟨Binary32.fin px, Binary32.fin py⟩)
    (hoff : c.m_offset = ⟨Binary32.fin ox, Binary32.fin oy⟩)
    (hscale : t.m_scale = ⟨Binary32.fin sx, Binary32.fin sy⟩)
    (hr : c.m_radius = Binary32.fin r)
    (hexact : ∀ q ∈ [px + ox, py + oy, r * max sx sy, x - (px + ox), y - (py + oy),
      (x - (px + ox)) * (x - (px + ox)), (y - (py + oy)) * (y - (py + oy)),
      (x - (px + ox)) * (x - (px + ox)) + (y - (py + oy)) * (y - (py + oy)),
      r * max sx sy * (r * max sx sy)], Binary32.representable q) :
    c.containsPoint ⟨Binary32.fin x, Binary32.fin y⟩
      = decide ((x - (px + ox)) ^ 2 + (y - (py + oy)) ^ 2 ≤ (r * max sx sy) ^ 2) := by
  have r1 : Binary32.round (px + ox) = Binary32.fin (px + ox) := hexact _ (by simp)
  have r2 : Binary32.round (py + oy) = Binary32.fin (py + oy) := hexact _ (by simp)
  have r3 : Binary32.round (r * max sx sy) = Binary32.fin (r * max sx sy) :=
    hexact _ (by simp)
  have r4 : Binary32.round (x - (px + ox)) = Binary32.fin (x - (px + ox)) :=
    hexact _ (by simp)
  have r5 : Binary32.round (y - (py + oy)) = Binary32.fin (y - (py + oy)) :=
    hexact _ (by simp)
  have r6 : Binary32.round ((x - (px + ox)) * (x - (px + ox)))
      = Binary32.fin ((x - (px + ox)) * (x - (px + ox))) := hexact _ (by simp)
  have r7 : Binary32.round ((y - (py + oy)) * (y - (py + oy)))
      = Binary32.fin ((y - (py + oy)) * (y - (py + oy))) := hexact _ (by simp)
  have r8 : Binary32.round
      ((x - (px + ox)) * (x - (px + ox)) + (y - (py + oy)) * (y - (py + oy)))
      = Binary32.fin ((x - (px + ox)) * (x - (px + ox)) + (y - (py + oy)) * (y - (py + oy))) :=
    hexact _ (by simp)
  have r9 : Binary32.round (r * max sx sy * (r * max sx sy))
      = Binary32.fin (r * max sx sy * (r * max sx sy)) := hexact _ (by simp)
  have e1 : (Binary32.fin px + Binary32.fin ox : Binary32) = Binary32.fin (px + ox) := r1
  have e2 : (Binary32.fin py + Binary32.fin oy : Binary32) = Binary32.fin (py + oy) := r2
  have e0 : Binary32.max (Binary32.fin sx) (Binary32.fin sy) = Binary32.fin (max sx sy) := by
    unfold Binary32.max
    by_cases hlt : sx < sy
    · simp [Binary32.lt, hlt, max_eq_right (le_of_lt hlt)]
    · simp [Binary32.lt, hlt, max_eq_left (not_lt.mp hlt)]
  have e3 : (Binary32.fin r * Binary32.fin (max sx sy) : Binary32)
      = Binary32.fin (r * max sx sy) := r3
  have e4 : (Binary32.fin x - Binary32.fin (px + ox) : Binary32)
      = Binary32.fin (x - (px + ox)) := r4
  have e5 : (Binary32.fin y - Binary32.fin (py + oy) : Binary32)
      = Binary32.fin (y - (py + oy)) := r5
  have e6 : (Binary32.fin (x - (px + ox)) * Binary32.fin (x - (px + ox)) : Binary32)
      = Binary32.fin ((x - (px + ox)) * (x - (px + ox))) := r6
  have e7 : (Binary32.fin (y - (py + oy)) * Binary32.fin (y - (py + oy)) : Binary32)
      = Binary32.fin ((y - (py + oy)) * (y - (py + oy))) := r7
  have e8 : (Binary32.fin ((x - (px + ox)) * (x - (px + ox)))
      + Binary32.fin ((y - (py + oy)) * (y - (py + oy))) : Binary32)
      = Binary32.fin ((x - (px + ox)) * (x - (px + ox)) + (y - (py + oy)) * (y - (py + oy))) :=
    r8
  have e9 : (Binary32.fin (r * max sx sy) * Binary32.fin (r * max sx sy) : Binary32)
      = Binary32.fin (r * max sx sy * (r * max sx sy)) := r9
  simp only [Rounded.CircleCollider.containsPoint, ht, Rounded.Transform.getPosition,
    Rounded.Transform.getScale, hpos, hoff, hscale, hr, rounded_add_x, rounded_add_y,
    e0, e1, e2, e3, e4, e5, e6, e7, e8, e9, Binary32.le, pow_two]

/-- C7: for every attached CircleCollider and every finite point `p` for which every
arithmetic result of the test is a binary32 value (the centre `c = position + offset`, the
scaled radius `radius * max(scale.x, scale.y)`, the differences `p.x - c.x` and
`p.y - c.y`, their squares, the sum of the squares and the square of the scaled radius),
so that no operation rounds or overflows, `containsPoint(p)` is true exactly when
`(p.x - c.x)² + (p.y - c.y)² <= (radius * max(scale.x, scale.y))²`; under this condition
points exactly on the circle are contained. -/
theorem circle_containsPoint_iff_of_exact (c : Rounded.CircleCollider)
    (t : Rounded.Transform) (px py ox oy sx sy r x y : ℚ) (ht : c.m_transform = some t)
    (hpos : t.m_position = ⟨Binary32.fin px, Binary32.fin py⟩)
    (hoff : c.m_offset = ⟨Binary32.fin ox, Binary32.fin oy⟩)
    (hscale : t.m_scale = ⟨Binary32.fin sx, Binary32.fin sy⟩)
    (hr : c.m_radius = Binary32.fin r)
    (hexact : ∀ q ∈ [px + ox, py + oy, r * max sx sy, x - (px + ox), y - (py + oy),
      (x - (px + ox)) * (x - (px + ox)), (y - (py + oy)) * (y - (py + oy)),
      (x - (px + ox)) * (x - (px + ox)) + (y - (py + oy)) * (y - (py + oy)),
      r * max sx sy * (r * max sx sy)], Binary32.representable q) :
    (c.containsPoint ⟨Binary32.fin x, Binary32.fin y⟩ = true ↔
      (x - (px + ox)) ^ 2 + (y - (py + oy)) ^ 2 ≤ (r * max sx sy) ^ 2) ∧
    ((x - (px + ox)) ^ 2 + (y - (py + oy)) ^ 2 = (r * max sx sy) ^ 2 →
      c.containsPoint ⟨Binary32.fin x, Binary32.fin y⟩ = true) := by
  have h := circle_containsPoint_exact_eq c t px py ox oy sx sy r x y ht hpos hoff hscale hr
    hexact
  rw [h]
  exact ⟨by simp, fun heq => by simp [le_of_eq heq]⟩

/-- Witness of C7: radius 5 at the origin with scale (1,1); every intermediate result
for the point (3,4) is a small integer; the point lies exactly on the circle and is
contained. -/
theorem circle_containsPoint_iff_of_exact_witness :
    (Rounded.circleAtOrigin 5).containsPoint ⟨Binary32.fin 3, Binary32.fin 4⟩ = true :=
  (circle_containsPoint_iff_of_exact (Rounded.circleAtOrigin 5) {} 0 0 0 0 1 1 5 3 4 rfl rfl
    rfl rfl rfl (by decide!)).2 (by norm_num)

/-- C7 (the claim as worded fails): all inputs are binary32 values; the circles are at
the origin with scale (1,1) and zero offset.
* Radius 19315, point (11589,15452): the point lies exactly on the circle
  (`11589² + 15452² = 19315² = 373069225`), but `dx * dx` rounds to 134304928, the sum
  rounds to 373069248 and `scaledRadius * scaledRadius` rounds to 373069216, so the point
  is not contained.
* Radius `2 ^ 70`, point `(2 ^ 100, 0)`: the point lies far outside, but `dx * dx` and
  `scaledRadius * scaledRadius` both overflow to infinity and `inf <= inf` holds, so the
  point is contained. -/
theorem circle_containsPoint_with_rounded_squares :
    (∀ q ∈ [(11589 : ℚ), 15452, 19315, 2 ^ 70, 2 ^ 100, 0, 1], Binary32.representable q) ∧
    ((11589 : ℚ) - 0) ^ 2 + (15452 - 0) ^ 2 = (19315 * max 1 1) ^ 2 ∧
    (Binary32.fin 11589 * Binary32.fin 11589 : Binary32) = Binary32.fin 134304928 ∧
    (Binary32.fin 134304928 + Binary32.fin 238764304 : Binary32) = Binary32.fin 373069248 ∧
    (Binary32.fin 19315 * Binary32.fin 19315 : Binary32) = Binary32.fin 373069216 ∧
    (Rounded.circleAtOrigin 19315).containsPoint ⟨Binary32.fin 11589, Binary32.fin 15452⟩
      = false ∧
    ¬ (((2 : ℚ) ^ 100 - 0) ^ 2 + (0 - 0) ^ 2 ≤ (2 ^ 70 * max 1 1) ^ 2) ∧
    (Binary32.fin (2 ^ 100) * Binary32.fin (2 ^ 100) : Binary32) = Binary32.inf false ∧
    (Binary32.fin (2 ^ 70) * Binary32.fin (2 ^ 70) : Binary32) = Binary32.inf false ∧
    (Rounded.circleAtOrigin (2 ^ 70)).containsPoint ⟨Binary32.fin (2 ^ 100), Binary32.fin 0⟩
      = true := by
  decide!

/-! ## The round trip of `Transform` in exact arithmetic -/

/-- The matrix recomputed by `updateTransformMatrix`, entry by entry, in any field. -/
theorem anyField_fresh_eq {K : Type} [Field K] (trig : AnyField.Trig K)
    (t : AnyField.TransformState K) :
    t.fresh trig =
      { a00 := t.m_scale.x * trig.cos t.m_rotation
        a01 := -(t.m_scale.x * trig.sin t.m_rotation)
        a02 := t.m_scale.x * trig.cos t.m_rotation * t.m_position.x
          - t.m_scale.x * trig.sin t.m_rotation * t.m_position.y
        a10 := t.m_scale.y * trig.sin t.m_rotation
        a11 := t.m_scale.y * trig.cos t.m_rotation
        a12 := t.m_scale.y * trig.sin t.m_rotation * t.m_position.x
          + t.m_scale.y * trig.cos t.m_rotation * t.m_position.y
        a20 := 0
        a21 := 0
        a22 := 1 } := by
  simp only [AnyField.TransformState.fresh, AnyField.TransformState.updateTransformMatrix,
    AnyField.SfTransform.scale, AnyField.SfTransform.rotate, AnyField.SfTransform.translate,
    AnyField.SfTransform.combine, AnyField.SfTransform.Identity,
    AnyField.SfTransform.mk.injEq]
  refine ⟨?_, ?_, ?_, ?_, ?_, ?_, ?_, ?_, ?_⟩ <;> ring

/-- A read of the matrix changes neither position, rotation nor scale, in any field. -/
theorem anyField_fields_getTransformMatrix {K : Type} [Field K] (trig : AnyField.Trig K)
    (t : AnyField.TransformState K) :
    (t.getTransformMatrix trig).2.m_position = t.m_position ∧
    (t.getTransformMatrix trig).2.m_rotation = t.m_rotation ∧
    (t.getTransformMatrix trig).2.m_scale = t.m_scale := by
  unfold AnyField.TransformState.getTransformMatrix
  cases t.m_transformDirty <;> exact ⟨rfl, rfl, rfl⟩

/-- Every call on a `Transform` keeps the cache coherent, in any field. -/
theorem anyField_coherent_step {K : Type} [Field K] (trig : AnyField.Trig K)
    (t : AnyField.TransformState K) (op : AnyField.TransformOp K) (h : t.Coherent trig) :
    (t.step trig op).Coherent trig := by
  cases op with
  | getTransformMatrix =>
    intro _
    simp only [AnyField.TransformState.step]
    obtain ⟨hp, hr, hs⟩ := anyField_fields_getTransformMatrix trig t
    rw [anyField_fresh_eq, hp, hr, hs, ← anyField_fresh_eq]
    unfold AnyField.TransformState.getTransformMatrix
    cases hd : t.m_transformDirty with
    | true => rfl
    | false => exact h hd
  | setPosition position => intro hd; cases hd
  | translate offset => intro hd; cases hd
  | setRotation rotation => intro hd; cases hd
  | rotate angle => intro hd; cases hd
  | setScale scale => intro hd; cases hd

/-- Every object reached from its constructor by mutators and reads has a coherent
cache, in any field. -/
theorem anyField_coherent_run {K : Type} [Field K] (trig : AnyField.Trig K)
    (position : AnyField.Vector2f K) (rotation : K) (scale : AnyField.Vector2f K)
    (ops : List (AnyField.TransformOp K)) :
    (AnyField.TransformState.run trig ops
      (AnyField.TransformState.create position rotation scale)).Coherent trig := by
  have hgen : ∀ (l : List (AnyField.TransformOp K)) (t : AnyField.TransformState K),
      t.Coherent trig → (AnyField.TransformState.run trig l t).Coherent trig := by
    intro l
    induction l with
    | nil => intro t h; exact h
    | cons op l ih =>
      intro t h
      exact ih _ (anyField_coherent_step trig t op h)
  exact hgen ops _ (fun hd => by cases hd)

/-- On a coherent cache a read returns the freshly recomputed matrix, in any field. -/
theorem anyField_getTransformMatrix_of_coherent {K : Type} [Field K]
    (trig : AnyField.Trig K) (t : AnyField.TransformState K) (h : t.Coherent trig) :
    (t.getTransformMatrix trig).1 = t.fresh trig := by
  unfold AnyField.TransformState.getTransformMatrix
  cases hd : t.m_transformDirty with
  | true => rfl
  | false => exact h hd

/-- An affine matrix with non-zero determinant is undone by its `getInverse`, in any
field. -/
theorem anyField_getInverse_transformPoint {K : Type} [Field K] [DecidableEq K]
    (m : AnyField.SfTransform K) (h20 : m.a20 = 0) (h21 : m.a21 = 0) (h22 : m.a22 = 1)
    (hdet : m.a00 * m.a11 - m.a10 * m.a01 ≠ 0) (p : AnyField.Vector2f K) :
    m.getInverse.transformPoint (m.transformPoint p) = p := by
  have hd : m.a00 * (m.a22 * m.a11 - m.a21 * m.a12)
      - m.a10 * (m.a22 * m.a01 - m.a21 * m.a02)
      + m.a20 * (m.a12 * m.a01 - m.a11 * m.a02) = m.a00 * m.a11 - m.a10 * m.a01 := by
    rw [h20, h21, h22]
    ring
  unfold AnyField.SfTransform.getInverse
  simp only [hd, ne_eq, hdet, not_false_eq_true, if_true]
  cases p with
  | mk x y =>
    simp only [AnyField.SfTransform.transformPoint, h20, h21, h22,
      AnyField.Vector2f.mk.injEq]
    constructor
    · field_simp
      ring
    · field_simp
      ring

/-- The round trip in any field: for every Transform reached from its constructor by
mutators and reads, with `scale.x != 0` and `scale.y != 0` and with a cosine and a sine of
the rotation that are not both zero (their squares have a non-zero sum),
`inverseTransformPoint(transformPoint(p))` is `p`.  The real cosine and sine have sum of
squares 1; the values that `std::cos` and `std::sin` return are rational numbers whose sum
of squares is close to 1. -/
theorem anyField_round_trip {K : Type} [Field K] [DecidableEq K] (trig : AnyField.Trig K)
    (position : AnyField.Vector2f K) (rotation : K) (scale : AnyField.Vector2f K)
    (ops : List (AnyField.TransformOp K)) (p : AnyField.Vector2f K)
    (hx : (AnyField.TransformState.run trig ops
      (AnyField.TransformState.create position rotation scale)).m_scale.x ≠ 0)
    (hy : (AnyField.TransformState.run trig ops
      (AnyField.TransformState.create position rotation scale)).m_scale.y ≠ 0)
    (htrig : trig.cos (AnyField.TransformState.run trig ops
        (AnyField.TransformState.create position rotation scale)).m_rotation ^ 2
      + trig.sin (AnyField.TransformState.run trig ops
        (AnyField.TransformState.create position rotation scale)).m_rotation ^ 2 ≠ 0) :
    (((AnyField.TransformState.run trig ops
        (AnyField.TransformState.create position rotation scale)).transformPoint trig
          p).2.inverseTransformPoint trig
      ((AnyField.TransformState.run trig ops
        (AnyField.TransformState.create position rotation scale)).transformPoint trig
          p).1).1 = p := by
  have hc := anyField_coherent_run trig position rotation scale ops
  generalize AnyField.TransformState.run trig ops
    (AnyField.TransformState.create position rotation scale) = t at hx hy htrig hc ⊢
  have h1 : (t.getTransformMatrix trig).1 = t.fresh trig :=
    anyField_getTransformMatrix_of_coherent trig t hc
  have hc2 : (t.getTransformMatrix trig).2.Coherent trig :=
    anyField_coherent_step trig t AnyField.TransformOp.getTransformMatrix hc
  obtain ⟨hp, hr, hs⟩ := anyField_fields_getTransformMatrix trig t
  have h2 : ((t.getTransformMatrix trig).2.getTransformMatrix trig).1 = t.fresh trig := by
    rw [anyField_getTransformMatrix_of_coherent trig _ hc2, anyField_fresh_eq, hp, hr, hs,
      ← anyField_fresh_eq]
  simp only [AnyField.TransformState.transformPoint,
    AnyField.TransformState.inverseTransformPoint, h1, h2]
  have hf := anyField_fresh_eq trig t
  apply anyField_getInverse_transformPoint
  · rw [hf]
  · rw [hf]
  · rw [hf]
  · rw [hf]
    simp only
    have hdet : t.m_scale.x * trig.cos t.m_rotation * (t.m_scale.y * trig.cos t.m_rotation)
        - t.m_scale.y * trig.sin t.m_rotation * -(t.m_scale.x * trig.sin t.m_rotation)
        = t.m_scale.x * t.m_scale.y
          * (trig.cos t.m_rotation ^ 2 + trig.sin t.m_rotation ^ 2) := by
      ring
    rw [hdet]
    exact mul_ne_zero (mul_ne_zero hx hy) htrig

/-- The round trip with a cosine and a sine rounded to binary32: a Transform built at
position (1,2) with rotation 30 and scale (2,3) and then translated by (1,1) maps the
point (5,7) to world space and back to (5,7) when the matrix arithmetic is exact. -/
theorem anyField_round_trip_rounded_trig :
    (((AnyField.TransformState.run AnyField.sampleTrig
        [AnyField.TransformOp.translate ⟨1, 1⟩]
        (AnyField.TransformState.create ⟨1, 2⟩ 30 ⟨2, 3⟩)).transformPoint
          AnyField.sampleTrig ⟨5, 7⟩).2.inverseTransformPoint AnyField.sampleTrig
      ((AnyField.TransformState.run AnyField.sampleTrig
        [AnyField.TransformOp.translate ⟨1, 1⟩]
        (AnyField.TransformState.create ⟨1, 2⟩ 30 ⟨2, 3⟩)).transformPoint
          AnyField.sampleTrig ⟨5, 7⟩).1).1 = ⟨5, 7⟩ :=
  anyField_round_trip AnyField.sampleTrig ⟨1, 2⟩ 30 ⟨2, 3⟩
    [AnyField.TransformOp.translate ⟨1, 1⟩] ⟨5, 7⟩
    (by
      show (2 : ℚ) ≠ 0
      norm_num)
    (by
      show (3 : ℚ) ≠ 0
      norm_num)
    (by
      show AnyField.sampleTrig.cos 30 ^ 2 + AnyField.sampleTrig.sin 30 ^ 2 ≠ 0
      norm_num [AnyField.sampleTrig])

/-- C18: in exact real arithmetic, where `trig.cos a` and `trig.sin a` are the real
cosine and sine of one angle (the angle of `a` degrees, whatever the constant of the
conversion to radians), for every Transform reached from its constructor by mutators and
reads, with `scale.x != 0` and `scale.y != 0`, any rotation, any position and any point
`p`, `inverseTransformPoint(transformPoint(p))` is `p`. -/
theorem transform_round_trip (trig : AnyField.Trig ℝ)
    (htrig : ∀ a : ℝ, ∃ θ : ℝ, trig.cos a = Real.cos θ ∧ trig.sin a = Real.sin θ)
    (position : AnyField.Vector2f ℝ) (rotation : ℝ) (scale : AnyField.Vector2f ℝ)
    (ops : List (AnyField.TransformOp ℝ)) (p : AnyField.Vector2f ℝ)
    (hx : (AnyField.TransformState.run trig ops
      (AnyField.TransformState.create position rotation scale)).m_scale.x ≠ 0)
    (hy : (AnyField.TransformState.run trig ops
      (AnyField.TransformState.create position rotation scale)).m_scale.y ≠ 0) :
    (((AnyField.TransformState.run trig ops
        (AnyField.TransformState.create position rotation scale)).transformPoint trig
          p).2.inverseTransformPoint trig
      ((AnyField.TransformState.run trig ops
        (AnyField.TransformState.create position rotation scale)).transformPoint trig
          p).1).1 = p := by
  apply anyField_round_trip trig position rotation scale ops p hx hy
  obtain ⟨θ, hc, hs⟩ := htrig (AnyField.TransformState.run trig ops
    (AnyField.TransformState.create position rotation scale)).m_rotation
  rw [hc, hs, Real.cos_sq_add_sin_sq]
  exact one_ne_zero

/-- Witness of C18 with the real cosine and sine of the angle in degrees: a Transform
built at position (1,2) with rotation 30 and scale (2,3) and then translated by (1,1)
maps the point (5,7) to world space and back to (5,7). -/
theorem transform_round_trip_witness :
    (((AnyField.TransformState.run
        ⟨fun a => Real.cos (a * Real.pi / 180), fun a => Real.sin (a * Real.pi / 180)⟩
        [AnyField.TransformOp.translate ⟨1, 1⟩]
        (AnyField.TransformState.create ⟨1, 2⟩ 30 ⟨2, 3⟩)).transformPoint
          ⟨fun a => Real.cos (a * Real.pi / 180), fun a => Real.sin (a * Real.pi / 180)⟩
          ⟨5, 7⟩).2.inverseTransformPoint
        ⟨fun a => Real.cos (a * Real.pi / 180), fun a => Real.sin (a * Real.pi / 180)⟩
      ((AnyField.TransformState.run
        ⟨fun a => Real.cos (a * Real.pi / 180), fun a => Real.sin (a * Real.pi / 180)⟩
        [AnyField.TransformOp.translate ⟨1, 1⟩]
        (AnyField.TransformState.create ⟨1, 2⟩ 30 ⟨2, 3⟩)).transformPoint
          ⟨fun a => Real.cos (a * Real.pi / 180), fun a => Real.sin (a * Real.pi / 180)⟩
          ⟨5, 7⟩).1).1 = ⟨5, 7⟩ :=
  transform_round_trip
    ⟨fun a => Real.cos (a * Real.pi / 180), fun a => Real.sin (a * Real.pi / 180)⟩
    (fun a => ⟨a * Real.pi / 180, rfl, rfl⟩) ⟨1, 2⟩ 30 ⟨2, 3⟩
    [AnyField.TransformOp.translate ⟨1, 1⟩] ⟨5, 7⟩
    (by
      show (2 : ℝ) ≠ 0
      norm_num)
    (by
      show (3 : ℝ) ≠ 0
      norm_num)

/-! ## `onDetach` over the runs of a process -/

/-- Invoking `onDetach` on a batch of stored objects and erasing them keeps the
invariant. -/
theorem detachInv_detachAll (first next : ObjectId) (batch rest : List ObjectId) :
    ∀ calls : List HookCall, DetachInv first next calls (batch ++ rest) →
      DetachInv first next
        (calls ++ batch.map (fun p => ({ object := p, hook := Hook.onDetach } : HookCall)))
        rest := by
  induction batch with
  | nil => intro calls h; simpa using h
  | cons a batch ih =>
    intro calls h
    have h1 := ih _ (detachInv_detach first next calls a (batch ++ rest) h)
    simpa [List.append_assoc] using h1

/-- A new entity stores no object. -/
theorem objects_create (r : Runtime) (name : String) : (Entity.create r name).2.objects = [] :=
  rfl

/-- A registry call never lowers the allocation counter. -/
theorem nextObject_le_step (state : Runtime × Entity) (op : EntityOp) :
    state.1.nextObject ≤ (Entity.step state op).1.nextObject := by
  have hset : ∀ (e : Entity) (r : Runtime) (t : Transform),
      r.nextObject ≤ (e.addComponentTransform r t).1.nextObject := by
    intro e r t
    unfold Entity.addComponentTransform
    cases e.m_components.lookup TypeIndex.transform with
    | some existing => exact le_refl _
    | none => exact Nat.le_succ _
  cases op with
  | addComponent v =>
    simp only [Entity.step]
    unfold Entity.addComponent
    cases state.2.m_components.lookup v.typeIndex with
    | some existing => exact le_refl _
    | none =>
      by_cases hc : v.isCollider = true
      · simp only [hc, if_true]
        unfold Collider.onAttach
        cases (state.2.emplace state.1 v).2.1.getComponent TypeIndex.transform with
        | some transform => exact Nat.le_succ _
        | none =>
          exact le_trans (Nat.le_succ _)
            (hset (state.2.emplace state.1 v).2.1
              ((state.2.emplace state.1 v).1.call (state.2.emplace state.1 v).2.2
                Hook.onAttach) {})
      · simp only [hc]
        exact Nat.le_succ _
  | removeComponent T =>
    simp only [Entity.step]
    unfold Entity.removeComponent
    cases state.2.m_components.lookup T <;> exact le_refl _

/-- An object stored on an entity after a registry call was stored on it before the
call or has been allocated by the call. -/
theorem objects_step_subset (state : Runtime × Entity) (op : EntityOp) (x : ObjectId)
    (hx : x ∈ (Entity.step state op).2.objects) :
    x ∈ state.2.objects ∨ state.1.nextObject ≤ x := by
  have hset : ∀ (e : Entity) (r : Runtime) (t : Transform),
      x ∈ (e.addComponentTransform r t).2.1.objects → x ∈ e.objects ∨ r.nextObject ≤ x := by
    intro e r t hmem
    unfold Entity.addComponentTransform at hmem
    cases ht : e.m_components.lookup TypeIndex.transform with
    | some existing =>
      rw [ht] at hmem
      exact Or.inl hmem
    | none =>
      rw [ht] at hmem
      have ho := objects_emplace e r (ComponentValue.transform t) ht
      simp only at hmem
      rw [ho] at hmem
      rcases List.mem_cons.mp hmem with h | h
      · exact Or.inr (le_of_eq h.symm)
      · exact Or.inl h
  cases op with
  | addComponent v =>
    simp only [Entity.step] at hx
    unfold Entity.addComponent at hx
    cases hv : state.2.m_components.lookup v.typeIndex with
    | some existing =>
      rw [hv] at hx
      exact Or.inl hx
    | none =>
      rw [hv] at hx
      have ho := objects_emplace state.2 state.1 v hv
      by_cases hc : v.isCollider = true
      · simp only [hc, if_true] at hx
        unfold Collider.onAttach at hx
        cases ht : (state.2.emplace state.1 v).2.1.getComponent TypeIndex.transform with
        | some transform =>
          rw [ht] at hx
          have hx' := (objects_setColliderTransform _ _ _).mem_iff.mp hx
          rw [ho] at hx'
          rcases List.mem_cons.mp hx' with h | h
          · exact Or.inr (le_of_eq h.symm)
          · exact Or.inl h
        | none =>
          rw [ht] at hx
          have hx' := (objects_setColliderTransform _ _ _).mem_iff.mp hx
          rcases hset _ _ _ hx' with h | h
          · rw [ho] at h
            rcases List.mem_cons.mp h with h | h
            · exact Or.inr (le_of_eq h.symm)
            · exact Or.inl h
          · exact Or.inr (le_trans (Nat.le_succ _) h)
      · simp only [hc] at hx
        have hx' : x ∈ (state.2.emplace state.1 v).2.1.objects := hx
        rw [ho] at hx'
        rcases List.mem_cons.mp hx' with h | h
        · exact Or.inr (le_of_eq h.symm)
        · exact Or.inl h
  | removeComponent T =>
    simp only [Entity.step] at hx
    cases hT : state.2.getComponent T with
    | none =>
      simp only [Entity.getComponent] at hT
      simp only [Entity.removeComponent, hT] at hx
      exact Or.inl hx
    | some c =>
      have hp := objects_removeComponent state.2 state.1 T c hT
      exact Or.inl (hp.mem_iff.mpr (List.mem_cons_of_mem _ hx))

/-- Destroying an entity keeps the invariant when its objects leave the stored ones. -/
theorem detachInv_destroy (first : ObjectId) (r : Runtime) (g : Entity)
    (before after : List ObjectId) (hp : before.Perm (g.objects ++ after))
    (h : DetachInv first r.nextObject r.calls before) :
    DetachInv first (g.destroy r).nextObject (g.destroy r).calls after :=
  detachInv_detachAll first r.nextObject g.objects after r.calls
    (detachInv_perm _ _ _ _ _ hp h)

/-- A registry call on one entity keeps the invariant of all stored objects. -/
theorem detachInv_registry (first : ObjectId) (r : Runtime) (g : Entity) (op : EntityOp)
    (before after rest : List ObjectId) (hb : before.Perm (g.objects ++ rest))
    (ha : ((Entity.step (r, g) op).2.objects ++ rest).Perm after)
    (h : DetachInv first r.nextObject r.calls before) :
    DetachInv first (Entity.step (r, g) op).1.nextObject (Entity.step (r, g) op).1.calls
      after :=
  detachInv_perm _ _ _ _ _ ha
    (detachInv_step first (r, g) op rest (detachInv_perm _ _ _ _ _ hb h))

/-- In a list of entities with pairwise distinct ids, the entity found by its id is the
only one of that id, and replacing by id replaces it alone. -/
theorem replaceById_of_find (gs : List Entity) (id : Nat) (g g' : Entity)
    (hnd : (idsOf gs).Nodup) (hf : gs.find? (fun g => decide (g.m_id = id)) = some g) :
    ∃ pre post, gs = pre ++ g :: post ∧ replaceById gs id g' = pre ++ g' :: post ∧
      g.m_id = id ∧ ∀ x ∈ pre ++ post, x.m_id ≠ id := by
  obtain ⟨hgid, hmem⟩ := mem_of_find _ _ _ hf
  obtain ⟨pre, g0, post, hgs, -, -, hfind, -⟩ := find_eraseP_of_mem _ _ hmem
  have hgg : g0 = g := Option.some.inj (hfind.symm.trans hf)
  subst hgg
  have hnot : ∀ x ∈ pre ++ post, x.m_id ≠ id := by
    rw [hgs] at hnd
    simp only [idsOf, List.map_append, List.map_cons] at hnd
    have h1 := (List.nodup_cons.mp (List.nodup_middle.mp hnd)).1
    intro x hx heq
    apply h1
    rw [hgid, ← heq, ← List.map_append]
    exact List.mem_map_of_mem _ hx
  have hmap : ∀ l : List Entity, (∀ x ∈ l, x.m_id ≠ id) → replaceById l id g' = l := by
    intro l hl
    simp only [replaceById]
    conv_rhs => rw [← List.map_id l]
    apply List.map_congr_left
    intro x hx
    simp [hl x hx]
  refine ⟨pre, post, hgs, ?_, hgid, hnot⟩
  have hpre := hmap pre (fun x hx => hnot x (List.mem_append_left _ hx))
  have hpost := hmap post (fun x hx => hnot x (List.mem_append_right _ hx))
  simp only [replaceById] at hpre hpost ⊢
  rw [hgs, List.map_append, List.map_cons, hpre, hpost, if_pos hgid]

/-- Destroying the entities of a vector keeps the allocation counter. -/
theorem nextObject_destroyAll (gs : List Entity) :
    ∀ r : Runtime, (destroyAll gs r).nextObject = r.nextObject := by
  induction gs with
  | nil => intro r; rfl
  | cons g gs ih =>
    intro r
    simp only [destroyAll, List.foldl_cons]
    exact (ih (g.destroy r)).trans rfl

/-- Every step of a process keeps the `onDetach` bookkeeping of all objects ever
allocated: the objects stored on the entities alive are pairwise distinct, an object
still stored has received no `onDetach` and an object no longer stored has received it
exactly once. -/
theorem detachInv_process_step (p : Process) (op : ProcessOp) (hI : p.Inv)
    (hG : DetachInv 0 p.runtime.nextObject p.runtime.calls p.objects) :
    DetachInv 0 (p.step op).runtime.nextObject (p.step op).runtime.calls
      (p.step op).objects := by
  have hnds : (idsOf p.scene.m_gameObjects).Nodup := (List.nodup_append.mp hI.2.2.1).1
  have hnda : (idsOf p.standalone).Nodup := (List.nodup_append.mp hI.2.2.1).2.1
  cases op with
  | construct name =>
    have ho : (p.step (ProcessOp.construct name)).objects = p.objects := by
      simp [Process.step, Process.objects, Process.alive, List.flatMap_append, objects_create]
    rw [ho]
    exact hG
  | createGameObject name =>
    have ho : (p.step (ProcessOp.createGameObject name)).objects = p.objects := by
      simp [Process.step, Process.objects, Process.alive, List.flatMap_append,
        Scene.createGameObject, objects_create]
    rw [ho]
    exact hG
  | addNull => exact hG
  | destroy id =>
    simp only [Process.step]
    cases hf : p.standalone.find? (fun g => decide (g.m_id = id)) with
    | none => exact hG
    | some g =>
      obtain ⟨-, hmem⟩ := mem_of_find _ _ _ hf
      obtain ⟨pre, g', post, hgs, -, -, hfind, herase⟩ := find_eraseP_of_mem _ _ hmem
      have hgg : g' = g := Option.some.inj (hfind.symm.trans hf)
      subst hgg
      refine detachInv_destroy 0 p.runtime g' _ _ ?_ hG
      rw [List.perm_iff_count]
      intro a
      simp only [Process.objects, Process.alive, herase]
      simp only [hgs, List.flatMap_append, List.flatMap_cons, List.count_append]
      omega
  | addGameObject id =>
    simp only [Process.step]
    cases hf : p.standalone.find? (fun g => decide (g.m_id = id)) with
    | none => exact hG
    | some g =>
      obtain ⟨-, hmem⟩ := mem_of_find _ _ _ hf
      obtain ⟨pre, g', post, hgs, -, -, hfind, herase⟩ := find_eraseP_of_mem _ _ hmem
      have hgg : g' = g := Option.some.inj (hfind.symm.trans hf)
      subst hgg
      refine detachInv_perm _ _ _ _ _ ?_ hG
      rw [List.perm_iff_count]
      intro a
      simp only [Process.objects, Process.alive, herase, Scene.addGameObject]
      simp only [hgs, List.flatMap_append, List.flatMap_cons, List.flatMap_nil,
        List.append_nil, List.count_append]
      omega
  | removeGameObject id =>
    simp only [Process.step]
    by_cases hmem : id ∈ idsOf p.scene.m_gameObjects
    · obtain ⟨pre, g, post, hgs, hg, -, hrem⟩ :=
        removeGameObject_of_mem p.scene p.runtime id hI.2.2.2.2.1 hmem
      rw [hrem]
      refine detachInv_destroy 0 p.runtime g _ _ ?_ hG
      rw [List.perm_iff_count]
      intro a
      simp only [Process.objects, Process.alive, hgs, List.flatMap_append,
        List.flatMap_cons, List.count_append]
      omega
    · rw [removeGameObject_of_not_mem p.scene p.runtime id hI.2.2.2.2.1 hmem]
      exact hG
  | clear =>
    simp only [Process.step, Scene.clear]
    rw [nextObject_destroyAll, destroyAll_calls]
    have ho : p.objects = p.scene.m_gameObjects.flatMap (fun g => g.objects)
        ++ p.standalone.flatMap (fun g => g.objects) := by
      simp [Process.objects, Process.alive, List.flatMap_append]
    rw [ho] at hG
    have h1 := detachInv_detachAll 0 p.runtime.nextObject _ _ p.runtime.calls hG
    simpa [Process.objects, Process.alive, Scene.updateStatistics] using h1
  | registry inScene id op =>
    cases inScene with
    | true =>
      simp only [Process.step]
      cases hf : p.scene.m_gameObjects.find? (fun g => decide (g.m_id = id)) with
      | none => exact hG
      | some g =>
        obtain ⟨pre, post, hgs, hrep, -, -⟩ := replaceById_of_find _ id g
          (Entity.step (p.runtime, g) op).2 hnds hf
        refine detachInv_registry 0 p.runtime g op _ _
          ((pre ++ post).flatMap (fun g => g.objects)
            ++ p.standalone.flatMap (fun g => g.objects)) ?_ ?_ hG
        · rw [List.perm_iff_count]
          intro a
          simp only [Process.objects, Process.alive, hgs, List.flatMap_append,
            List.flatMap_cons, List.count_append]
          omega
        · rw [List.perm_iff_count]
          intro a
          simp only [Process.objects, Process.alive, hrep, List.flatMap_append,
            List.flatMap_cons, List.count_append]
          omega
    | false =>
      simp only [Process.step]
      cases hf : p.standalone.find? (fun g => decide (g.m_id = id)) with
      | none => exact hG
      | some g =>
        obtain ⟨pre, post, hgs, hrep, -, -⟩ := replaceById_of_find _ id g
          (Entity.step (p.runtime, g) op).2 hnda hf
        refine detachInv_registry 0 p.runtime g op _ _
          (p.scene.m_gameObjects.flatMap (fun g => g.objects)
            ++ (pre ++ post).flatMap (fun g => g.objects)) ?_ ?_ hG
        · rw [List.perm_iff_count]
          intro a
          simp only [Process.objects, Process.alive, hgs, List.flatMap_append,
            List.flatMap_cons, List.count_append]
          omega
        · rw [List.perm_iff_count]
          intro a
          simp only [Process.objects, Process.alive, hrep, List.flatMap_append,
            List.flatMap_cons, List.count_append]
          omega

/-- In every run of a process the `onDetach` bookkeeping holds of all objects ever
allocated. -/
theorem detachInv_process_run (ops : List ProcessOp) :
    DetachInv 0 (Process.run ops).runtime.nextObject (Process.run ops).runtime.calls
      (Process.run ops).objects := by
  have hgen : ∀ (l : List ProcessOp) (p : Process), p.Inv →
      DetachInv 0 p.runtime.nextObject p.runtime.calls p.objects →
      DetachInv 0 (l.foldl Process.step p).runtime.nextObject
        (l.foldl Process.step p).runtime.calls (l.foldl Process.step p).objects := by
    intro l
    induction l with
    | nil => intro p _ h; exact h
    | cons op l ih =>
      intro p hI hG
      exact ih _ (inv_step p op hI) (detachInv_process_step p op hI hG)
  refine hgen ops {} (inv_run []) ⟨List.nodup_nil, ?_, ?_, ?_⟩
  · intro o ho
    cases ho
  · intro hc hmem
    cases hmem
  · intro o _ ho
    exact absurd ho (Nat.not_lt_zero o)

/-- A step of a process never lowers the allocation counter. -/
theorem nextObject_le_process_step (p : Process) (op : ProcessOp) :
    p.runtime.nextObject ≤ (p.step op).runtime.nextObject := by
  cases op with
  | construct name => exact le_refl _
  | createGameObject name => exact le_refl _
  | addNull => exact le_refl _
  | destroy id =>
    simp only [Process.step]
    cases p.standalone.find? (fun g => decide (g.m_id = id)) <;> exact le_refl _
  | addGameObject id =>
    simp only [Process.step]
    cases p.standalone.find? (fun g => decide (g.m_id = id)) <;> exact le_refl _
  | removeGameObject id =>
    simp only [Process.step, Scene.removeGameObject]
    cases p.scene.m_gameObjectsById.lookup id with
    | none => exact le_refl _
    | some q =>
      cases p.scene.m_gameObjects.find? (fun obj => decide (obj.m_id = id)) <;>
        exact le_refl _
  | clear =>
    simp only [Process.step, Scene.clear]
    rw [nextObject_destroyAll]
  | registry inScene id op =>
    cases inScene with
    | true =>
      simp only [Process.step]
      cases p.scene.m_gameObjects.find? (fun g => decide (g.m_id = id)) with
      | none => exact le_refl _
      | some g => exact nextObject_le_step (p.runtime, g) op
    | false =>
      simp only [Process.step]
      cases p.standalone.find? (fun g => decide (g.m_id = id)) with
      | none => exact le_refl _
      | some g => exact nextObject_le_step (p.runtime, g) op

/-- An entity of a list after a replacement by id is an entity of the list before, or
the replacement put in the place of an entity of that id. -/
theorem mem_replaceById (gs : List Entity) (id : Nat) (g g' : Entity)
    (h : g' ∈ replaceById gs id g) : g' ∈ gs ∨ (g' = g ∧ id ∈ idsOf gs) := by
  simp only [replaceById, List.mem_map] at h
  obtain ⟨x, hx, hxe⟩ := h
  by_cases hid : x.m_id = id
  · rw [if_pos hid] at hxe
    exact Or.inr ⟨hxe.symm, List.mem_map.mpr ⟨x, hx, hid⟩⟩
  · rw [if_neg hid] at hxe
    exact Or.inl (hxe ▸ hx)

/-- An object stored on an entity after a step of a process was stored before the step
on the entity of the same id, or has been allocated by the step: no object moves from
one entity to another. -/
theorem stored_step_origin (p : Process) (op : ProcessOp) (g' : Entity)
    (hg' : g' ∈ (p.step op).alive) (x : ObjectId) (hx : x ∈ g'.objects) :
    (∃ g ∈ p.alive, g.m_id = g'.m_id ∧ x ∈ g.objects) ∨ p.runtime.nextObject ≤ x := by
  have hkeep : g' ∈ p.alive →
      (∃ g ∈ p.alive, g.m_id = g'.m_id ∧ x ∈ g.objects) ∨ p.runtime.nextObject ≤ x :=
    fun h => Or.inl ⟨g', h, rfl, hx⟩
  have hreg : ∀ (gs : List Entity) (id : Nat) (g : Entity) (eop : EntityOp),
      gs.find? (fun g => decide (g.m_id = id)) = some g → (∀ y ∈ gs, y ∈ p.alive) →
      g' ∈ replaceById gs id (Entity.step (p.runtime, g) eop).2 →
      (∃ g ∈ p.alive, g.m_id = g'.m_id ∧ x ∈ g.objects) ∨ p.runtime.nextObject ≤ x := by
    intro gs id g eop hf hsub hmem
    rcases mem_replaceById gs id _ g' hmem with h | ⟨h, -⟩
    · exact hkeep (hsub g' h)
    · subst h
      rcases objects_step_subset (p.runtime, g) eop x hx with h1 | h1
      · exact Or.inl ⟨g, hsub g (List.mem_of_find?_eq_some hf),
          (m_id_run [eop] (p.runtime, g)).symm, h1⟩
      · exact Or.inr h1
  cases op with
  | construct name =>
    simp only [Process.step, Process.alive, List.mem_append, List.mem_singleton] at hg'
    rcases hg' with h | h | h
    · exact hkeep (List.mem_append_left _ h)
    · exact hkeep (List.mem_append_right _ h)
    · subst h
      rw [objects_create] at hx
      cases hx
  | createGameObject name =>
    simp only [Process.step, Process.alive, Scene.createGameObject, List.mem_append,
      List.mem_singleton] at hg'
    rcases hg' with (h | h) | h
    · exact hkeep (List.mem_append_left _ h)
    · subst h
      rw [objects_create] at hx
      cases hx
    · exact hkeep (List.mem_append_right _ h)
  | addNull => exact hkeep hg'
  | destroy id =>
    simp only [Process.step] at hg'
    cases hf : p.standalone.find? (fun g => decide (g.m_id = id)) with
    | none =>
      rw [hf] at hg'
      exact hkeep hg'
    | some g =>
      rw [hf] at hg'
      simp only [Process.alive, List.mem_append] at hg'
      rcases hg' with h | h
      · exact hkeep (List.mem_append_left _ h)
      · exact hkeep (List.mem_append_right _ (List.mem_of_mem_eraseP h))
  | addGameObject id =>
    simp only [Process.step] at hg'
    cases hf : p.standalone.find? (fun g => decide (g.m_id = id)) with
    | none =>
      rw [hf] at hg'
      exact hkeep hg'
    | some g =>
      rw [hf] at hg'
      simp only [Process.alive, Scene.addGameObject, List.mem_append,
        List.mem_singleton] at hg'
      rcases hg' with (h | h) | h
      · exact hkeep (List.mem_append_left _ h)
      · subst h
        exact hkeep (List.mem_append_right _ (List.mem_of_find?_eq_some hf))
      · exact hkeep (List.mem_append_right _ (List.mem_of_mem_eraseP h))
  | removeGameObject id =>
    have hsub := (findGameObjects_spec p.scene (fun _ => true)).2.2.2.2.2.2.2 p.runtime id
    simp only [Process.step, Process.alive, List.mem_append] at hg'
    rcases hg' with h | h
    · exact hkeep (List.mem_append_left _ (hsub.subset h))
    · exact hkeep (List.mem_append_right _ h)
  | clear =>
    simp only [Process.step, Process.alive, Scene.clear, Scene.updateStatistics,
      List.nil_append] at hg'
    exact hkeep (List.mem_append_right _ hg')
  | registry inScene id eop =>
    cases inScene with
    | true =>
      simp only [Process.step] at hg'
      cases hf : p.scene.m_gameObjects.find? (fun g => decide (g.m_id = id)) with
      | none =>
        rw [hf] at hg'
        exact hkeep hg'
      | some g =>
        rw [hf] at hg'
        simp only [Process.alive, List.mem_append] at hg'
        rcases hg' with h | h
        · exact hreg _ id g eop hf (fun y hy => List.mem_append_left _ hy) h
        · exact hkeep (List.mem_append_right _ h)
    | false =>
      simp only [Process.step] at hg'
      cases hf : p.standalone.find? (fun g => decide (g.m_id = id)) with
      | none =>
        rw [hf] at hg'
        exact hkeep hg'
      | some g =>
        rw [hf] at hg'
        simp only [Process.alive, List.mem_append] at hg'
        rcases hg' with h | h
        · exact hkeep (List.mem_append_left _ h)
        · exact hreg _ id g eop hf (fun y hy => List.mem_append_right _ hy) h

/-- An object already allocated stays on the entity of the same id over any further
steps of the process, for as long as it is stored at all. -/
theorem stored_foldl_origin (o : ObjectId) (id : Nat) (l : List ProcessOp) :
    ∀ p : Process, o < p.runtime.nextObject →
      (∀ g ∈ p.alive, o ∈ g.objects → g.m_id = id) →
      o < (l.foldl Process.step p).runtime.nextObject ∧
      ∀ g ∈ (l.foldl Process.step p).alive, o ∈ g.objects → g.m_id = id := by
  induction l with
  | nil => intro p ho hQ; exact ⟨ho, hQ⟩
  | cons op l ih =>
    intro p ho hQ
    refine ih (p.step op) (lt_of_lt_of_le ho (nextObject_le_process_step p op)) ?_
    intro g' hg' hmem
    rcases stored_step_origin p op g' hg' o hmem with ⟨g, hg, hid, hgo⟩ | hfresh
    · rw [← hid]
      exact hQ g hg hgo
    · exact absurd (lt_of_lt_of_le ho hfresh) (lt_irrefl _)

/-- After `destroy`, `removeGameObject` or `clear` no entity of the process has the id of
the entity they destroyed. -/
theorem id_gone_after_destruction (p : Process) (hI : p.Inv) (id : Nat) :
    (id ∈ idsOf p.standalone →
      ∀ g ∈ (p.step (ProcessOp.destroy id)).alive, g.m_id ≠ id) ∧
    (id ∈ idsOf p.scene.m_gameObjects →
      (∀ g ∈ (p.step (ProcessOp.removeGameObject id)).alive, g.m_id ≠ id) ∧
      ∀ g ∈ (p.step ProcessOp.clear).alive, g.m_id ≠ id) := by
  obtain ⟨-, -, hnd, -, hidx, -⟩ := hI
  obtain ⟨hnds, hnda, hdis⟩ := List.nodup_append.mp hnd
  have hgone : ∀ (gs pre post : List Entity) (g : Entity), (idsOf gs).Nodup →
      gs = pre ++ g :: post → ∀ x ∈ pre ++ post, x.m_id ≠ g.m_id := by
    intro gs pre post g hn hgs x hx heq
    rw [hgs] at hn
    simp only [idsOf, List.map_append, List.map_cons] at hn
    apply (List.nodup_cons.mp (List.nodup_middle.mp hn)).1
    rw [← heq, ← List.map_append]
    exact List.mem_map_of_mem _ hx
  constructor
  · intro hmem g hg
    obtain ⟨pre, g0, post, hgs, hg0, -, hfind, herase⟩ := find_eraseP_of_mem _ _ hmem
    simp only [Process.step, hfind, Process.alive, herase] at hg
    rcases List.mem_append.mp hg with h | h
    · intro heq
      exact hdis (List.mem_map.mpr ⟨g, h, heq⟩) hmem
    · rw [← hg0]
      exact hgone _ pre post g0 hnda hgs g h
  · intro hmem
    have hstand : ∀ g ∈ p.standalone, g.m_id ≠ id := by
      intro g hg heq
      exact hdis hmem (List.mem_map.mpr ⟨g, hg, heq⟩)
    constructor
    · intro g hg
      obtain ⟨pre, g0, post, hgs, hg0, -, hrem⟩ :=
        removeGameObject_of_mem p.scene p.runtime id hidx hmem
      simp only [Process.step, hrem, Process.alive] at hg
      rcases List.mem_append.mp hg with h | h
      · rw [← hg0]
        exact hgone _ pre post g0 hnds hgs g h
      · exact hstand g h
    · intro g hg
      simp only [Process.step, Process.alive, Scene.clear, Scene.updateStatistics,
        List.nil_append] at hg
      exact hstand g hg

/-- C15: take any run of a process (entities constructed, registry calls on them in any
interleaving, entities moved into the scene, removed, cleared or destroyed) and any
component object `o` that is stored at some moment of the run on the entity of id `id`.
At every later moment of the run `o` has received `onDetach` exactly once if it is no
longer stored and never if it still is, so never twice; it is stored on no entity but
that of id `id`; once no entity of that id is alive it has received `onDetach` exactly
once; and each way of destroying the entity, directly, through
`Scene::removeGameObject` or through `Scene::clear`, leaves exactly one `onDetach` on
`o` in total, whether `o` was removed from the entity before or was still stored. -/
theorem onDetach_exactly_once (ops ops' : List ProcessOp) (id : Nat) (o : ObjectId)
    (hstored : ∃ g ∈ (Process.run ops).alive, g.m_id = id ∧ o ∈ g.objects) :
    (Process.run (ops ++ ops')).runtime.calls.count { object := o, hook := Hook.onDetach }
      = (if o ∈ (Process.run (ops ++ ops')).objects then 0 else 1) ∧
    (∀ g ∈ (Process.run (ops ++ ops')).alive, o ∈ g.objects → g.m_id = id) ∧
    ((∀ g ∈ (Process.run (ops ++ ops')).alive, g.m_id ≠ id) →
      (Process.run (ops ++ ops')).runtime.calls.count
        { object := o, hook := Hook.onDetach } = 1) ∧
    (id ∈ idsOf (Process.run (ops ++ ops')).standalone →
      ((Process.run (ops ++ ops')).step (ProcessOp.destroy id)).runtime.calls.count
        { object := o, hook := Hook.onDetach } = 1) ∧
    (id ∈ idsOf (Process.run (ops ++ ops')).scene.m_gameObjects →
      ((Process.run (ops ++ ops')).step (ProcessOp.removeGameObject id)).runtime.calls.count
        { object := o, hook := Hook.onDetach } = 1 ∧
      ((Process.run (ops ++ ops')).step ProcessOp.clear).runtime.calls.count
        { object := o, hook := Hook.onDetach } = 1) := by
  obtain ⟨g0, hg0, hid0, ho0⟩ := hstored
  have hG0 := detachInv_process_run ops
  have hmem0 : o ∈ (Process.run ops).objects :=
    List.mem_flatMap.mpr ⟨g0, hg0, ho0⟩
  have hlt0 : o < (Process.run ops).runtime.nextObject := hG0.2.1 o hmem0
  have hQ0 : ∀ g ∈ (Process.run ops).alive, o ∈ g.objects → g.m_id = id := by
    intro g hg hgo
    by_cases heq : g = g0
    · rw [heq]
      exact hid0
    · have hpw := (List.nodup_flatMap.mp hG0.1).2
      have hdis := hpw.forall (fun a b hab => hab.symm) hg hg0 heq
      exact absurd ho0 (fun h => hdis hgo h)
  have key : ∀ l : List ProcessOp,
      (Process.run (ops ++ l)).runtime.calls.count { object := o, hook := Hook.onDetach }
        = (if o ∈ (Process.run (ops ++ l)).objects then 0 else 1) ∧
      (∀ g ∈ (Process.run (ops ++ l)).alive, o ∈ g.objects → g.m_id = id) ∧
      ((∀ g ∈ (Process.run (ops ++ l)).alive, g.m_id ≠ id) →
        (Process.run (ops ++ l)).runtime.calls.count
          { object := o, hook := Hook.onDetach } = 1) := by
    intro l
    have hrun : Process.run (ops ++ l) = l.foldl Process.step (Process.run ops) := by
      simp [Process.run, List.foldl_append]
    obtain ⟨hlt, hQ⟩ := stored_foldl_origin o id l (Process.run ops) hlt0 hQ0
    rw [← hrun] at hlt hQ
    have hG := detachInv_process_run (ops ++ l)
    have hcount := hG.2.2.2 o (Nat.zero_le o) hlt
    refine ⟨hcount, hQ, ?_⟩
    intro hgone
    rw [hcount, if_neg]
    intro hmem
    obtain ⟨g, hg, hgo⟩ := List.mem_flatMap.mp hmem
    exact hgone g hg (hQ g hg hgo)
  have hstep : ∀ op : ProcessOp,
      Process.run (ops ++ (ops' ++ [op])) = (Process.run (ops ++ ops')).step op := by
    intro op
    simp [Process.run, List.foldl_append]
  obtain ⟨hd, hr⟩ := id_gone_after_destruction (Process.run (ops ++ ops'))
    (inv_run (ops ++ ops')) id
  refine ⟨(key ops').1, (key ops').2.1, (key ops').2.2, ?_, ?_⟩
  · intro hmem
    have h := (key (ops' ++ [ProcessOp.destroy id])).2.2
    rw [hstep] at h
    exact h (hd hmem)
  · intro hmem
    have h1 := (key (ops' ++ [ProcessOp.removeGameObject id])).2.2
    have h2 := (key (ops' ++ [ProcessOp.clear])).2.2
    rw [hstep] at h1 h2
    exact ⟨h1 (hr hmem).1, h2 (hr hmem).2⟩

/-- Witness of C15 on the sample process: after `sampleAttachOps` the Transform of the
entity 1 is the object 1, stored beside the components of the entity 2.  After
`sampleDetachOps`, which removes that Transform, adds a component to the entity 2 and
removes the entity 1 from the scene, the object 1 has received `onDetach` once, and so
has the BoxCollider of the entity 1, the object 0, which was still stored when the entity
was destroyed. -/
theorem onDetach_exactly_once_witness :
    (Process.run (sampleAttachOps ++ sampleDetachOps)).runtime.calls.count
      { object := 1, hook := Hook.onDetach } = 1 ∧
    (Process.run (sampleAttachOps ++ sampleDetachOps)).runtime.calls.count
      { object := 0, hook := Hook.onDetach } = 1 := by
  have h : ∃ g, (Process.run sampleAttachOps).alive[0]? = some g ∧ g.m_id = 1 ∧
      1 ∈ g.objects ∧ 0 ∈ g.objects := ⟨_, rfl, rfl, by decide, by decide⟩
  obtain ⟨g, hg, hid, h1, h0⟩ := h
  exact ⟨(onDetach_exactly_once sampleAttachOps sampleDetachOps 1 1
      ⟨g, List.getElem?_mem hg, hid, h1⟩).2.2.1 (by decide),
    (onDetach_exactly_once sampleAttachOps sampleDetachOps 1 0
      ⟨g, List.getElem?_mem hg, hid, h0⟩).2.2.1 (by decide)⟩

/-! ## Removal by id in a scene with a move-constructed copy -/

/-- C22 (the claim as worded fails): `sampleMovedScene` holds an entity and the object
move-constructed from it, which has the same id 1.  The first `removeGameObject(1)`
returns true, erases the index entry of the id and the first of the two entities; the
second `removeGameObject(1)` returns false although an entity with the id 1 is still in
the scene. -/
theorem removeGameObject_false_with_entity_present :
    idsOf sampleMovedScene.getAllGameObjects = [1, 1] ∧
    (sampleMovedScene.removeGameObject {} 1).2.2 = true ∧
    idsOf (sampleMovedScene.removeGameObject {} 1).2.1.getAllGameObjects = [1] ∧
    ((sampleMovedScene.removeGameObject {} 1).2.1.removeGameObject {} 1).2.2 = false := by
  decide

end RoadSim.Core
